import Mathlib

/-!
# The property-schema engine of `libnm-core/nm-setting.c`

A shallow embedding of the generic setting engine: the property schema of a
setting class, the conversion of a setting to and from its D-Bus hash, the
flag-driven comparison of two settings and the handling of secrets.

Conventions of the embedding.

* A `GType`, a `GParamFlags` word and every flags enumeration is a natural
  number; a C test `(flags & MASK)` is `flag_set flags MASK`.
* A `GValue` is a tagged value; `G_VALUE_TYPE` gives its tag.
* A setting object is its `GType` together with the value each of its
  properties currently holds. The class (`NM_SETTING_GET_CLASS (setting)`) is
  passed to every operation explicitly, as `klass`; its virtual methods are the
  implementations `nm_setting_class_init` installs.
* The object system is GLib's. `g_object_new` yields an object whose
  properties hold their declared defaults (and whose property "name" reads as
  the name of the setting), `g_object_get_property` reads the
  value a property holds, and `g_object_set_property` stores a value unless
  GLib refuses the assignment. Conversion between value kinds and range
  validation are not represented: a value is stored as it is or not at all.
* The generic value comparer `nm_property_compare` and the type of the
  connection setting are parameters of the operations that use them; so are the
  type of the PPPoE setting and the test `g_type_is_a (type, NM_TYPE_SETTING)`.
* The two static tables of the registry are an explicit state: a function that
  reads them takes a `Registry`, and `_nm_register_setting` returns how the
  call ended together with the tables as it leaves them. A C function that
  reads through a NULL pointer returns `none`.
* The arrays attached to the setting types (the overrides registered on a type
  and its cached schema) are an explicit state too, `GTypeQData`; the
  registration functions and the caching schema builder take it and return it.
  The operations on settings read the schema through `NMSettingClass`, which
  carries the override arrays of the type and its ancestors.
* A `GHashTable` keyed by strings is an association list whose order is the
  order in which `g_hash_table_iter_next` hands out its entries.
* A C function that reports failure through a `GError **` returns `Except`.
* A user function called back with a `user_data` pointer takes the user data
  and returns them as it leaves them, so that what it was called with can be
  read off the user data afterwards.
-/

namespace Libnm

/-! ## GLib: types, values, parameter specifications -/

/-- A GLib type identifier. -/
abbrev GType := Nat

def G_TYPE_BOOLEAN : GType := 20
def G_TYPE_INT : GType := 24
def G_TYPE_UINT : GType := 28
def G_TYPE_INT64 : GType := 40
def G_TYPE_UINT64 : GType := 44
def G_TYPE_STRING : GType := 64

/-- A `GValue`: the fundamental kinds the settings use, and boxed values
(string lists, byte arrays, hash tables), which carry the type they were
registered under and their content; a string and a boxed value may be NULL. -/
inductive GValue where
  | boolean (v_boolean : Bool)
  | int (v_int : Int)
  | uint (v_uint : Nat)
  | int64 (v_int64 : Int)
  | uint64 (v_uint64 : Nat)
  | string (v_string : Option String)
  | boxed (g_type : GType) (v_boxed : Option (List Nat))
  deriving DecidableEq, Repr

/-- The type tag of a value (`G_VALUE_TYPE`). -/
def G_VALUE_TYPE : GValue → GType
  | .boolean _ => G_TYPE_BOOLEAN
  | .int _ => G_TYPE_INT
  | .uint _ => G_TYPE_UINT
  | .int64 _ => G_TYPE_INT64
  | .uint64 _ => G_TYPE_UINT64
  | .string _ => G_TYPE_STRING
  | .boxed t _ => t

/-- The C truth value of `flags & mask`. -/
def flag_set (flags mask : Nat) : Bool := (flags &&& mask) != 0

/-- The `GParamFlags` of GLib. -/
def G_PARAM_READABLE : Nat := 1
def G_PARAM_WRITABLE : Nat := 2
def G_PARAM_CONSTRUCT : Nat := 4
def G_PARAM_CONSTRUCT_ONLY : Nat := 8
def G_PARAM_USER_SHIFT : Nat := 8

/-- Modelled from the spec: the descriptor flags declared in `nm-setting.h`
(secret, fuzzy-ignore, inferrable), as bits of the `GParamFlags` word above
`G_PARAM_USER_SHIFT`. -/
def NM_SETTING_PARAM_REQUIRED : Nat := 1 <<< (0 + G_PARAM_USER_SHIFT)
def NM_SETTING_PARAM_SECRET : Nat := 1 <<< (1 + G_PARAM_USER_SHIFT)
def NM_SETTING_PARAM_FUZZY_IGNORE : Nat := 1 <<< (2 + G_PARAM_USER_SHIFT)
def NM_SETTING_PARAM_INFERRABLE : Nat := 1 <<< (7 + G_PARAM_USER_SHIFT)

/-- A `GParamSpec`: name, value type, flags and the declared default. -/
structure GParamSpec where
  name : String
  value_type : GType
  flags : Nat
  default_value : GValue
  deriving DecidableEq, Repr

/-- A `GError`: the string of its domain quark, its code and its message. -/
structure GError where
  domain : String
  code : Nat
  message : String
  deriving DecidableEq, Repr

/-- A string-keyed `GHashTable`, in iteration order. -/
abbrev GHashTable (β : Type) := List (String × β)

/-- The value stored under `key`, if any. -/
def g_hash_table_lookup {β : Type} (hash : GHashTable β) (key : String) : Option β :=
  match hash with
  | [] => none
  | (k, v) :: rest => if k = key then some v else g_hash_table_lookup rest key

/-- Insertion: the value of an existing key is replaced, a new key is added. -/
def g_hash_table_insert {β : Type} (hash : GHashTable β) (key : String) (value : β) :
    GHashTable β :=
  match hash with
  | [] => [(key, value)]
  | (k, v) :: rest =>
    if k = key then (k, value) :: rest else (k, v) :: g_hash_table_insert rest key value

/-! ## Settings and their classes -/

/-- A setting object: its type and the current value of each property. -/
structure NMSetting where
  g_type : GType
  values : String → GValue

/-- A connection: the settings it holds. -/
structure NMConnection where
  settings : List NMSetting

/-- The type `NMSettingPropertyGetFunc`: the value to serialize, or `none` for FALSE. -/
abbrev NMSettingPropertyGetFunc := NMSetting → NMConnection → String → Option GValue

/-- The type `NMSettingPropertySetFunc`: the setting as the function leaves it, or the
error it reports with FALSE. -/
abbrev NMSettingPropertySetFunc :=
  NMSetting → GHashTable (GHashTable GValue) → String → GValue → Except GError NMSetting

/-- The type `NMSettingPropertyNotSetFunc`, with the same convention. -/
abbrev NMSettingPropertyNotSetFunc :=
  NMSetting → GHashTable (GHashTable GValue) → String → Except GError NMSetting

/-- The type `NMSettingPropertyTransformFunc`: from the source value to the target value. -/
abbrev NMSettingPropertyTransformFunc := GValue → GValue

/-- The property descriptor `NMSettingProperty`; a NULL pointer is `none`. -/
structure NMSettingProperty where
  name : String
  param_spec : Option GParamSpec
  dbus_type : GType
  get_func : Option NMSettingPropertyGetFunc
  set_func : Option NMSettingPropertySetFunc
  not_set_func : Option NMSettingPropertyNotSetFunc
  to_dbus : Option NMSettingPropertyTransformFunc
  from_dbus : Option NMSettingPropertyTransformFunc

/-- A setting class: its type, the name its type is registered under (the
`info->name` that `_ensure_setting_info` fetches when an instance is
constructed), the `GParamSpec`s that `g_object_class_list_properties` returns
for it, and the override arrays attached to the type and to each of its
ancestors below `G_TYPE_OBJECT`, most derived first (`none` where a type has no
array). -/
structure NMSettingClass where
  g_type : GType
  setting_name : String
  property_specs : List GParamSpec
  type_overrides : List (Option (List NMSettingProperty))

/-- The `GParamSpec` of the class named `property_name`, if any. -/
def g_object_class_find_property (klass : NMSettingClass) (property_name : String) :
    Option GParamSpec :=
  klass.property_specs.find? (fun pspec => pspec.name = property_name)

/-- Whether `value` is the declared default of `pspec`. -/
def g_param_value_defaults (pspec : GParamSpec) (value : GValue) : Bool :=
  value = pspec.default_value

/-- Whether a value of type `src_type` may be stored where `dest_type` is
expected: the value kinds here have no subtypes, so the types must agree. -/
def g_value_type_compatible (src_type dest_type : GType) : Bool :=
  src_type = dest_type

/-- The name of the property `NMSetting:name`. -/
def NM_SETTING_NAME : String := "name"

/-- A new object of the class: the property "name" reads as the name of the
setting (`get_property` of `NMSetting`), every other property holds its
declared default. -/
def g_object_new (klass : NMSettingClass) : NMSetting :=
  { g_type := klass.g_type
    values := fun property_name =>
      if property_name = NM_SETTING_NAME then .string (some klass.setting_name)
      else
        match g_object_class_find_property klass property_name with
        | some pspec => pspec.default_value
        | none => .boolean false }

/-- The current value of a property. -/
def g_object_get_property (object : NMSetting) (property_name : String) : GValue :=
  object.values property_name

/-- Assignment of a property of a constructed object. GLib refuses (with a
warning, leaving the object alone) a name the class does not have, a property
that is not writable or is construct-only, and a value of another type. -/
def g_object_set_property (klass : NMSettingClass) (object : NMSetting)
    (property_name : String) (value : GValue) : NMSetting :=
  match g_object_class_find_property klass property_name with
  | none => object
  | some pspec =>
    if !flag_set pspec.flags G_PARAM_WRITABLE then object
    else if flag_set pspec.flags G_PARAM_CONSTRUCT_ONLY then object
    else if !g_value_type_compatible (G_VALUE_TYPE value) pspec.value_type then object
    else { object with values := Function.update object.values property_name value }

/-! ## The property schema -/

/-- The first descriptor named `name`. -/
def find_property (properties : List NMSettingProperty) (name : String) :
    Option NMSettingProperty :=
  match properties with
  | [] => none
  | property :: rest => if name = property.name then some property else find_property rest name

/-- The schema of a class: one descriptor per `GParamSpec`, the first override
of that name if there is one and the default descriptor otherwise, followed by
the overrides that name no `GParamSpec`. -/
def nm_setting_class_ensure_properties (klass : NMSettingClass) : List NMSettingProperty :=
  let overrides : List NMSettingProperty :=
    (klass.type_overrides.map (fun type_overrides => type_overrides.getD [])).flatten
  klass.property_specs.map (fun pspec =>
      match find_property overrides pspec.name with
      | some override => override
      | none =>
        { name := pspec.name, param_spec := some pspec, dbus_type := 0,
          get_func := none, set_func := none, not_set_func := none,
          to_dbus := none, from_dbus := none })
    ++ overrides.filter (fun override =>
      (g_object_class_find_property klass override.name).isNone)

def nm_setting_class_get_properties (klass : NMSettingClass) : List NMSettingProperty :=
  nm_setting_class_ensure_properties klass

def nm_setting_class_find_property (klass : NMSettingClass) (property_name : String) :
    Option NMSettingProperty :=
  find_property (nm_setting_class_ensure_properties klass) property_name

/-! ## Serialization to and from the D-Bus hash -/

/-- Modelled from the spec: the serialization modes of `nm-connection.h`
(all, no-secrets, only-secrets). -/
def NM_CONNECTION_SERIALIZE_ALL : Nat := 0
def NM_CONNECTION_SERIALIZE_NO_SECRETS : Nat := 1
def NM_CONNECTION_SERIALIZE_ONLY_SECRETS : Nat := 2

/-- The test `prop_spec && (prop_spec->flags & NM_SETTING_PARAM_SECRET)`. -/
def prop_spec_is_secret (prop_spec : Option GParamSpec) : Bool :=
  match prop_spec with
  | some pspec => flag_set pspec.flags NM_SETTING_PARAM_SECRET
  | none => false

/-- The body of the loop of `_nm_setting_to_dbus` for one descriptor: the
value to insert under the descriptor's name, or `none` when the descriptor is
skipped or its value is not set. -/
def to_dbus_property (setting : NMSetting) (connection : NMConnection) (flags : Nat)
    (property : NMSettingProperty) : Option GValue :=
  let prop_spec := property.param_spec
  if prop_spec.isNone && property.get_func.isNone then none
  else if (match prop_spec with
      | some pspec => !flag_set pspec.flags G_PARAM_WRITABLE
      | none => false) then none
  else if flag_set flags NM_CONNECTION_SERIALIZE_NO_SECRETS && prop_spec_is_secret prop_spec then
    none
  else if flag_set flags NM_CONNECTION_SERIALIZE_ONLY_SECRETS
      && !prop_spec_is_secret prop_spec then
    none
  else
    match property.get_func, prop_spec with
    | some get_func, _ => get_func setting connection property.name
    | none, some pspec =>
      let value := g_object_get_property setting pspec.name
      let set := !g_param_value_defaults pspec value
      if set then
        match property.to_dbus with
        | some to_dbus => some (to_dbus value)
        | none => some value
      else none
    | none, none => none

/-- The loop of `_nm_setting_to_dbus` over the descriptors, filling `hash`. -/
def to_dbus_loop (setting : NMSetting) (connection : NMConnection) (flags : Nat)
    (properties : List NMSettingProperty) (hash : GHashTable GValue) : GHashTable GValue :=
  match properties with
  | [] => hash
  | property :: rest =>
    match to_dbus_property setting connection flags property with
    | some value =>
      to_dbus_loop setting connection flags rest (g_hash_table_insert hash property.name value)
    | none => to_dbus_loop setting connection flags rest hash

def _nm_setting_to_dbus (klass : NMSettingClass) (setting : NMSetting)
    (connection : NMConnection) (flags : Nat) : GHashTable GValue :=
  to_dbus_loop setting connection flags (nm_setting_class_get_properties klass) []

/-- The first loop of `_nm_setting_new_from_dbus`: the keys it warns about
("Ignoring invalid property"). The loop does nothing else. -/
def new_from_dbus_warnings (klass : NMSettingClass) (setting_hash : GHashTable GValue) :
    List String :=
  (setting_hash.map Prod.fst).filter (fun prop_name =>
    (nm_setting_class_find_property klass prop_name).isNone)

/-- The body of the second loop of `_nm_setting_new_from_dbus` for one
descriptor: the setting as the step leaves it, or the error of the set or
not-set function that returned FALSE. -/
def new_from_dbus_property (klass : NMSettingClass) (setting_hash : GHashTable GValue)
    (connection_hash : GHashTable (GHashTable GValue)) (property : NMSettingProperty)
    (setting : NMSetting) : Except GError NMSetting :=
  match g_hash_table_lookup setting_hash property.name, property.set_func,
    property.not_set_func, property.param_spec with
  | some value, some set_func, _, _ => set_func setting connection_hash property.name value
  | none, _, some not_set_func, _ => not_set_func setting connection_hash property.name
  | some value, _, _, some param_spec =>
    if !flag_set param_spec.flags G_PARAM_WRITABLE then .ok setting
    else
      match property.from_dbus with
      | some from_dbus =>
        .ok (g_object_set_property klass setting param_spec.name (from_dbus value))
      | none => .ok (g_object_set_property klass setting param_spec.name value)
  | _, _, _, _ => .ok setting

/-- The second loop of `_nm_setting_new_from_dbus`: the descriptors still to
process and the setting built so far. A failed step drops the setting and
leaves the loop with the error. -/
def new_from_dbus_loop (klass : NMSettingClass) (setting_hash : GHashTable GValue)
    (connection_hash : GHashTable (GHashTable GValue)) (properties : List NMSettingProperty)
    (setting : NMSetting) : Except GError NMSetting :=
  match properties with
  | [] => .ok setting
  | property :: rest =>
    match new_from_dbus_property klass setting_hash connection_hash property setting with
    | .error error => .error error
    | .ok setting => new_from_dbus_loop klass setting_hash connection_hash rest setting

def _nm_setting_new_from_dbus (klass : NMSettingClass) (setting_hash : GHashTable GValue)
    (connection_hash : GHashTable (GHashTable GValue)) : Except GError NMSetting :=
  new_from_dbus_loop klass setting_hash connection_hash
    (nm_setting_class_get_properties klass) (g_object_new klass)

/-! ## Secret flags -/

/-- Modelled from the spec: the error domain and codes of `nm-setting.h`
(`PropertyNotFound`, `PropertyNotSecret`, `PropertyTypeMismatch`). -/
def NM_SETTING_ERROR : String := "nm-setting-error-quark"
def NM_SETTING_ERROR_UNKNOWN : Nat := 0
def NM_SETTING_ERROR_PROPERTY_NOT_FOUND : Nat := 1
def NM_SETTING_ERROR_PROPERTY_NOT_SECRET : Nat := 2
def NM_SETTING_ERROR_PROPERTY_TYPE_MISMATCH : Nat := 3

/-- Modelled from the spec: the secret flags of `nm-setting.h` (none,
agent-owned, not-saved, not-required). -/
def NM_SETTING_SECRET_FLAG_NONE : Nat := 0
def NM_SETTING_SECRET_FLAG_AGENT_OWNED : Nat := 1
def NM_SETTING_SECRET_FLAG_NOT_SAVED : Nat := 2
def NM_SETTING_SECRET_FLAG_NOT_REQUIRED : Nat := 4
def NM_SETTING_SECRET_FLAGS_ALL : Nat := 7

/-- The check of `is_secret_prop`: the name is in the schema and its
descriptor has a secret `GParamSpec`. -/
def is_secret_prop (klass : NMSettingClass) (secret_name : String) : Except GError Unit :=
  match nm_setting_class_find_property klass secret_name with
  | none =>
    .error { domain := NM_SETTING_ERROR, code := NM_SETTING_ERROR_PROPERTY_NOT_FOUND,
             message := "Secret " ++ secret_name ++ " not provided by this setting" }
  | some property =>
    if !prop_spec_is_secret property.param_spec then
      .error { domain := NM_SETTING_ERROR, code := NM_SETTING_ERROR_PROPERTY_NOT_SECRET,
               message := "Property " ++ secret_name ++ " is not a secret" }
    else .ok ()

/-- The read `g_object_get (setting, flags_prop, &flags, NULL)`: GLib leaves
`flags` alone when the class has no property of that name. -/
def g_object_get_flags (klass : NMSettingClass) (object : NMSetting) (flags_prop : String)
    (flags : Nat) : Nat :=
  match g_object_class_find_property klass flags_prop with
  | none => flags
  | some _ =>
    match g_object_get_property object flags_prop with
    | .uint v => v
    | _ => flags

/-- The class method `get_secret_flags`: the flags stored in the property
`<secret_name>-flags`, or the error of the failed check. -/
def get_secret_flags (klass : NMSettingClass) (setting : NMSetting) (secret_name : String)
    (verify_secret : Bool) : Except GError Nat :=
  match (if verify_secret then is_secret_prop klass secret_name else .ok ()) with
  | .error error => .error error
  | .ok _ =>
    .ok (g_object_get_flags klass setting (secret_name ++ "-flags") NM_SETTING_SECRET_FLAG_NONE)

def nm_setting_get_secret_flags (klass : NMSettingClass) (setting : NMSetting)
    (secret_name : String) : Except GError Nat :=
  get_secret_flags klass setting secret_name true

/-- The value of `out_flags` after `nm_setting_get_secret_flags (setting, name,
&out_flags, NULL)` when `out_flags` was initialised to
`NM_SETTING_SECRET_FLAG_NONE`: a failed call leaves it alone. -/
def secret_flags_or_none (klass : NMSettingClass) (setting : NMSetting)
    (secret_name : String) : Nat :=
  match nm_setting_get_secret_flags klass setting secret_name with
  | .ok flags => flags
  | .error _ => NM_SETTING_SECRET_FLAG_NONE

/-! ## Comparison -/

/-- Modelled from the spec: the compare flags of `nm-setting.h`. -/
def NM_SETTING_COMPARE_FLAG_EXACT : Nat := 0x00000000
def NM_SETTING_COMPARE_FLAG_FUZZY : Nat := 0x00000001
def NM_SETTING_COMPARE_FLAG_IGNORE_ID : Nat := 0x00000002
def NM_SETTING_COMPARE_FLAG_IGNORE_SECRETS : Nat := 0x00000004
def NM_SETTING_COMPARE_FLAG_IGNORE_AGENT_OWNED_SECRETS : Nat := 0x00000008
def NM_SETTING_COMPARE_FLAG_IGNORE_NOT_SAVED_SECRETS : Nat := 0x00000010
def NM_SETTING_COMPARE_FLAG_INFERRABLE : Nat := 0x80000000

/-- Modelled from the spec: the diff result bits of `nm-setting.h`. -/
def NM_SETTING_DIFF_RESULT_UNKNOWN : Nat := 0x00000000
def NM_SETTING_DIFF_RESULT_IN_A : Nat := 0x00000001
def NM_SETTING_DIFF_RESULT_IN_B : Nat := 0x00000002

def NM_SETTING_CONNECTION_ID : String := "id"

/-- The second half of `compare_property`: the values of the property on both
sides, through the to-D-Bus transform of its descriptor when there is one,
handed to the value comparer. -/
def compare_property_values (nm_property_compare : GValue → GValue → Int)
    (klass : NMSettingClass) (setting other : NMSetting) (prop_spec : GParamSpec) : Bool :=
  match nm_setting_class_find_property klass prop_spec.name with
  | none => false
  | some property =>
    let value1 := g_object_get_property setting prop_spec.name
    let value2 := g_object_get_property other prop_spec.name
    match property.to_dbus with
    | some to_dbus => nm_property_compare (to_dbus value1) (to_dbus value2) == 0
    | none => nm_property_compare value1 value2 == 0

/-- The class method `compare_property`. The generic value comparer
`nm_property_compare` (zero for equal values) is a parameter. -/
def compare_property (nm_property_compare : GValue → GValue → Int) (klass : NMSettingClass)
    (setting other : NMSetting) (prop_spec : GParamSpec) (flags : Nat) : Bool :=
  if flag_set prop_spec.flags NM_SETTING_PARAM_SECRET then
    let a_secret_flags := secret_flags_or_none klass setting prop_spec.name
    let b_secret_flags := secret_flags_or_none klass other prop_spec.name
    if a_secret_flags != b_secret_flags then false
    else if flag_set flags NM_SETTING_COMPARE_FLAG_IGNORE_AGENT_OWNED_SECRETS
        && flag_set a_secret_flags NM_SETTING_SECRET_FLAG_AGENT_OWNED then true
    else if flag_set flags NM_SETTING_COMPARE_FLAG_IGNORE_NOT_SAVED_SECRETS
        && flag_set a_secret_flags NM_SETTING_SECRET_FLAG_NOT_SAVED then true
    else compare_property_values nm_property_compare klass setting other prop_spec
  else compare_property_values nm_property_compare klass setting other prop_spec

/-- The skip rules at the head of the loop of `nm_setting_compare`. -/
def compare_skips (flags : Nat) (prop_spec : GParamSpec) : Bool :=
  (flag_set flags NM_SETTING_COMPARE_FLAG_FUZZY
      && flag_set prop_spec.flags (NM_SETTING_PARAM_FUZZY_IGNORE ||| NM_SETTING_PARAM_SECRET))
  || (flag_set flags NM_SETTING_COMPARE_FLAG_INFERRABLE
      && !flag_set prop_spec.flags NM_SETTING_PARAM_INFERRABLE)
  || (flag_set flags NM_SETTING_COMPARE_FLAG_IGNORE_SECRETS
      && flag_set prop_spec.flags NM_SETTING_PARAM_SECRET)

/-- The loop of `nm_setting_compare` from the point where `same` is still
TRUE: it leaves at the first property that compares unequal. -/
def compare_loop (nm_property_compare : GValue → GValue → Int) (klass : NMSettingClass)
    (a b : NMSetting) (flags : Nat) (property_specs : List GParamSpec) : Bool :=
  match property_specs with
  | [] => true
  | prop_spec :: rest =>
    if compare_skips flags prop_spec then
      compare_loop nm_property_compare klass a b flags rest
    else if compare_property nm_property_compare klass a b prop_spec flags then
      compare_loop nm_property_compare klass a b flags rest
    else false

/-- The function `nm_setting_compare`; `klass` is the class of `a`. -/
def nm_setting_compare (nm_property_compare : GValue → GValue → Int) (klass : NMSettingClass)
    (a b : NMSetting) (flags : Nat) : Bool :=
  if a.g_type != b.g_type then false
  else compare_loop nm_property_compare klass a b flags klass.property_specs

/-- The function `should_compare_prop`; `nm_type_setting_connection` is the
type of the connection setting, of which `setting` must be an instance for the
IGNORE_ID rule. -/
def should_compare_prop (nm_type_setting_connection : GType) (klass : NMSettingClass)
    (setting : NMSetting) (prop_name : String) (comp_flags prop_flags : Nat) : Bool :=
  if flag_set comp_flags NM_SETTING_COMPARE_FLAG_FUZZY
      && flag_set prop_flags (NM_SETTING_PARAM_FUZZY_IGNORE ||| NM_SETTING_PARAM_SECRET) then
    false
  else if flag_set comp_flags NM_SETTING_COMPARE_FLAG_INFERRABLE
      && !flag_set prop_flags NM_SETTING_PARAM_INFERRABLE then
    false
  else if flag_set prop_flags NM_SETTING_PARAM_SECRET
      && flag_set comp_flags NM_SETTING_COMPARE_FLAG_IGNORE_SECRETS then
    false
  else if flag_set prop_flags NM_SETTING_PARAM_SECRET
      && (flag_set comp_flags NM_SETTING_COMPARE_FLAG_IGNORE_AGENT_OWNED_SECRETS
        && flag_set (secret_flags_or_none klass setting prop_name)
          NM_SETTING_SECRET_FLAG_AGENT_OWNED) then
    false
  else if flag_set prop_flags NM_SETTING_PARAM_SECRET
      && (flag_set comp_flags NM_SETTING_COMPARE_FLAG_IGNORE_NOT_SAVED_SECRETS
        && flag_set (secret_flags_or_none klass setting prop_name)
          NM_SETTING_SECRET_FLAG_NOT_SAVED) then
    false
  else if flag_set comp_flags NM_SETTING_COMPARE_FLAG_IGNORE_ID
      && setting.g_type == nm_type_setting_connection
      && prop_name == NM_SETTING_CONNECTION_ID then
    false
  else true

/-- The body of the loop of `nm_setting_diff` for one `GParamSpec`, acting on
the results table. -/
def diff_property (nm_property_compare : GValue → GValue → Int)
    (nm_type_setting_connection : GType) (klass : NMSettingClass) (a : NMSetting)
    (b : Option NMSetting) (flags a_result b_result : Nat) (results : GHashTable Nat)
    (prop_spec : GParamSpec) : GHashTable Nat :=
  if !should_compare_prop nm_type_setting_connection klass a prop_spec.name flags
      prop_spec.flags then results
  else if prop_spec.name = NM_SETTING_NAME then results
  else
    match b with
    | some b =>
      if !compare_property nm_property_compare klass a b prop_spec flags then
        let r := NM_SETTING_DIFF_RESULT_UNKNOWN
        let r := if !g_param_value_defaults prop_spec (g_object_get_property a prop_spec.name)
          then r ||| a_result else r
        let r := if !g_param_value_defaults prop_spec (g_object_get_property b prop_spec.name)
          then r ||| b_result else r
        g_hash_table_insert results prop_spec.name
          (((g_hash_table_lookup results prop_spec.name).getD 0) ||| r)
      else results
    | none =>
      g_hash_table_insert results prop_spec.name
        (((g_hash_table_lookup results prop_spec.name).getD 0) ||| a_result)

/-- The function `nm_setting_diff`: the returned boolean and `*results` as the
call leaves it (`none` for NULL). `klass` is the class of `a`. -/
def nm_setting_diff (nm_property_compare : GValue → GValue → Int)
    (nm_type_setting_connection : GType) (klass : NMSettingClass) (a : NMSetting)
    (b : Option NMSetting) (flags : Nat) (invert_results : Bool)
    (results : Option (GHashTable Nat)) : Bool × Option (GHashTable Nat) :=
  if (match b with
      | some b => a.g_type != b.g_type
      | none => false) then (false, results)
  else
    let a_result :=
      if invert_results then NM_SETTING_DIFF_RESULT_IN_B else NM_SETTING_DIFF_RESULT_IN_A
    let b_result :=
      if invert_results then NM_SETTING_DIFF_RESULT_IN_A else NM_SETTING_DIFF_RESULT_IN_B
    let results_created := results.isNone
    let table := klass.property_specs.foldl
      (diff_property nm_property_compare nm_type_setting_connection klass a b flags
        a_result b_result) (results.getD [])
    if results_created && table.isEmpty then (true, none) else (false, some table)

/-! ## Updating secrets -/

/-- The result codes `NMSettingUpdateSecretResult`. -/
inductive NMSettingUpdateSecretResult where
  | NM_SETTING_UPDATE_SECRET_ERROR
  | NM_SETTING_UPDATE_SECRET_SUCCESS_MODIFIED
  | NM_SETTING_UPDATE_SECRET_SUCCESS_UNCHANGED
  deriving DecidableEq, Repr

open NMSettingUpdateSecretResult

/-- The string a `GValue` holds, NULL for a value of another kind. -/
def g_value_get_string (value : GValue) : Option String :=
  match value with
  | .string v => v
  | _ => none

/-- The class method `update_one_secret`: the result code, the setting as the
call leaves it, and the error it sets. -/
def update_one_secret (klass : NMSettingClass) (setting : NMSetting) (key : String)
    (value : GValue) : NMSettingUpdateSecretResult × NMSetting × Option GError :=
  match nm_setting_class_find_property klass key with
  | none =>
    (NM_SETTING_UPDATE_SECRET_ERROR, setting,
      some { domain := NM_SETTING_ERROR, code := NM_SETTING_ERROR_PROPERTY_NOT_FOUND,
             message := key })
  | some property =>
    match property.param_spec with
    | none => (NM_SETTING_UPDATE_SECRET_SUCCESS_UNCHANGED, setting, none)
    | some prop_spec =>
      if !flag_set prop_spec.flags NM_SETTING_PARAM_SECRET then
        (NM_SETTING_UPDATE_SECRET_SUCCESS_UNCHANGED, setting, none)
      else if g_value_type_compatible (G_VALUE_TYPE value) prop_spec.value_type then
        if G_VALUE_TYPE value = G_TYPE_STRING ∧ prop_spec.value_type = G_TYPE_STRING
            ∧ g_value_get_string (g_object_get_property setting prop_spec.name)
              = g_value_get_string value then
          (NM_SETTING_UPDATE_SECRET_SUCCESS_UNCHANGED, setting, none)
        else
          (NM_SETTING_UPDATE_SECRET_SUCCESS_MODIFIED,
            g_object_set_property klass setting prop_spec.name value, none)
      else
        (NM_SETTING_UPDATE_SECRET_ERROR, setting,
          some { domain := NM_SETTING_ERROR, code := NM_SETTING_ERROR_PROPERTY_TYPE_MISMATCH,
                 message := key })

/-- The loop of `_nm_setting_update_secrets` over the entries still to come, with
the result so far. -/
def update_secrets_loop (klass : NMSettingClass) (secrets : GHashTable GValue)
    (setting : NMSetting) (result : NMSettingUpdateSecretResult) :
    NMSettingUpdateSecretResult × NMSetting × Option GError :=
  match secrets with
  | [] => (result, setting, none)
  | (secret_key, secret_value) :: rest =>
    match update_one_secret klass setting secret_key secret_value with
    | (NM_SETTING_UPDATE_SECRET_ERROR, setting, tmp_error) =>
      (NM_SETTING_UPDATE_SECRET_ERROR, setting, tmp_error)
    | (NM_SETTING_UPDATE_SECRET_SUCCESS_MODIFIED, setting, _) =>
      update_secrets_loop klass rest setting NM_SETTING_UPDATE_SECRET_SUCCESS_MODIFIED
    | (NM_SETTING_UPDATE_SECRET_SUCCESS_UNCHANGED, setting, _) =>
      update_secrets_loop klass rest setting result

/-- The function `_nm_setting_update_secrets`: the result code, the setting as
the call leaves it, and the error. -/
def _nm_setting_update_secrets (klass : NMSettingClass) (setting : NMSetting)
    (secrets : GHashTable GValue) : NMSettingUpdateSecretResult × NMSetting × Option GError :=
  update_secrets_loop klass secrets setting NM_SETTING_UPDATE_SECRET_SUCCESS_UNCHANGED

/-! ## Clearing secrets -/

/-- The default value of a `GParamSpec`, as `g_param_value_set_default` stores it. -/
def g_param_value_set_default (pspec : GParamSpec) : GValue :=
  pspec.default_value

/-- The loop of `_nm_setting_clear_secrets` over the `GParamSpec`s still to
come, with the setting and the flag `changed` so far. -/
def clear_secrets_loop (klass : NMSettingClass) (property_specs : List GParamSpec)
    (setting : NMSetting) (changed : Bool) : Bool × NMSetting :=
  match property_specs with
  | [] => (changed, setting)
  | prop_spec :: rest =>
    if flag_set prop_spec.flags NM_SETTING_PARAM_SECRET then
      if !g_param_value_defaults prop_spec (g_object_get_property setting prop_spec.name) then
        clear_secrets_loop klass rest
          (g_object_set_property klass setting prop_spec.name
            (g_param_value_set_default prop_spec))
          true
      else clear_secrets_loop klass rest setting changed
    else clear_secrets_loop klass rest setting changed

/-- The function `_nm_setting_clear_secrets`: the returned flag and the setting
as the call leaves it. -/
def _nm_setting_clear_secrets (klass : NMSettingClass) (setting : NMSetting) :
    Bool × NMSetting :=
  clear_secrets_loop klass klass.property_specs setting false

/-! ## The registry of setting types -/

/-- An error quark; zero is no quark. -/
abbrev GQuark := Nat

def G_TYPE_INVALID : GType := 0
def G_TYPE_NONE : GType := 4
def G_MAXUINT32 : Nat := 4294967295

/-- Modelled from the spec: the name of the connection setting, declared in
`nm-setting-connection.h`. -/
def NM_SETTING_CONNECTION_SETTING_NAME : String := "connection"

/-- The record `SettingInfo`. -/
structure SettingInfo where
  name : String
  type : GType
  priority : Nat
  error_quark : GQuark
  deriving DecidableEq, Repr

/-- A `GHashTable` keyed by `GType`, in iteration order. -/
abbrev GTypeHashTable (β : Type) := List (GType × β)

/-- The value stored under the type `key`, if any. -/
def g_type_hash_table_lookup {β : Type} (hash : GTypeHashTable β) (key : GType) : Option β :=
  match hash with
  | [] => none
  | (k, v) :: rest => if k = key then some v else g_type_hash_table_lookup rest key

/-- Insertion under a type: the value of an existing key is replaced, a new
key is added. -/
def g_type_hash_table_insert {β : Type} (hash : GTypeHashTable β) (key : GType) (value : β) :
    GTypeHashTable β :=
  match hash with
  | [] => [(key, value)]
  | (k, v) :: rest =>
    if k = key then (k, value) :: rest else (k, v) :: g_type_hash_table_insert rest key value

/-- The two static tables `registered_settings` and
`registered_settings_by_type`. -/
structure Registry where
  registered_settings : GHashTable SettingInfo
  registered_settings_by_type : GTypeHashTable SettingInfo
  deriving DecidableEq, Repr

/-- The tables as `_ensure_registered` creates them. -/
def _ensure_registered : Registry :=
  { registered_settings := [], registered_settings_by_type := [] }

/-- How a call of `_nm_register_setting` ends: it returns normally, it returns
from a failed `g_return_if_fail`, or it stops the program at the failed
`g_assert_cmpstr`. -/
inductive RegisterOutcome where
  | returned
  | return_if_fail
  | assertion_failed
  deriving DecidableEq, Repr

/-- The function `_nm_register_setting`: how the call ends and the tables as it
leaves them. The name is a string, so the test `name != NULL && *name` is the
test that it is not empty. -/
def _nm_register_setting (registry : Registry) (name : String) (type : GType)
    (priority : Nat) (error_quark : GQuark) : RegisterOutcome × Registry :=
  if !(name != "") then (.return_if_fail, registry)
  else if !(type != G_TYPE_INVALID) then (.return_if_fail, registry)
  else if !(type != G_TYPE_NONE) then (.return_if_fail, registry)
  else if !(error_quark != 0) then (.return_if_fail, registry)
  else if !(priority ≤ 4) then (.return_if_fail, registry)
  else
    match g_hash_table_lookup registry.registered_settings name with
    | some info =>
      if !(info.type == type) then (.return_if_fail, registry)
      else if !(info.error_quark == error_quark) then (.return_if_fail, registry)
      else if !(info.priority == priority) then (.return_if_fail, registry)
      else if !(info.name == name) then (.return_if_fail, registry)
      else (.returned, registry)
    | none =>
      if !(g_type_hash_table_lookup registry.registered_settings_by_type type).isNone then
        (.return_if_fail, registry)
      else if priority = 0 ∧ name ≠ NM_SETTING_CONNECTION_SETTING_NAME then
        (.assertion_failed, registry)
      else
        let info : SettingInfo :=
          { type := type, priority := priority, error_quark := error_quark, name := name }
        (.returned,
          { registered_settings :=
              g_hash_table_insert registry.registered_settings info.name info
            registered_settings_by_type :=
              g_type_hash_table_insert registry.registered_settings_by_type info.type info })

def _nm_setting_lookup_setting_by_type (registry : Registry) (type : GType) :
    Option SettingInfo :=
  g_type_hash_table_lookup registry.registered_settings_by_type type

/-- The function `_get_setting_type_priority`. The test `g_type_is_a (type,
NM_TYPE_SETTING)` is the parameter `nm_is_setting_type`; the result is `none`
where the C code reads the priority through a NULL `info`. -/
def _get_setting_type_priority (nm_is_setting_type : GType → Bool) (registry : Registry)
    (type : GType) : Option Nat :=
  if !nm_is_setting_type type then some G_MAXUINT32
  else
    match _nm_setting_lookup_setting_by_type registry type with
    | some info => some info.priority
    | none => none

/-- The function `_nm_setting_type_is_base_type`; `nm_type_setting_pppoe` is the
type of the PPPoE setting. -/
def _nm_setting_type_is_base_type (nm_is_setting_type : GType → Bool)
    (nm_type_setting_pppoe : GType) (registry : Registry) (type : GType) : Option Bool :=
  match _get_setting_type_priority nm_is_setting_type registry type with
  | some priority => some (priority == 1 || type == nm_type_setting_pppoe)
  | none => none

def _nm_setting_is_base_type (nm_is_setting_type : GType → Bool)
    (nm_type_setting_pppoe : GType) (registry : Registry) (setting : NMSetting) :
    Option Bool :=
  _nm_setting_type_is_base_type nm_is_setting_type nm_type_setting_pppoe registry
    setting.g_type

/-- The function `nm_setting_lookup_type`. -/
def nm_setting_lookup_type (registry : Registry) (name : String) : GType :=
  match g_hash_table_lookup registry.registered_settings name with
  | some info => info.type
  | none => G_TYPE_INVALID

/-- The loop of `nm_setting_lookup_type_by_quark` over the entries still to come. -/
def lookup_type_by_quark_loop (entries : GHashTable SettingInfo) (error_quark : GQuark) :
    GType :=
  match entries with
  | [] => G_TYPE_INVALID
  | (_, info) :: rest =>
    if info.error_quark = error_quark then info.type
    else lookup_type_by_quark_loop rest error_quark

def nm_setting_lookup_type_by_quark (registry : Registry) (error_quark : GQuark) : GType :=
  lookup_type_by_quark_loop registry.registered_settings error_quark

/-- The function `_nm_setting_compare_priority`. -/
def _nm_setting_compare_priority (nm_is_setting_type : GType → Bool) (registry : Registry)
    (a b : NMSetting) : Option Int :=
  match _get_setting_type_priority nm_is_setting_type registry a.g_type,
    _get_setting_type_priority nm_is_setting_type registry b.g_type with
  | some prio_a, some prio_b =>
    if prio_a < prio_b then some (-1)
    else if prio_a = prio_b then some 0
    else some 1
  | _, _ => none

/-! ## Base types and slave types -/

/-- Modelled from the spec: the names of the bond, bridge and team settings and
of the bridge-port and team-port settings, declared in the headers of those
settings. -/
def NM_SETTING_BOND_SETTING_NAME : String := "bond"
def NM_SETTING_BRIDGE_SETTING_NAME : String := "bridge"
def NM_SETTING_TEAM_SETTING_NAME : String := "team"
def NM_SETTING_BRIDGE_PORT_SETTING_NAME : String := "bridge-port"
def NM_SETTING_TEAM_PORT_SETTING_NAME : String := "team-port"

/-- The function `_nm_setting_slave_type_is_valid`: the returned flag and the
port type it reports through `out_port_type` (`none` for NULL). -/
def _nm_setting_slave_type_is_valid (slave_type : Option String) : Bool × Option String :=
  match slave_type with
  | none => (false, none)
  | some slave_type =>
    if slave_type = NM_SETTING_BOND_SETTING_NAME then (true, none)
    else if slave_type = NM_SETTING_BRIDGE_SETTING_NAME then
      (true, some NM_SETTING_BRIDGE_PORT_SETTING_NAME)
    else if slave_type = NM_SETTING_TEAM_SETTING_NAME then
      (true, some NM_SETTING_TEAM_PORT_SETTING_NAME)
    else (false, none)

/-- The loop of `_nm_setting_find_in_list_base_type` over the settings still to
come, with the base setting found so far. The outer `none` stands for a run
that reads the priority of an unregistered type. -/
def find_in_list_base_type_loop (nm_is_setting_type : GType → Bool)
    (nm_type_setting_pppoe : GType) (registry : Registry) (all_settings : List NMSetting)
    (setting : Option NMSetting) : Option (Option NMSetting) :=
  match all_settings with
  | [] => some setting
  | s_iter :: rest =>
    match _nm_setting_is_base_type nm_is_setting_type nm_type_setting_pppoe registry s_iter with
    | none => none
    | some is_base =>
      if !is_base then
        find_in_list_base_type_loop nm_is_setting_type nm_type_setting_pppoe registry rest
          setting
      else
        match setting with
        | some _ => some none
        | none =>
          find_in_list_base_type_loop nm_is_setting_type nm_type_setting_pppoe registry rest
            (some s_iter)

def _nm_setting_find_in_list_base_type (nm_is_setting_type : GType → Bool)
    (nm_type_setting_pppoe : GType) (registry : Registry) (all_settings : List NMSetting) :
    Option (Option NMSetting) :=
  find_in_list_base_type_loop nm_is_setting_type nm_type_setting_pppoe registry all_settings
    none

/-! ## The schema, array by array -/

/-- The first loop of `nm_setting_class_ensure_properties`: from the type up to
`G_TYPE_OBJECT`, the override array of each type is appended to `overrides`. -/
def ensure_properties_overrides (type_overrides : List (Option (List NMSettingProperty)))
    (overrides : List NMSettingProperty) : List NMSettingProperty :=
  match type_overrides with
  | [] => overrides
  | none :: rest => ensure_properties_overrides rest overrides
  | some array :: rest => ensure_properties_overrides rest (overrides ++ array)

/-- The second loop of `nm_setting_class_ensure_properties`: for each
`GParamSpec`, the override found under its name or else a zeroed descriptor
with its name and itself is appended to `properties`. -/
def ensure_properties_specs (overrides : List NMSettingProperty)
    (property_specs : List GParamSpec) (properties : List NMSettingProperty) :
    List NMSettingProperty :=
  match property_specs with
  | [] => properties
  | pspec :: rest =>
    match find_property overrides pspec.name with
    | some override => ensure_properties_specs overrides rest (properties ++ [override])
    | none =>
      ensure_properties_specs overrides rest
        (properties ++ [{ name := pspec.name, param_spec := some pspec, dbus_type := 0,
                          get_func := none, set_func := none, not_set_func := none,
                          to_dbus := none, from_dbus := none }])

/-- The third loop of `nm_setting_class_ensure_properties`: each override whose
name the class has no `GParamSpec` for is appended to `properties`. -/
def ensure_properties_remaining (klass : NMSettingClass) (overrides : List NMSettingProperty)
    (properties : List NMSettingProperty) : List NMSettingProperty :=
  match overrides with
  | [] => properties
  | override :: rest =>
    if (g_object_class_find_property klass override.name).isNone then
      ensure_properties_remaining klass rest (properties ++ [override])
    else ensure_properties_remaining klass rest properties

/-- The array `nm_setting_class_ensure_properties` builds when the type has no
cached one, loop by loop. -/
def ensure_properties_build (klass : NMSettingClass) : List NMSettingProperty :=
  let overrides := ensure_properties_overrides klass.type_overrides []
  let properties := ensure_properties_specs overrides klass.property_specs []
  ensure_properties_remaining klass overrides properties

/-! ## Overrides and the schema cache on the type -/

/-- The data attached to the setting types under the two quarks
`setting_property_overrides_quark` and `setting_properties_quark`: for each
type the array `g_type_get_qdata` returns, and no entry where it returns
NULL. -/
structure GTypeQData where
  setting_property_overrides : GTypeHashTable (List NMSettingProperty)
  setting_properties : GTypeHashTable (List NMSettingProperty)

/-- The part of a setting class that no function of this file changes: its
type (`G_TYPE_FROM_CLASS`), the name the type is registered under, the types
`g_type_parent` yields from it before `G_TYPE_OBJECT` is reached (nearest
first), and the `GParamSpec`s `g_object_class_list_properties` returns. -/
structure GTypeClass where
  g_type : GType
  setting_name : String
  g_type_parents : List GType
  property_specs : List GParamSpec

/-- The setting class as the schema builder reads it: the override array of
the type and of each of its ancestors is fetched from the type data. -/
def setting_class_with_qdata (qdata : GTypeQData) (setting_class : GTypeClass) :
    NMSettingClass :=
  { g_type := setting_class.g_type
    setting_name := setting_class.setting_name
    property_specs := setting_class.property_specs
    type_overrides := (setting_class.g_type :: setting_class.g_type_parents).map
      (fun otype => g_type_hash_table_lookup qdata.setting_property_overrides otype) }

/-- The function `add_property_override`: how the call ends and the type data
as it leaves them. The call is refused once the type has its schema, and when
the array of the type already holds a descriptor of that name. -/
def add_property_override (qdata : GTypeQData) (setting_class : GTypeClass)
    (property_name : String) (param_spec : Option GParamSpec) (dbus_type : GType)
    (get_func : Option NMSettingPropertyGetFunc) (set_func : Option NMSettingPropertySetFunc)
    (not_set_func : Option NMSettingPropertyNotSetFunc)
    (to_dbus from_dbus : Option NMSettingPropertyTransformFunc) :
    RegisterOutcome × GTypeQData :=
  let setting_type := setting_class.g_type
  if (g_type_hash_table_lookup qdata.setting_properties setting_type).isSome then
    (.return_if_fail, qdata)
  else
    let override : NMSettingProperty :=
      { name := property_name, param_spec := param_spec, dbus_type := dbus_type,
        get_func := get_func, set_func := set_func, not_set_func := not_set_func,
        to_dbus := to_dbus, from_dbus := from_dbus }
    match g_type_hash_table_lookup qdata.setting_property_overrides setting_type with
    | none =>
      -- a new, empty array is attached to the type; the name is not found in it
      (.returned, { qdata with
        setting_property_overrides :=
          g_type_hash_table_insert qdata.setting_property_overrides setting_type [override] })
    | some overrides =>
      if (find_property overrides property_name).isSome then (.return_if_fail, qdata)
      else
        (.returned, { qdata with
          setting_property_overrides :=
            g_type_hash_table_insert qdata.setting_property_overrides setting_type
              (overrides ++ [override]) })

/-- The function `_nm_setting_class_add_dbus_only_property`: the name must
match no `GObject` property of the class. (Its two other checks, that the
class is a setting class and the name is not NULL, hold by the types here.) -/
def _nm_setting_class_add_dbus_only_property (qdata : GTypeQData) (setting_class : GTypeClass)
    (property_name : String) (dbus_type : GType) (get_func : Option NMSettingPropertyGetFunc)
    (set_func : Option NMSettingPropertySetFunc) : RegisterOutcome × GTypeQData :=
  if (g_object_class_find_property (setting_class_with_qdata qdata setting_class)
      property_name).isSome then (.return_if_fail, qdata)
  else
    add_property_override qdata setting_class property_name none dbus_type get_func set_func
      none none none

/-- The function `_nm_setting_class_override_property`: the name must be that
of a `GObject` property of the class. -/
def _nm_setting_class_override_property (qdata : GTypeQData) (setting_class : GTypeClass)
    (property_name : String) (dbus_type : GType) (get_func : Option NMSettingPropertyGetFunc)
    (set_func : Option NMSettingPropertySetFunc)
    (not_set_func : Option NMSettingPropertyNotSetFunc) : RegisterOutcome × GTypeQData :=
  match g_object_class_find_property (setting_class_with_qdata qdata setting_class)
    property_name with
  | none => (.return_if_fail, qdata)
  | some param_spec =>
    add_property_override qdata setting_class property_name (some param_spec) dbus_type
      get_func set_func not_set_func none none

/-- The function `_nm_setting_class_transform_property`: the name must be that
of a `GObject` property of the class; the two transforms are handed on as they
come. -/
def _nm_setting_class_transform_property (qdata : GTypeQData) (setting_class : GTypeClass)
    (property : String) (dbus_type : GType)
    (to_dbus from_dbus : Option NMSettingPropertyTransformFunc) :
    RegisterOutcome × GTypeQData :=
  match g_object_class_find_property (setting_class_with_qdata qdata setting_class)
    property with
  | none => (.return_if_fail, qdata)
  | some param_spec =>
    add_property_override qdata setting_class property (some param_spec) dbus_type
      none none none to_dbus from_dbus

/-- The function `nm_setting_class_ensure_properties` with the type data it
reads and writes: the array attached to the type if there is one, else the
array built from the overrides, which is then attached to the type. -/
def nm_setting_class_ensure_properties_cached (qdata : GTypeQData)
    (setting_class : GTypeClass) : List NMSettingProperty × GTypeQData :=
  let type := setting_class.g_type
  match g_type_hash_table_lookup qdata.setting_properties type with
  | some properties => (properties, qdata)
  | none =>
    let properties := ensure_properties_build (setting_class_with_qdata qdata setting_class)
    (properties, { qdata with
      setting_properties := g_type_hash_table_insert qdata.setting_properties type properties })

/-! ## Setting secret flags, enumerating values, clearing secrets by flags -/

/-- The write `g_object_set (setting, flags_prop, flags, NULL)`: GLib leaves
the object alone when the class has no property of that name; the number is
stored in a property of unsigned-integer type, the one kind of flags property
represented here. -/
def g_object_set_flags (klass : NMSettingClass) (object : NMSetting) (flags_prop : String)
    (flags : Nat) : NMSetting :=
  match g_object_class_find_property klass flags_prop with
  | none => object
  | some pspec =>
    if pspec.value_type = G_TYPE_UINT then
      g_object_set_property klass object flags_prop (.uint flags)
    else object

/-- The class method `set_secret_flags`: the setting with the flags stored in
the property `<secret_name>-flags`, or the error of the failed check. -/
def set_secret_flags (klass : NMSettingClass) (setting : NMSetting) (secret_name : String)
    (verify_secret : Bool) (flags : Nat) : Except GError NMSetting :=
  match (if verify_secret then is_secret_prop klass secret_name else .ok ()) with
  | .error error => .error error
  | .ok _ => .ok (g_object_set_flags klass setting (secret_name ++ "-flags") flags)

/-- The function `nm_setting_set_secret_flags`: the returned boolean, the
setting as the call leaves it, and the error it sets. Flags above
`NM_SETTING_SECRET_FLAGS_ALL` make it return FALSE at once, without an error. -/
def nm_setting_set_secret_flags (klass : NMSettingClass) (setting : NMSetting)
    (secret_name : String) (flags : Nat) : Bool × NMSetting × Option GError :=
  if !decide (flags ≤ NM_SETTING_SECRET_FLAGS_ALL) then (false, setting, none)
  else
    match set_secret_flags klass setting secret_name true flags with
    | .error error => (false, setting, some error)
    | .ok setting => (true, setting, none)

/-- The type `NMSettingValueIterFn` together with its `user_data`: what the
function makes of the user data when it is handed a property. -/
abbrev NMSettingValueIterFn (σ : Type) := NMSetting → String → GValue → Nat → σ → σ

/-- The function `nm_setting_enumerate_values`: the user data after the
function has been called for each `GParamSpec` of the class in turn, with the
name, the current value and the flags of the property. -/
def nm_setting_enumerate_values {σ : Type} (klass : NMSettingClass) (setting : NMSetting)
    (func : NMSettingValueIterFn σ) (user_data : σ) : σ :=
  klass.property_specs.foldl
    (fun user_data prop_spec =>
      func setting prop_spec.name (g_object_get_property setting prop_spec.name)
        prop_spec.flags user_data)
    user_data

/-- The type `NMSettingClearSecretsWithFlagsFn` together with its `user_data`:
whether the secret is to be cleared, and the user data as the function leaves
them. -/
abbrev NMSettingClearSecretsWithFlagsFn (σ : Type) :=
  NMSetting → String → Nat → σ → Bool × σ

/-- The class method `clear_secrets_with_flags`: whether the secret changed,
the setting and the user data as the call leaves them. -/
def clear_secrets_with_flags {σ : Type} (klass : NMSettingClass) (setting : NMSetting)
    (pspec : GParamSpec) (func : NMSettingClearSecretsWithFlagsFn σ) (user_data : σ) :
    Bool × NMSetting × σ :=
  let flags := secret_flags_or_none klass setting pspec.name
  let answer := func setting pspec.name flags user_data
  if answer.1 then
    if !g_param_value_defaults pspec (g_object_get_property setting pspec.name) then
      (true,
        g_object_set_property klass setting pspec.name (g_param_value_set_default pspec),
        answer.2)
    else (false, setting, answer.2)
  else (false, setting, answer.2)

/-- The loop of `_nm_setting_clear_secrets_with_flags` over the `GParamSpec`s
still to come, with the setting, the flag `changed` and the user data so far. -/
def clear_secrets_with_flags_loop {σ : Type} (klass : NMSettingClass)
    (func : NMSettingClearSecretsWithFlagsFn σ) (property_specs : List GParamSpec)
    (setting : NMSetting) (changed : Bool) (user_data : σ) : Bool × NMSetting × σ :=
  match property_specs with
  | [] => (changed, setting, user_data)
  | prop_spec :: rest =>
    if flag_set prop_spec.flags NM_SETTING_PARAM_SECRET then
      clear_secrets_with_flags_loop klass func rest
        (clear_secrets_with_flags klass setting prop_spec func user_data).2.1
        (changed || (clear_secrets_with_flags klass setting prop_spec func user_data).1)
        (clear_secrets_with_flags klass setting prop_spec func user_data).2.2
    else clear_secrets_with_flags_loop klass func rest setting changed user_data

/-- The function `_nm_setting_clear_secrets_with_flags`: the returned flag, the
setting and the user data as the call leaves them. -/
def _nm_setting_clear_secrets_with_flags {σ : Type} (klass : NMSettingClass)
    (setting : NMSetting) (func : NMSettingClearSecretsWithFlagsFn σ) (user_data : σ) :
    Bool × NMSetting × σ :=
  clear_secrets_with_flags_loop klass func klass.property_specs setting false user_data

/-! ## Example classes and settings -/

/-- A security-like setting class: a read-only name, a plain string, two
string secrets with their flags properties, and a number. -/
def example_class : NMSettingClass :=
  { g_type := 1000
    setting_name := "example-security"
    property_specs :=
      [ { name := "name", value_type := G_TYPE_STRING, flags := G_PARAM_READABLE,
          default_value := .string none },
        { name := "key-mgmt", value_type := G_TYPE_STRING,
          flags := G_PARAM_READABLE ||| G_PARAM_WRITABLE ||| NM_SETTING_PARAM_INFERRABLE,
          default_value := .string none },
        { name := "psk", value_type := G_TYPE_STRING,
          flags := G_PARAM_READABLE ||| G_PARAM_WRITABLE ||| NM_SETTING_PARAM_SECRET,
          default_value := .string none },
        { name := "psk-flags", value_type := G_TYPE_UINT,
          flags := G_PARAM_READABLE ||| G_PARAM_WRITABLE,
          default_value := .uint 0 },
        { name := "pin", value_type := G_TYPE_STRING,
          flags := G_PARAM_READABLE ||| G_PARAM_WRITABLE ||| NM_SETTING_PARAM_SECRET,
          default_value := .string none },
        { name := "pin-flags", value_type := G_TYPE_UINT,
          flags := G_PARAM_READABLE ||| G_PARAM_WRITABLE,
          default_value := .uint 0 },
        { name := "mtu", value_type := G_TYPE_UINT,
          flags := G_PARAM_READABLE ||| G_PARAM_WRITABLE ||| NM_SETTING_PARAM_FUZZY_IGNORE,
          default_value := .uint 0 } ]
    type_overrides := [none, none] }

/-- A value comparer that reports zero exactly for identical values. -/
def example_compare (value1 value2 : GValue) : Int :=
  if value1 = value2 then 0 else 1

/-- A secret map whose second entry hands a number to the string secret "pin". -/
def example_secrets : GHashTable GValue :=
  [("psk", .string (some "abc")), ("pin", .int 1)]

/-- The `GParamSpec` of the secret "psk" in `example_class`. -/
def example_psk_spec : GParamSpec :=
  { name := "psk", value_type := G_TYPE_STRING,
    flags := G_PARAM_READABLE ||| G_PARAM_WRITABLE ||| NM_SETTING_PARAM_SECRET,
    default_value := .string none }

/-- A setting of `example_class` holding the secret "psk", not flagged. -/
def example_setting_plain : NMSetting :=
  g_object_set_property example_class (g_object_new example_class) "psk"
    (.string (some "secret"))

/-- The same setting with "psk" flagged agent-owned. -/
def example_setting_agent_owned : NMSetting :=
  g_object_set_property example_class example_setting_plain "psk-flags"
    (.uint NM_SETTING_SECRET_FLAG_AGENT_OWNED)

/-! ## Predicates used to state the properties -/

/-- An entry of a secret map fails: its key names no schema property, or names
a secret property whose type the value's type is not compatible with. -/
def secret_entry_fails (klass : NMSettingClass) (key : String) (value : GValue) : Bool :=
  match nm_setting_class_find_property klass key with
  | none => true
  | some property =>
    match property.param_spec with
    | none => false
    | some prop_spec =>
      flag_set prop_spec.flags NM_SETTING_PARAM_SECRET
        && !g_value_type_compatible (G_VALUE_TYPE value) prop_spec.value_type

/-- The entry names a secret property and its value is of an incompatible kind. -/
def secret_entry_mismatches (klass : NMSettingClass) (key : String) (value : GValue) : Bool :=
  match nm_setting_class_find_property klass key with
  | none => false
  | some property =>
    match property.param_spec with
    | none => false
    | some prop_spec =>
      flag_set prop_spec.flags NM_SETTING_PARAM_SECRET
        && !g_value_type_compatible (G_VALUE_TYPE value) prop_spec.value_type

/-- The key names a secret-flagged property: the schema has a descriptor of
that name and its `GParamSpec` carries the secret flag. A wire-only virtual
property, which has no `GParamSpec`, does not count as secret. -/
def names_secret_property (klass : NMSettingClass) (key : String) : Bool :=
  match nm_setting_class_find_property klass key with
  | some property => prop_spec_is_secret property.param_spec
  | none => false

/-- The names of the schema of the class, in schema order. -/
def schema_names (klass : NMSettingClass) : List String :=
  (nm_setting_class_get_properties klass).map (fun property => property.name)

/-- The error with which the custom function of a descriptor fails on the
setting built so far: the set function when the hash holds a value for the
descriptor, the not-set function when it holds none; `none` when the function
in question is absent or returns TRUE. -/
def custom_function_failure (setting_hash : GHashTable GValue)
    (connection_hash : GHashTable (GHashTable GValue)) (property : NMSettingProperty)
    (setting : NMSetting) : Option GError :=
  match g_hash_table_lookup setting_hash property.name with
  | some value =>
    match property.set_func with
    | some set_func =>
      match set_func setting connection_hash property.name value with
      | .error error => some error
      | .ok _ => none
    | none => none
  | none =>
    match property.not_set_func with
    | some not_set_func =>
      match not_set_func setting connection_hash property.name with
      | .error error => some error
      | .ok _ => none
    | none => none

/-- A descriptor of a property that is not writable and has neither a set nor
a not-set function. -/
def read_only_without_functions (property : NMSettingProperty) : Bool :=
  property.set_func.isNone && property.not_set_func.isNone
    && (match property.param_spec with
      | some param_spec => !flag_set param_spec.flags G_PARAM_WRITABLE
      | none => false)

/-- The `GParamSpec` of the read-only "name" of `example_checked_class`. -/
def example_name_spec : GParamSpec :=
  { name := "name", value_type := G_TYPE_STRING, flags := G_PARAM_READABLE,
    default_value := .string none }

/-- A set function that accepts no value. -/
def example_rejecting_set_func : NMSettingPropertySetFunc :=
  fun _ _ property _ =>
    .error { domain := "example-error-quark", code := 1, message := property }

/-- A not-set function that insists on a value. -/
def example_requiring_not_set_func : NMSettingPropertyNotSetFunc :=
  fun _ _ property =>
    .error { domain := "example-error-quark", code := 2, message := property }

/-- A class that overrides its read-only "name" with a set function that
rejects every value, and its writable "id" with a not-set function that fails. -/
def example_checked_class : NMSettingClass :=
  { g_type := 1001
    setting_name := "example-checked"
    property_specs :=
      [ example_name_spec,
        { name := "mtu", value_type := G_TYPE_UINT,
          flags := G_PARAM_READABLE ||| G_PARAM_WRITABLE, default_value := .uint 0 },
        { name := "id", value_type := G_TYPE_STRING,
          flags := G_PARAM_READABLE ||| G_PARAM_WRITABLE, default_value := .string none } ]
    type_overrides :=
      [ some [ { name := "name", param_spec := some example_name_spec,
                 dbus_type := G_TYPE_STRING, get_func := none,
                 set_func := some example_rejecting_set_func, not_set_func := none,
                 to_dbus := none, from_dbus := none },
               { name := "id",
                 param_spec := some
                   { name := "id", value_type := G_TYPE_STRING,
                     flags := G_PARAM_READABLE ||| G_PARAM_WRITABLE,
                     default_value := .string none },
                 dbus_type := G_TYPE_STRING, get_func := none, set_func := none,
                 not_set_func := some example_requiring_not_set_func,
                 to_dbus := none, from_dbus := none } ] ] }

/-- The descriptor has no custom get, set or not-set function. -/
def without_custom_functions (property : NMSettingProperty) : Bool :=
  property.get_func.isNone && property.set_func.isNone && property.not_set_func.isNone

/-- The transforms of a descriptor are both absent, or both present with the
from-D-Bus transform undoing the to-D-Bus transform on `value`. -/
def transforms_round_trip (property : NMSettingProperty) (value : GValue) : Prop :=
  match property.to_dbus, property.from_dbus with
  | some to_dbus, some from_dbus => from_dbus (to_dbus value) = value
  | none, none => True
  | _, _ => False

/-- A descriptor agrees with the class: the `GParamSpec` it points to is the
one the class has under the descriptor's name, and a descriptor without
`GParamSpec` names no property of the class. -/
def descriptor_well_formed (klass : NMSettingClass) (property : NMSettingProperty) : Bool :=
  match property.param_spec with
  | some pspec => decide (pspec ∈ klass.property_specs) && decide (pspec.name = property.name)
  | none => (g_object_class_find_property klass property.name).isNone

/-- What the object system and the registration functions guarantee of a
class: the names of its `GParamSpec`s are pairwise distinct, so are the names
of its schema, every descriptor agrees with the class, and the property "name"
is not writable. -/
def class_well_formed (klass : NMSettingClass) : Prop :=
  (klass.property_specs.map (fun pspec => pspec.name)).Nodup
    ∧ (schema_names klass).Nodup
    ∧ (∀ property ∈ nm_setting_class_get_properties klass,
        descriptor_well_formed klass property = true)
    ∧ ∀ pspec ∈ klass.property_specs,
        pspec.name = NM_SETTING_NAME → flag_set pspec.flags G_PARAM_WRITABLE = false

/-- The property cannot be assigned once the object is constructed. -/
def fixed_after_construction (pspec : GParamSpec) : Bool :=
  !flag_set pspec.flags G_PARAM_WRITABLE || flag_set pspec.flags G_PARAM_CONSTRUCT_ONLY

/-- A setting is an instance of the class: it has the type of the class and
each property holds a value of its declared type. -/
def setting_is_instance (klass : NMSettingClass) (setting : NMSetting) : Prop :=
  setting.g_type = klass.g_type
    ∧ ∀ pspec ∈ klass.property_specs,
        G_VALUE_TYPE (setting.values pspec.name) = pspec.value_type

/-- A transform that turns a 32-bit unsigned number into a 64-bit one and back. -/
def example_widen : NMSettingPropertyTransformFunc :=
  fun value =>
    match value with
    | .uint v => .uint64 v
    | .uint64 v => .uint v
    | other => other

/-- The `GParamSpec` of "mtu" in `example_transform_class`. -/
def example_mtu_spec : GParamSpec :=
  { name := "mtu", value_type := G_TYPE_UINT,
    flags := G_PARAM_READABLE ||| G_PARAM_WRITABLE, default_value := .uint 0 }

/-- A class with a read-only name, a string secret with its flags, and a
number whose D-Bus representation is transformed. -/
def example_transform_class : NMSettingClass :=
  { g_type := 1002
    setting_name := "example-transform"
    property_specs :=
      [ example_name_spec, example_psk_spec,
        { name := "psk-flags", value_type := G_TYPE_UINT,
          flags := G_PARAM_READABLE ||| G_PARAM_WRITABLE, default_value := .uint 0 },
        example_mtu_spec ]
    type_overrides :=
      [ some [ { name := "mtu", param_spec := some example_mtu_spec,
                 dbus_type := G_TYPE_UINT64, get_func := none, set_func := none,
                 not_set_func := none, to_dbus := some example_widen,
                 from_dbus := some example_widen } ],
        none ] }

/-- A setting of `example_transform_class` with a secret, its flags and a
number, the other properties at their defaults. -/
def example_transform_setting : NMSetting :=
  g_object_set_property example_transform_class
    (g_object_set_property example_transform_class
      (g_object_set_property example_transform_class
        (g_object_new example_transform_class) "psk" (.string (some "secret")))
      "psk-flags" (.uint NM_SETTING_SECRET_FLAG_NOT_SAVED))
    "mtu" (.uint 1500)

/-- The default descriptor of an introspected property: its name, its native
descriptor, no get, set or not-set function and no transform. -/
def default_descriptor (pspec : GParamSpec) : NMSettingProperty :=
  { name := pspec.name, param_spec := some pspec, dbus_type := 0,
    get_func := none, set_func := none, not_set_func := none,
    to_dbus := none, from_dbus := none }

/-- The schema as the specification words it. With `O` the concatenation of the
override lists of the type and its ancestors, most derived first: for each
introspected property in introspection order the first descriptor of `O` of
that name, or the default descriptor if there is none; then every descriptor of
`O` whose name is not an introspected property, in the order of `O`. -/
def schema_reference (klass : NMSettingClass) : List NMSettingProperty :=
  let O : List NMSettingProperty :=
    klass.type_overrides.foldr (fun overrides tail => overrides.getD [] ++ tail) []
  klass.property_specs.map (fun p =>
      (O.find? (fun descriptor => descriptor.name = p.name)).getD (default_descriptor p))
    ++ O.filter (fun descriptor =>
      !klass.property_specs.any (fun p => p.name = descriptor.name))

/-- The setting is of a base type, as `_nm_setting_is_base_type` decides it. -/
def setting_is_base (nm_is_setting_type : GType → Bool) (nm_type_setting_pppoe : GType)
    (registry : Registry) (setting : NMSetting) : Bool :=
  _nm_setting_is_base_type nm_is_setting_type nm_type_setting_pppoe registry setting
    == some true

/-- The registry after a sequence of calls of `_nm_register_setting`, each
given by its name, type, priority and error quark, from the empty tables. A
call that fails leaves the tables as they were. -/
def register_all (calls : List (String × GType × Nat × GQuark)) : Registry :=
  calls.foldl
    (fun registry call =>
      (_nm_register_setting registry call.1 call.2.1 call.2.2.1 call.2.2.2).2)
    _ensure_registered

/-- The registry of the example of the specification: "connection" at priority
0, "wired" at priority 1 and "ppp" at priority 3. -/
def example_registry : Registry :=
  register_all [("connection", 2000, 0, 11), ("wired", 2001, 1, 12), ("ppp", 2003, 3, 13)]

/-- A wired setting, a ppp setting and a connection setting of `example_registry`. -/
def example_wired : NMSetting := { g_type := 2001, values := fun _ => .boolean false }
def example_ppp : NMSetting := { g_type := 2003, values := fun _ => .boolean false }
def example_connection : NMSetting := { g_type := 2000, values := fun _ => .boolean false }

/-- Every type counts as a setting type. -/
def example_is_setting_type : GType → Bool := fun _ => true

/-- The invariant of the registry: each record is stored under its name, has
passed the argument checks of `_nm_register_setting` and has priority 0 only
under the name of the connection setting; no two records share a name or a
type; and the table by type holds the same records, each under its type. -/
def registry_well_formed (registry : Registry) : Prop :=
  (∀ entry ∈ registry.registered_settings,
      entry.1 = entry.2.name ∧ entry.2.name ≠ "" ∧ entry.2.type ≠ G_TYPE_INVALID
        ∧ entry.2.type ≠ G_TYPE_NONE ∧ entry.2.error_quark ≠ 0 ∧ entry.2.priority ≤ 4
        ∧ (entry.2.priority = 0 → entry.2.name = NM_SETTING_CONNECTION_SETTING_NAME))
    ∧ (registry.registered_settings.map (fun entry => entry.2.name)).Nodup
    ∧ (registry.registered_settings.map (fun entry => entry.2.type)).Nodup
    ∧ registry.registered_settings_by_type
      = registry.registered_settings.map (fun entry => (entry.2.type, entry.2))

/-- Two registrations, both accepted, that hand in the same error quark. -/
def example_shared_quark_calls : List (String × GType × Nat × GQuark) :=
  [("wired", 2001, 1, 12), ("ppp", 2003, 3, 12)]

/-- One call into the schema builder: a registration through one of the three
registration functions, or a request for the schema of a class. -/
inductive SchemaCall where
  | add_dbus_only_property (setting_class : GTypeClass) (property_name : String)
      (dbus_type : GType) (get_func : Option NMSettingPropertyGetFunc)
      (set_func : Option NMSettingPropertySetFunc)
  | override_property (setting_class : GTypeClass) (property_name : String)
      (dbus_type : GType) (get_func : Option NMSettingPropertyGetFunc)
      (set_func : Option NMSettingPropertySetFunc)
      (not_set_func : Option NMSettingPropertyNotSetFunc)
  | transform_property (setting_class : GTypeClass) (property : String) (dbus_type : GType)
      (to_dbus from_dbus : Option NMSettingPropertyTransformFunc)
  | ensure_properties (setting_class : GTypeClass)

/-- The type data after one call. -/
def schema_call (qdata : GTypeQData) (call : SchemaCall) : GTypeQData :=
  match call with
  | .add_dbus_only_property setting_class property_name dbus_type get_func set_func =>
    (_nm_setting_class_add_dbus_only_property qdata setting_class property_name dbus_type
      get_func set_func).2
  | .override_property setting_class property_name dbus_type get_func set_func not_set_func =>
    (_nm_setting_class_override_property qdata setting_class property_name dbus_type
      get_func set_func not_set_func).2
  | .transform_property setting_class property dbus_type to_dbus from_dbus =>
    (_nm_setting_class_transform_property qdata setting_class property dbus_type
      to_dbus from_dbus).2
  | .ensure_properties setting_class =>
    (nm_setting_class_ensure_properties_cached qdata setting_class).2

/-- The type data after a sequence of calls. -/
def schema_calls (qdata : GTypeQData) (calls : List SchemaCall) : GTypeQData :=
  calls.foldl schema_call qdata

/-- The type data before any call: no type has an array. -/
def g_type_qdata_none : GTypeQData :=
  { setting_property_overrides := [], setting_properties := [] }

/-- Whether a call hands on both transforms or neither; only
`_nm_setting_class_transform_property` takes transforms from its caller. -/
def call_transforms_paired (call : SchemaCall) : Bool :=
  match call with
  | .transform_property _ _ _ to_dbus from_dbus => to_dbus.isSome == from_dbus.isSome
  | _ => true

/-- Every descriptor of every array attached to a type has both transforms or
neither. -/
def qdata_transforms_paired (qdata : GTypeQData) : Prop :=
  (∀ entry ∈ qdata.setting_property_overrides, ∀ property ∈ entry.2,
      property.to_dbus.isSome = property.from_dbus.isSome)
    ∧ (∀ entry ∈ qdata.setting_properties, ∀ property ∈ entry.2,
      property.to_dbus.isSome = property.from_dbus.isSome)

/-- A base setting class with the one property "name". -/
def example_base_class : GTypeClass :=
  { g_type := 3000, setting_name := "example-base", g_type_parents := []
    property_specs := [example_name_spec] }

/-- A class derived from `example_base_class` that adds the property "mtu". -/
def example_derived_class : GTypeClass :=
  { g_type := 3001, setting_name := "example-derived", g_type_parents := [3000]
    property_specs := [example_name_spec, example_mtu_spec] }

/-- A registration sequence: "mtu" of the derived class is transformed both
ways, and the base class registers a wire-only property. -/
def example_schema_calls : List SchemaCall :=
  [ .add_dbus_only_property example_base_class "legacy" G_TYPE_STRING none none,
    .transform_property example_derived_class "mtu" G_TYPE_UINT64
      (some example_widen) (some example_widen),
    .ensure_properties example_base_class ]

/-- Whether a descriptor passes the secret filter of the serialization mode:
no secret with NO_SECRETS, nothing but secrets with ONLY_SECRETS. -/
def passes_mode_filter (flags : Nat) (property : NMSettingProperty) : Bool :=
  !(flag_set flags NM_CONNECTION_SERIALIZE_NO_SECRETS
      && prop_spec_is_secret property.param_spec)
    && !(flag_set flags NM_CONNECTION_SERIALIZE_ONLY_SECRETS
      && !prop_spec_is_secret property.param_spec)

/-- A get function that always reports the number zero. -/
def example_zero_get_func : NMSettingPropertyGetFunc :=
  fun _ _ _ => some (.uint 0)

/-- A get function that always reports the string "old". -/
def example_old_get_func : NMSettingPropertyGetFunc :=
  fun _ _ _ => some (.string (some "old"))

/-- A class whose read-only "name" and writable "mtu" are overridden with get
functions, with a wire-only property "legacy" that has a get function and a
wire-only property "ghost" that has none. -/
def example_get_class : NMSettingClass :=
  { g_type := 1003
    setting_name := "example-get"
    property_specs := [example_name_spec, example_mtu_spec]
    type_overrides :=
      [ some [ { name := "name", param_spec := some example_name_spec,
                 dbus_type := G_TYPE_STRING, get_func := some example_old_get_func,
                 set_func := none, not_set_func := none, to_dbus := none, from_dbus := none },
               { name := "mtu", param_spec := some example_mtu_spec,
                 dbus_type := G_TYPE_UINT, get_func := some example_zero_get_func,
                 set_func := none, not_set_func := none, to_dbus := none, from_dbus := none },
               { name := "legacy", param_spec := none,
                 dbus_type := G_TYPE_STRING, get_func := some example_old_get_func,
                 set_func := none, not_set_func := none, to_dbus := none, from_dbus := none },
               { name := "ghost", param_spec := none,
                 dbus_type := G_TYPE_STRING, get_func := none,
                 set_func := none, not_set_func := none, to_dbus := none,
                 from_dbus := none } ] ] }

/-- The setting `example_setting_plain` with "psk" flagged agent-owned and
not-saved at once. -/
def example_setting_flagged : NMSetting :=
  g_object_set_property example_class example_setting_plain "psk-flags"
    (.uint (NM_SETTING_SECRET_FLAG_AGENT_OWNED ||| NM_SETTING_SECRET_FLAG_NOT_SAVED))

/-- The setting `example_setting_flagged` with another value of "psk". -/
def example_setting_flagged_other : NMSetting :=
  g_object_set_property example_class example_setting_flagged "psk" (.string (some "other"))

/-- A class whose secret "psk" is flagged inferrable, while the property that
stores the flags of the secret is not. -/
def example_inferrable_class : NMSettingClass :=
  { g_type := 1004
    setting_name := "example-inferrable"
    property_specs :=
      [ example_name_spec,
        { name := "psk", value_type := G_TYPE_STRING,
          flags := G_PARAM_READABLE ||| G_PARAM_WRITABLE ||| NM_SETTING_PARAM_SECRET
            ||| NM_SETTING_PARAM_INFERRABLE,
          default_value := .string none },
        { name := "psk-flags", value_type := G_TYPE_UINT,
          flags := G_PARAM_READABLE ||| G_PARAM_WRITABLE, default_value := .uint 0 } ]
    type_overrides := [none] }

/-- A setting of `example_inferrable_class` whose secret is flagged agent-owned. -/
def example_inferrable_setting : NMSetting :=
  g_object_set_property example_inferrable_class (g_object_new example_inferrable_class)
    "psk-flags" (.uint NM_SETTING_SECRET_FLAG_AGENT_OWNED)

/-- The names of the properties of `a` that `nm_setting_diff` does not skip:
those that pass `should_compare_prop`, other than the property "name". -/
def diff_survivors (nm_type_setting_connection : GType) (klass : NMSettingClass)
    (a : NMSetting) (flags : Nat) : List String :=
  (klass.property_specs.filter (fun prop_spec =>
      should_compare_prop nm_type_setting_connection klass a prop_spec.name flags
          prop_spec.flags
        && decide (prop_spec.name ≠ NM_SETTING_NAME))).map (fun prop_spec => prop_spec.name)

/-- An entry of a secret map modifies the setting: its key names a
secret-flagged property, and the entry is not a string equal to the string the
property, being of string type, currently holds. -/
def secret_entry_modifies (klass : NMSettingClass) (setting : NMSetting) (key : String)
    (value : GValue) : Bool :=
  match nm_setting_class_find_property klass key with
  | none => false
  | some property =>
    match property.param_spec with
    | none => false
    | some prop_spec =>
      flag_set prop_spec.flags NM_SETTING_PARAM_SECRET
        && !decide (G_VALUE_TYPE value = G_TYPE_STRING ∧ prop_spec.value_type = G_TYPE_STRING
          ∧ g_value_get_string (g_object_get_property setting prop_spec.name)
            = g_value_get_string value)

/-- What the loop of `nm_setting_diff` records for one `GParamSpec` when a
second setting is given: nothing for a property that is skipped or compares
equal, else the bits of the sides that hold a value other than the default. -/
def diff_entry (nm_property_compare : GValue → GValue → Int)
    (nm_type_setting_connection : GType) (klass : NMSettingClass) (a b : NMSetting)
    (flags a_result b_result : Nat) (prop_spec : GParamSpec) : Option Nat :=
  if should_compare_prop nm_type_setting_connection klass a prop_spec.name flags
        prop_spec.flags
      && decide (prop_spec.name ≠ NM_SETTING_NAME)
      && !compare_property nm_property_compare klass a b prop_spec flags then
    some ((if !g_param_value_defaults prop_spec (g_object_get_property a prop_spec.name)
        then a_result else 0)
      ||| (if !g_param_value_defaults prop_spec (g_object_get_property b prop_spec.name)
        then b_result else 0))
  else none

/-- The results table with the bits `entry` OR-ed into what it holds under
`name`; the table itself when there is nothing to record. -/
def diff_record (results : GHashTable Nat) (name : String) (entry : Option Nat) :
    GHashTable Nat :=
  match entry with
  | none => results
  | some r => g_hash_table_insert results name (((g_hash_table_lookup results name).getD 0) ||| r)

/-- The visitor that records what it is called with: the name, the value and
the flags of each property, in the order of the calls. -/
def recording_visitor : NMSettingValueIterFn (List (String × GValue × Nat)) :=
  fun _ name value flags calls => calls ++ [(name, value, flags)]

/-- A user function for clearing secrets that behaves as `func` and records,
next to the user data of `func`, each call: the name and the flags it was
handed and the answer it gave. -/
def recording_func {σ : Type} (func : NMSettingClearSecretsWithFlagsFn σ) :
    NMSettingClearSecretsWithFlagsFn (σ × List (String × Nat × Bool)) :=
  fun setting name flags user_data =>
    ((func setting name flags user_data.1).1,
      ((func setting name flags user_data.1).2,
        user_data.2 ++ [(name, flags, (func setting name flags user_data.1).1)]))

/-- A user function that asks for the secrets flagged not-saved to be cleared. -/
def example_clear_not_saved : NMSettingClearSecretsWithFlagsFn Unit :=
  fun _ _ flags user_data => (flag_set flags NM_SETTING_SECRET_FLAG_NOT_SAVED, user_data)

/-- A setting of `example_class` with the secret "psk" flagged not-saved and
the secret "pin" not flagged. -/
def example_setting_two_secrets : NMSetting :=
  g_object_set_property example_class
    (g_object_set_property example_class example_setting_plain "psk-flags"
      (.uint NM_SETTING_SECRET_FLAG_NOT_SAVED))
    "pin" (.string (some "1234"))

/-- A to-D-Bus transform of a 32-bit unsigned number: the destination is a
64-bit unsigned value, whatever the source holds. -/
def example_to_uint64 : NMSettingPropertyTransformFunc :=
  fun value =>
    match value with
    | .uint v => .uint64 v
    | _ => .uint64 0

/-- The from-D-Bus transform that goes with it: the destination is a 32-bit
unsigned value, whatever the source holds. -/
def example_from_uint64 : NMSettingPropertyTransformFunc :=
  fun value =>
    match value with
    | .uint64 v => .uint v
    | _ => .uint 0

/-- A class with a read-only name, a string secret with its flags, and a
number whose D-Bus representation is a 64-bit number. -/
def example_typed_class : NMSettingClass :=
  { g_type := 1006
    setting_name := "example-typed"
    property_specs :=
      [ example_name_spec, example_psk_spec,
        { name := "psk-flags", value_type := G_TYPE_UINT,
          flags := G_PARAM_READABLE ||| G_PARAM_WRITABLE, default_value := .uint 0 },
        example_mtu_spec ]
    type_overrides :=
      [ some [ { name := "mtu", param_spec := some example_mtu_spec,
                 dbus_type := G_TYPE_UINT64, get_func := none, set_func := none,
                 not_set_func := none, to_dbus := some example_to_uint64,
                 from_dbus := some example_from_uint64 } ] ] }

/-- A setting of `example_typed_class` with a secret, its flags and a number,
the other properties as constructed. -/
def example_typed_setting : NMSetting :=
  g_object_set_property example_typed_class
    (g_object_set_property example_typed_class
      (g_object_set_property example_typed_class
        (g_object_new example_typed_class) "psk" (.string (some "secret")))
      "psk-flags" (.uint NM_SETTING_SECRET_FLAG_NOT_SAVED))
    "mtu" (.uint 1500)

/-- The `GParamSpec` of the secret "token" of `example_construct_class`: it
can be given a value at construction only. -/
def example_token_spec : GParamSpec :=
  { name := "token", value_type := G_TYPE_STRING,
    flags := G_PARAM_READABLE ||| G_PARAM_WRITABLE ||| G_PARAM_CONSTRUCT_ONLY
      ||| NM_SETTING_PARAM_SECRET,
    default_value := .string none }

/-- A class with a read-only name and a construct-only secret with its flags. -/
def example_construct_class : NMSettingClass :=
  { g_type := 1005
    setting_name := "example-construct"
    property_specs :=
      [ example_name_spec, example_token_spec,
        { name := "token-flags", value_type := G_TYPE_UINT,
          flags := G_PARAM_READABLE ||| G_PARAM_WRITABLE, default_value := .uint 0 } ]
    type_overrides := [none] }

/-- The setting `g_object_new (type, "token", "t", NULL)` builds: the
construct-only secret holds the value handed over at construction. -/
def example_constructed_setting : NMSetting :=
  { g_type := example_construct_class.g_type
    values := Function.update (g_object_new example_construct_class).values "token"
      (.string (some "t")) }

/-- A user function that asks for every secret to be cleared. -/
def example_clear_all : NMSettingClearSecretsWithFlagsFn Unit :=
  fun _ _ _ user_data => (true, user_data)

/-- One entry of a secret map applied to a setting, as the specification words
it: an entry that names a secret-flagged property with a value of a compatible
type, other than a string equal to the string the property holds, is assigned,
which stores the value under the name of the property unless the property
cannot be assigned after construction; any other entry leaves the setting as
it is. -/
def apply_secret_reference (klass : NMSettingClass) (setting : NMSetting) (key : String)
    (value : GValue) : NMSetting :=
  match nm_setting_class_find_property klass key with
  | none => setting
  | some property =>
    match property.param_spec with
    | none => setting
    | some prop_spec =>
      if flag_set prop_spec.flags NM_SETTING_PARAM_SECRET
          && g_value_type_compatible (G_VALUE_TYPE value) prop_spec.value_type
          && !decide (G_VALUE_TYPE value = G_TYPE_STRING ∧ prop_spec.value_type = G_TYPE_STRING
            ∧ g_value_get_string (setting.values prop_spec.name) = g_value_get_string value)
          && !fixed_after_construction prop_spec then
        { setting with values := Function.update setting.values prop_spec.name value }
      else setting

/-- The entries of a secret map applied to a setting one after the other. -/
def apply_secrets_reference (klass : NMSettingClass) (secrets : GHashTable GValue)
    (setting : NMSetting) : NMSetting :=
  secrets.foldl (fun setting entry => apply_secret_reference klass setting entry.1 entry.2)
    setting

/-! # Theorems -/

/-! ## Flags, hash tables and the schema -/

theorem flag_set_zero (mask : Nat) : flag_set 0 mask = false := by
  simp [flag_set]

theorem find_property_some (properties : List NMSettingProperty) (name : String)
    (property : NMSettingProperty) (h : find_property properties name = some property) :
    property ∈ properties ∧ property.name = name := by
  induction properties with
  | nil => simp [find_property] at h
  | cons head rest ih =>
    unfold find_property at h
    split at h
    · rename_i h_name
      simp only [Option.some.injEq] at h
      subst h
      exact ⟨List.mem_cons_self _ _, h_name.symm⟩
    · exact ⟨List.mem_cons_of_mem _ (ih h).1, (ih h).2⟩

theorem find_property_isSome_of_mem (properties : List NMSettingProperty)
    (property : NMSettingProperty) (h : property ∈ properties) :
    (find_property properties property.name).isSome = true := by
  induction properties with
  | nil => simp at h
  | cons head rest ih =>
    unfold find_property
    split
    · simp
    · rcases List.mem_cons.mp h with h_eq | h_mem
      · subst h_eq; simp_all
      · exact ih h_mem

theorem find_property_none_iff (properties : List NMSettingProperty) (name : String) :
    find_property properties name = none ↔ ∀ property ∈ properties, property.name ≠ name := by
  induction properties with
  | nil => simp [find_property]
  | cons head rest ih =>
    unfold find_property
    split
    · rename_i h_name
      simp [h_name]
    · rename_i h_name
      simp only [ih, List.mem_cons, forall_eq_or_imp]
      constructor
      · intro h
        exact ⟨fun h_eq => h_name h_eq.symm, h⟩
      · intro h
        exact h.2

/-- Every `GParamSpec` of the class has a descriptor of its name in the schema. -/
theorem schema_has_property_spec (klass : NMSettingClass) (pspec : GParamSpec)
    (h : pspec ∈ klass.property_specs) :
    ∃ property, nm_setting_class_find_property klass pspec.name = some property := by
  unfold nm_setting_class_find_property
  cases h_find : find_property (nm_setting_class_ensure_properties klass) pspec.name with
  | some property => exact ⟨property, rfl⟩
  | none =>
    exfalso
    rw [find_property_none_iff] at h_find
    unfold nm_setting_class_ensure_properties at h_find
    simp only at h_find
    cases h_over : find_property
        (klass.type_overrides.map (fun type_overrides => type_overrides.getD [])).flatten
        pspec.name with
    | some override =>
      refine h_find override ?_ (find_property_some _ _ _ h_over).2
      apply List.mem_append_left
      exact List.mem_map.mpr ⟨pspec, h, by simp [h_over]⟩
    | none =>
      refine h_find
        { name := pspec.name, param_spec := some pspec, dbus_type := 0,
          get_func := none, set_func := none, not_set_func := none,
          to_dbus := none, from_dbus := none } ?_ rfl
      apply List.mem_append_left
      refine List.mem_map.mpr ⟨pspec, h, ?_⟩
      simp only [h_over]

/-! ## Updating secrets -/

theorem update_one_secret_error_iff (klass : NMSettingClass) (setting : NMSetting)
    (key : String) (value : GValue) :
    (update_one_secret klass setting key value).1 = NM_SETTING_UPDATE_SECRET_ERROR
      ↔ secret_entry_fails klass key value = true := by
  unfold update_one_secret secret_entry_fails
  cases nm_setting_class_find_property klass key with
  | none => simp
  | some property =>
    rcases property with ⟨_, param_spec, _, _, _, _, _, _⟩
    cases param_spec with
    | none => simp
    | some prop_spec =>
      by_cases hs : flag_set prop_spec.flags NM_SETTING_PARAM_SECRET = true
      · by_cases hc : g_value_type_compatible (G_VALUE_TYPE value) prop_spec.value_type = true
        · simp only [hs, hc]
          split <;> simp
          split <;> simp
        · simp [hs, hc]
      · simp [hs]

theorem update_one_secret_keeps_on_error (klass : NMSettingClass) (setting : NMSetting)
    (key : String) (value : GValue)
    (h : (update_one_secret klass setting key value).1 ≠ NM_SETTING_UPDATE_SECRET_SUCCESS_MODIFIED) :
    (update_one_secret klass setting key value).2.1 = setting := by
  revert h
  unfold update_one_secret
  cases nm_setting_class_find_property klass key with
  | none => simp
  | some property =>
    rcases property with ⟨_, param_spec, _, _, _, _, _, _⟩
    cases param_spec with
    | none => simp
    | some prop_spec =>
      simp only
      split
      · simp
      · split
        · split <;> simp
        · simp

theorem update_one_secret_mismatch (klass : NMSettingClass) (setting : NMSetting)
    (key : String) (value : GValue) (h : secret_entry_mismatches klass key value = true) :
    update_one_secret klass setting key value
      = (NM_SETTING_UPDATE_SECRET_ERROR, setting,
          some { domain := NM_SETTING_ERROR, code := NM_SETTING_ERROR_PROPERTY_TYPE_MISMATCH,
                 message := key }) := by
  revert h
  unfold update_one_secret secret_entry_mismatches
  cases nm_setting_class_find_property klass key with
  | none => simp
  | some property =>
    rcases property with ⟨_, param_spec, _, _, _, _, _, _⟩
    cases param_spec with
    | none => simp
    | some prop_spec =>
      simp only [Bool.and_eq_true, Bool.not_eq_true', and_imp]
      intro hs hc
      simp [hs, hc]

/-- Entries that do not fail are all processed: the loop over `before ++ rest`
continues on `rest` from the state the loop over `before` ends in. -/
theorem update_secrets_loop_append (klass : NMSettingClass) (before rest : GHashTable GValue)
    (h_before : ∀ entry ∈ before, secret_entry_fails klass entry.1 entry.2 = false) :
    ∀ (setting : NMSetting) (result : NMSettingUpdateSecretResult),
      update_secrets_loop klass (before ++ rest) setting result
        = update_secrets_loop klass rest
            (update_secrets_loop klass before setting result).2.1
            (update_secrets_loop klass before setting result).1 := by
  induction before with
  | nil => intro setting result; simp [update_secrets_loop]
  | cons entry before ih =>
    intro setting result
    obtain ⟨key, value⟩ := entry
    have h_head : secret_entry_fails klass key value = false :=
      h_before (key, value) (List.mem_cons_self _ _)
    have h_tail : ∀ entry ∈ before, secret_entry_fails klass entry.1 entry.2 = false :=
      fun entry h => h_before entry (List.mem_cons_of_mem _ h)
    have h_ok : (update_one_secret klass setting key value).1 ≠ NM_SETTING_UPDATE_SECRET_ERROR := by
      rw [Ne, update_one_secret_error_iff, h_head]; simp
    simp only [List.cons_append, update_secrets_loop]
    rcases h_one : update_one_secret klass setting key value with ⟨code, setting1, error⟩
    rw [h_one] at h_ok
    cases code with
    | NM_SETTING_UPDATE_SECRET_ERROR => exact absurd rfl h_ok
    | NM_SETTING_UPDATE_SECRET_SUCCESS_MODIFIED => exact ih h_tail _ _
    | NM_SETTING_UPDATE_SECRET_SUCCESS_UNCHANGED => exact ih h_tail _ _

theorem update_secrets_loop_head_fails (klass : NMSettingClass) (key : String) (value : GValue)
    (rest : GHashTable GValue) (setting : NMSetting) (result : NMSettingUpdateSecretResult)
    (h_fails : secret_entry_fails klass key value = true) :
    update_secrets_loop klass ((key, value) :: rest) setting result
      = (NM_SETTING_UPDATE_SECRET_ERROR, setting,
          (update_one_secret klass setting key value).2.2) := by
  have h_err := (update_one_secret_error_iff klass setting key value).mpr h_fails
  have h_keep := update_one_secret_keeps_on_error klass setting key value (by rw [h_err]; simp)
  simp only [update_secrets_loop]
  rcases h_one : update_one_secret klass setting key value with ⟨code, setting1, error⟩
  rw [h_one] at h_err h_keep
  simp only at h_err h_keep
  subst h_err h_keep
  rfl

/-- Entries reported unchanged leave both the setting and the result so far. -/
theorem update_secrets_loop_skip_unchanged (klass : NMSettingClass) (setting : NMSetting)
    (before rest : GHashTable GValue) (result : NMSettingUpdateSecretResult)
    (h_before : ∀ entry ∈ before,
      (update_one_secret klass setting entry.1 entry.2).1
        = NM_SETTING_UPDATE_SECRET_SUCCESS_UNCHANGED) :
    update_secrets_loop klass (before ++ rest) setting result
      = update_secrets_loop klass rest setting result := by
  induction before with
  | nil => simp
  | cons entry before ih =>
    obtain ⟨key, value⟩ := entry
    have h_head := h_before (key, value) (List.mem_cons_self _ _)
    have h_keep := update_one_secret_keeps_on_error klass setting key value
      (by rw [h_head]; simp)
    simp only [List.cons_append, update_secrets_loop]
    rcases h_one : update_one_secret klass setting key value with ⟨code, setting1, error⟩
    rw [h_one] at h_head h_keep
    simp only at h_head h_keep
    subst h_head h_keep
    exact ih (fun entry h => h_before entry (List.mem_cons_of_mem _ h))

/-- C2, as amended: when an entry names a secret property with a value of an
incompatible kind, and every entry processed before it is reported unchanged,
`_nm_setting_update_secrets` returns the error `PropertyTypeMismatch` and the
setting is exactly as it was before the call. -/
theorem update_secrets_type_mismatch_unchanged (klass : NMSettingClass) (setting : NMSetting)
    (before after : GHashTable GValue) (key : String) (value : GValue)
    (h_before : ∀ entry ∈ before,
      (update_one_secret klass setting entry.1 entry.2).1
        = NM_SETTING_UPDATE_SECRET_SUCCESS_UNCHANGED)
    (h_mismatch : secret_entry_mismatches klass key value = true) :
    _nm_setting_update_secrets klass setting (before ++ (key, value) :: after)
      = (NM_SETTING_UPDATE_SECRET_ERROR, setting,
          some { domain := NM_SETTING_ERROR, code := NM_SETTING_ERROR_PROPERTY_TYPE_MISMATCH,
                 message := key }) := by
  unfold _nm_setting_update_secrets
  rw [update_secrets_loop_skip_unchanged klass setting before _ _ h_before]
  simp [update_secrets_loop, update_one_secret_mismatch klass setting key value h_mismatch]

/-- Witness for C2 as amended: an entry for the non-secret "key-mgmt", then a
number for the string secret "pin". -/
theorem update_secrets_type_mismatch_unchanged_witness :
    (∀ entry ∈ [("key-mgmt", GValue.string (some "wpa-psk"))],
        (update_one_secret example_class (g_object_new example_class) entry.1 entry.2).1
          = NM_SETTING_UPDATE_SECRET_SUCCESS_UNCHANGED)
      ∧ secret_entry_mismatches example_class "pin" (GValue.int 1) = true
      ∧ _nm_setting_update_secrets example_class (g_object_new example_class)
        ([("key-mgmt", GValue.string (some "wpa-psk"))] ++ ("pin", GValue.int 1) :: example_secrets)
      = (NM_SETTING_UPDATE_SECRET_ERROR, g_object_new example_class,
          some { domain := NM_SETTING_ERROR, code := NM_SETTING_ERROR_PROPERTY_TYPE_MISMATCH,
                 message := "pin" }) :=
  ⟨by decide, by decide,
    update_secrets_type_mismatch_unchanged example_class (g_object_new example_class)
      [("key-mgmt", GValue.string (some "wpa-psk"))] example_secrets "pin" (GValue.int 1)
      (by decide) (by decide)⟩

/-- C2 fails as stated: the map `example_secrets` holds a number for the string
secret "pin", yet after the call the secret "psk", which was processed first,
no longer holds the value it had before. -/
theorem update_secrets_type_mismatch_not_atomic :
    secret_entry_mismatches example_class "pin" (GValue.int 1) = true
      ∧ ("pin", GValue.int 1) ∈ example_secrets
      ∧ (_nm_setting_update_secrets example_class (g_object_new example_class)
          example_secrets).1 = NM_SETTING_UPDATE_SECRET_ERROR
      ∧ (_nm_setting_update_secrets example_class (g_object_new example_class)
          example_secrets).2.1.values "psk" ≠ (g_object_new example_class).values "psk" := by
  decide

/-! ## Comparison -/

theorem compare_loop_false_of_mem (nm_property_compare : GValue → GValue → Int)
    (klass : NMSettingClass) (a b : NMSetting) (flags : Nat) (prop_spec : GParamSpec)
    (h_skip : compare_skips flags prop_spec = false)
    (h_prop : compare_property nm_property_compare klass a b prop_spec flags = false) :
    ∀ (property_specs : List GParamSpec), prop_spec ∈ property_specs →
      compare_loop nm_property_compare klass a b flags property_specs = false := by
  intro property_specs
  induction property_specs with
  | nil => intro h; simp at h
  | cons head rest ih =>
    intro h_mem
    unfold compare_loop
    rcases List.mem_cons.mp h_mem with h_eq | h_rest
    · subst h_eq
      simp [h_skip, h_prop]
    · split
      · exact ih h_rest
      · split
        · exact ih h_rest
        · rfl

theorem compare_loop_true_of_forall (nm_property_compare : GValue → GValue → Int)
    (klass : NMSettingClass) (a b : NMSetting) (flags : Nat) :
    ∀ (property_specs : List GParamSpec),
      (∀ prop_spec ∈ property_specs, compare_skips flags prop_spec = false →
        compare_property nm_property_compare klass a b prop_spec flags = true) →
      compare_loop nm_property_compare klass a b flags property_specs = true := by
  intro property_specs
  induction property_specs with
  | nil => intro _; simp [compare_loop]
  | cons head rest ih =>
    intro h_all
    have h_rest := ih (fun prop_spec h => h_all prop_spec (List.mem_cons_of_mem _ h))
    unfold compare_loop
    split
    · exact h_rest
    · rename_i h_skip
      rw [h_all head (List.mem_cons_self _ _) (by simpa using h_skip)]
      simpa using h_rest

/-- C4: a secret property that the compare flags do not skip and whose stored
secret flags differ between `a` and `b` makes `nm_setting_compare` return
FALSE, whatever the other flags (IGNORE_AGENT_OWNED_SECRETS,
IGNORE_NOT_SAVED_SECRETS included) and whatever the property values. -/
theorem compare_false_when_secret_flags_differ (nm_property_compare : GValue → GValue → Int)
    (klass : NMSettingClass) (a b : NMSetting) (flags : Nat) (prop_spec : GParamSpec)
    (h_mem : prop_spec ∈ klass.property_specs)
    (h_secret : flag_set prop_spec.flags NM_SETTING_PARAM_SECRET = true)
    (h_fuzzy : flag_set flags NM_SETTING_COMPARE_FLAG_FUZZY = false)
    (h_ignore : flag_set flags NM_SETTING_COMPARE_FLAG_IGNORE_SECRETS = false)
    (h_inferrable : flag_set flags NM_SETTING_COMPARE_FLAG_INFERRABLE = true →
      flag_set prop_spec.flags NM_SETTING_PARAM_INFERRABLE = true)
    (h_differ : nm_setting_get_secret_flags klass a prop_spec.name
      ≠ nm_setting_get_secret_flags klass b prop_spec.name) :
    nm_setting_compare nm_property_compare klass a b flags = false := by
  unfold nm_setting_compare
  split
  · rfl
  · apply compare_loop_false_of_mem nm_property_compare klass a b flags prop_spec _ _ _ h_mem
    · unfold compare_skips
      rw [h_fuzzy, h_ignore]
      cases h_inf : flag_set flags NM_SETTING_COMPARE_FLAG_INFERRABLE with
      | false => simp
      | true => simp [h_inferrable h_inf]
    · have h_flags : secret_flags_or_none klass a prop_spec.name
          ≠ secret_flags_or_none klass b prop_spec.name := by
        intro h_eq
        apply h_differ
        revert h_eq
        unfold secret_flags_or_none nm_setting_get_secret_flags get_secret_flags
        simp only [if_true]
        cases is_secret_prop klass prop_spec.name with
        | error error => simp
        | ok _ => simp
      unfold compare_property
      simp [h_secret, h_flags]

/-- C5: reflexivity. With a value comparer that reports identical values as
equal, `nm_setting_compare (a, a, EXACT)` is TRUE. -/
theorem compare_reflexive (nm_property_compare : GValue → GValue → Int)
    (h_compare : ∀ value, nm_property_compare value value = 0)
    (klass : NMSettingClass) (a : NMSetting) :
    nm_setting_compare nm_property_compare klass a a NM_SETTING_COMPARE_FLAG_EXACT = true := by
  unfold nm_setting_compare
  simp only [bne_self_eq_false, Bool.false_eq_true, if_false]
  apply compare_loop_true_of_forall
  intro prop_spec h_mem _
  obtain ⟨property, h_find⟩ := schema_has_property_spec klass prop_spec h_mem
  have h_values : compare_property_values nm_property_compare klass a a prop_spec = true := by
    unfold compare_property_values
    rw [h_find]
    simp only
    split <;> simp [h_compare]
  unfold compare_property
  simp [NM_SETTING_COMPARE_FLAG_EXACT, flag_set_zero, h_values]

/-- Witness for C4: the same secret, flagged agent-owned on one side only,
compared with IGNORE_AGENT_OWNED_SECRETS. -/
theorem compare_false_when_secret_flags_differ_witness :
    example_psk_spec ∈ example_class.property_specs
      ∧ nm_setting_get_secret_flags example_class example_setting_agent_owned "psk" = .ok 1
      ∧ nm_setting_get_secret_flags example_class example_setting_plain "psk" = .ok 0
      ∧ nm_setting_compare example_compare example_class example_setting_agent_owned
          example_setting_plain NM_SETTING_COMPARE_FLAG_IGNORE_AGENT_OWNED_SECRETS = false :=
  ⟨by decide, by rfl, by rfl,
    compare_false_when_secret_flags_differ example_compare example_class
      example_setting_agent_owned example_setting_plain
      NM_SETTING_COMPARE_FLAG_IGNORE_AGENT_OWNED_SECRETS example_psk_spec
      (by decide) (by decide) (by decide) (by decide) (by decide)
      (by
        have h_a : nm_setting_get_secret_flags example_class example_setting_agent_owned
            example_psk_spec.name = .ok 1 := by rfl
        have h_b : nm_setting_get_secret_flags example_class example_setting_plain
            example_psk_spec.name = .ok 0 := by rfl
        rw [h_a, h_b]
        simp)⟩

/-- Witness for C5: the comparer `example_compare` and a setting that holds a
flagged secret. -/
theorem compare_reflexive_witness :
    (∀ value, example_compare value value = 0)
      ∧ nm_setting_compare example_compare example_class example_setting_agent_owned
          example_setting_agent_owned NM_SETTING_COMPARE_FLAG_EXACT = true :=
  ⟨fun value => by simp [example_compare],
    compare_reflexive example_compare (fun value => by simp [example_compare]) example_class
      example_setting_agent_owned⟩

/-! ## Diff -/

theorem foldl_congr_of_mem {α β : Type} (f g : β → α → β) :
    ∀ (l : List α) (init : β), (∀ acc, ∀ x ∈ l, f acc x = g acc x) →
      l.foldl f init = l.foldl g init := by
  intro l
  induction l with
  | nil => intro init _; rfl
  | cons head rest ih =>
    intro init h
    simp only [List.foldl_cons]
    rw [h init head (List.mem_cons_self _ _)]
    exact ih _ (fun acc x hx => h acc x (List.mem_cons_of_mem _ hx))

theorem secret_flags_or_none_eq_of_get_eq (klass : NMSettingClass) (a b : NMSetting)
    (name : String)
    (h : nm_setting_get_secret_flags klass a name = nm_setting_get_secret_flags klass b name) :
    secret_flags_or_none klass a name = secret_flags_or_none klass b name := by
  unfold secret_flags_or_none
  rw [h]

theorem compare_property_values_comm (nm_property_compare : GValue → GValue → Int)
    (h_compare : ∀ value1 value2,
      nm_property_compare value1 value2 = 0 ↔ nm_property_compare value2 value1 = 0)
    (klass : NMSettingClass) (a b : NMSetting) (prop_spec : GParamSpec) :
    compare_property_values nm_property_compare klass a b prop_spec
      = compare_property_values nm_property_compare klass b a prop_spec := by
  unfold compare_property_values
  cases nm_setting_class_find_property klass prop_spec.name with
  | none => rfl
  | some property =>
    simp only
    split
    · rw [Bool.eq_iff_iff]; simp only [beq_iff_eq]; exact h_compare _ _
    · rw [Bool.eq_iff_iff]; simp only [beq_iff_eq]; exact h_compare _ _

theorem compare_property_comm (nm_property_compare : GValue → GValue → Int)
    (h_compare : ∀ value1 value2,
      nm_property_compare value1 value2 = 0 ↔ nm_property_compare value2 value1 = 0)
    (klass : NMSettingClass) (a b : NMSetting) (prop_spec : GParamSpec) (flags : Nat) :
    compare_property nm_property_compare klass a b prop_spec flags
      = compare_property nm_property_compare klass b a prop_spec flags := by
  unfold compare_property
  rw [compare_property_values_comm nm_property_compare h_compare klass a b prop_spec]
  by_cases h_eq : secret_flags_or_none klass a prop_spec.name
      = secret_flags_or_none klass b prop_spec.name
  · simp [h_eq]
  · have h_ne : ¬ secret_flags_or_none klass b prop_spec.name
        = secret_flags_or_none klass a prop_spec.name := fun h => h_eq h.symm
    simp [h_eq, h_ne]

/-- The skip rules give the same verdict for `a` and `b` when the two settings
have the same type and the rules that read the stored secret flags cannot tell
them apart. -/
theorem should_compare_prop_congr (nm_type_setting_connection : GType)
    (klass : NMSettingClass) (a b : NMSetting) (flags : Nat) (prop_spec : GParamSpec)
    (h_type : a.g_type = b.g_type)
    (h_flags : (flag_set flags NM_SETTING_COMPARE_FLAG_IGNORE_AGENT_OWNED_SECRETS = false
        ∧ flag_set flags NM_SETTING_COMPARE_FLAG_IGNORE_NOT_SAVED_SECRETS = false)
      ∨ (flag_set prop_spec.flags NM_SETTING_PARAM_SECRET = true →
          nm_setting_get_secret_flags klass a prop_spec.name
            = nm_setting_get_secret_flags klass b prop_spec.name)) :
    should_compare_prop nm_type_setting_connection klass a prop_spec.name flags prop_spec.flags
      = should_compare_prop nm_type_setting_connection klass b prop_spec.name flags
          prop_spec.flags := by
  unfold should_compare_prop
  rw [h_type]
  rcases h_flags with ⟨h_agent, h_saved⟩ | h_same
  · simp [h_agent, h_saved]
  · cases h_secret : flag_set prop_spec.flags NM_SETTING_PARAM_SECRET with
    | false => simp
    | true =>
      rw [secret_flags_or_none_eq_of_get_eq klass a b prop_spec.name (h_same h_secret)]

theorem diff_property_swap (nm_property_compare : GValue → GValue → Int)
    (h_compare : ∀ value1 value2,
      nm_property_compare value1 value2 = 0 ↔ nm_property_compare value2 value1 = 0)
    (nm_type_setting_connection : GType) (klass : NMSettingClass) (a b : NMSetting)
    (flags : Nat) (results : GHashTable Nat) (prop_spec : GParamSpec)
    (h_type : a.g_type = b.g_type)
    (h_flags : (flag_set flags NM_SETTING_COMPARE_FLAG_IGNORE_AGENT_OWNED_SECRETS = false
        ∧ flag_set flags NM_SETTING_COMPARE_FLAG_IGNORE_NOT_SAVED_SECRETS = false)
      ∨ (flag_set prop_spec.flags NM_SETTING_PARAM_SECRET = true →
          nm_setting_get_secret_flags klass a prop_spec.name
            = nm_setting_get_secret_flags klass b prop_spec.name)) :
    diff_property nm_property_compare nm_type_setting_connection klass a (some b) flags
        NM_SETTING_DIFF_RESULT_IN_A NM_SETTING_DIFF_RESULT_IN_B results prop_spec
      = diff_property nm_property_compare nm_type_setting_connection klass b (some a) flags
          NM_SETTING_DIFF_RESULT_IN_B NM_SETTING_DIFF_RESULT_IN_A results prop_spec := by
  unfold diff_property
  have h_should := should_compare_prop_congr nm_type_setting_connection klass a b flags
    prop_spec h_type h_flags
  have h_comm := compare_property_comm nm_property_compare h_compare klass a b prop_spec flags
  simp only [h_should, h_comm]
  cases g_param_value_defaults prop_spec (g_object_get_property a prop_spec.name) <;>
    cases g_param_value_defaults prop_spec (g_object_get_property b prop_spec.name) <;>
    simp [NM_SETTING_DIFF_RESULT_UNKNOWN, NM_SETTING_DIFF_RESULT_IN_A,
      NM_SETTING_DIFF_RESULT_IN_B]

/-- C6, as amended: with a value comparer whose verdict does not depend on the
order of its arguments, and flags without IGNORE_AGENT_OWNED_SECRETS and
IGNORE_NOT_SAVED_SECRETS (or settings that store the same secret flags for each
secret property), `nm_setting_diff (a, b, flags, FALSE)` and
`nm_setting_diff (b, a, flags, TRUE)` give the same return value and the same
results table, from whatever table they start with. -/
theorem diff_swap_invert (nm_property_compare : GValue → GValue → Int)
    (h_compare : ∀ value1 value2,
      nm_property_compare value1 value2 = 0 ↔ nm_property_compare value2 value1 = 0)
    (nm_type_setting_connection : GType) (klass : NMSettingClass) (a b : NMSetting)
    (flags : Nat) (results : Option (GHashTable Nat))
    (h_flags : (flag_set flags NM_SETTING_COMPARE_FLAG_IGNORE_AGENT_OWNED_SECRETS = false
        ∧ flag_set flags NM_SETTING_COMPARE_FLAG_IGNORE_NOT_SAVED_SECRETS = false)
      ∨ (∀ prop_spec ∈ klass.property_specs,
          flag_set prop_spec.flags NM_SETTING_PARAM_SECRET = true →
          nm_setting_get_secret_flags klass a prop_spec.name
            = nm_setting_get_secret_flags klass b prop_spec.name)) :
    nm_setting_diff nm_property_compare nm_type_setting_connection klass a (some b) flags
        false results
      = nm_setting_diff nm_property_compare nm_type_setting_connection klass b (some a) flags
          true results := by
  unfold nm_setting_diff
  by_cases h_type : a.g_type = b.g_type
  · have h_step : ∀ (acc : GHashTable Nat), ∀ prop_spec ∈ klass.property_specs,
        diff_property nm_property_compare nm_type_setting_connection klass a (some b) flags
            NM_SETTING_DIFF_RESULT_IN_A NM_SETTING_DIFF_RESULT_IN_B acc prop_spec
          = diff_property nm_property_compare nm_type_setting_connection klass b (some a) flags
              NM_SETTING_DIFF_RESULT_IN_B NM_SETTING_DIFF_RESULT_IN_A acc prop_spec := by
      intro acc prop_spec h_mem
      apply diff_property_swap nm_property_compare h_compare nm_type_setting_connection klass
        a b flags acc prop_spec h_type
      rcases h_flags with h_none | h_same
      · exact Or.inl h_none
      · exact Or.inr (h_same prop_spec h_mem)
    simp only [h_type, bne_self_eq_false, Bool.false_eq_true, if_false, if_true]
    rw [foldl_congr_of_mem _ _ klass.property_specs (results.getD []) h_step]
  · have h_type' : ¬ b.g_type = a.g_type := fun h => h_type h.symm
    simp [h_type, h_type']

/-- Witness for C6 as amended: the flagged and the unflagged example setting,
compared with IGNORE_SECRETS. -/
theorem diff_swap_invert_witness :
    (∀ value1 value2, example_compare value1 value2 = 0 ↔ example_compare value2 value1 = 0)
      ∧ (flag_set NM_SETTING_COMPARE_FLAG_IGNORE_SECRETS
            NM_SETTING_COMPARE_FLAG_IGNORE_AGENT_OWNED_SECRETS = false
          ∧ flag_set NM_SETTING_COMPARE_FLAG_IGNORE_SECRETS
            NM_SETTING_COMPARE_FLAG_IGNORE_NOT_SAVED_SECRETS = false)
      ∧ nm_setting_diff example_compare 2000 example_class example_setting_agent_owned
          (some example_setting_plain) NM_SETTING_COMPARE_FLAG_IGNORE_SECRETS false none
        = nm_setting_diff example_compare 2000 example_class example_setting_plain
          (some example_setting_agent_owned) NM_SETTING_COMPARE_FLAG_IGNORE_SECRETS true none :=
  ⟨fun value1 value2 => by simp [example_compare, eq_comm],
    by decide,
    diff_swap_invert example_compare
      (fun value1 value2 => by simp [example_compare, eq_comm])
      2000 example_class example_setting_agent_owned example_setting_plain
      NM_SETTING_COMPARE_FLAG_IGNORE_SECRETS none (Or.inl (by decide))⟩

/-- C6 fails as stated: with IGNORE_AGENT_OWNED_SECRETS, the secret "psk"
flagged agent-owned in `a` only is skipped by `nm_setting_diff (a, b, FALSE)`
and recorded by `nm_setting_diff (b, a, TRUE)`. -/
theorem diff_swap_invert_differs :
    example_setting_agent_owned.g_type = example_setting_plain.g_type
      ∧ nm_setting_diff example_compare 2000 example_class example_setting_agent_owned
          (some example_setting_plain) NM_SETTING_COMPARE_FLAG_IGNORE_AGENT_OWNED_SECRETS
          false none
        = (false, some [("psk-flags", 1)])
      ∧ nm_setting_diff example_compare 2000 example_class example_setting_plain
          (some example_setting_agent_owned) NM_SETTING_COMPARE_FLAG_IGNORE_AGENT_OWNED_SECRETS
          true none
        = (false, some [("psk", 3), ("psk-flags", 1)])
      ∧ nm_setting_diff example_compare 2000 example_class example_setting_agent_owned
          (some example_setting_plain) NM_SETTING_COMPARE_FLAG_IGNORE_AGENT_OWNED_SECRETS
          false none
        ≠ nm_setting_diff example_compare 2000 example_class example_setting_plain
          (some example_setting_agent_owned) NM_SETTING_COMPARE_FLAG_IGNORE_AGENT_OWNED_SECRETS
          true none := by
  decide

/-! ## Serialization -/

theorem find_property_of_nodup (properties : List NMSettingProperty)
    (h_nodup : (properties.map (fun property => property.name)).Nodup)
    (property : NMSettingProperty) (h_mem : property ∈ properties) :
    find_property properties property.name = some property := by
  induction properties with
  | nil => simp at h_mem
  | cons head rest ih =>
    simp only [List.map_cons, List.nodup_cons, List.mem_map, not_exists, not_and] at h_nodup
    unfold find_property
    rcases List.mem_cons.mp h_mem with h_eq | h_rest
    · subst h_eq; simp
    · have h_ne : ¬ property.name = head.name := fun h => h_nodup.1 property h_rest h
      simp only [h_ne, if_false]
      exact ih h_nodup.2 h_rest

theorem mem_g_hash_table_insert {β : Type} (hash : GHashTable β) (key : String) (value : β)
    (entry : String × β) (h : entry ∈ g_hash_table_insert hash key value) :
    entry = (key, value) ∨ entry ∈ hash := by
  induction hash with
  | nil =>
    simp only [g_hash_table_insert, List.mem_singleton] at h
    exact Or.inl h
  | cons head rest ih =>
    obtain ⟨k, v⟩ := head
    unfold g_hash_table_insert at h
    split at h
    · rename_i h_key
      rcases List.mem_cons.mp h with h_eq | h_rest
      · left; rw [h_eq, h_key]
      · right; exact List.mem_cons_of_mem _ h_rest
    · rcases List.mem_cons.mp h with h_eq | h_rest
      · right; rw [h_eq]; exact List.mem_cons_self _ _
      · rcases ih h_rest with h_new | h_old
        · exact Or.inl h_new
        · exact Or.inr (List.mem_cons_of_mem _ h_old)

/-- Every entry of the hash the loop returns was in the hash it started with or
is the value of a descriptor of the list. -/
theorem mem_to_dbus_loop (setting : NMSetting) (connection : NMConnection) (flags : Nat)
    (entry : String × GValue) :
    ∀ (properties : List NMSettingProperty) (hash : GHashTable GValue),
      entry ∈ to_dbus_loop setting connection flags properties hash →
      entry ∈ hash ∨ ∃ property ∈ properties, property.name = entry.1
        ∧ to_dbus_property setting connection flags property = some entry.2 := by
  intro properties
  induction properties with
  | nil => intro hash h; exact Or.inl (by simpa [to_dbus_loop] using h)
  | cons head rest ih =>
    intro hash h
    unfold to_dbus_loop at h
    split at h
    · rename_i value h_value
      rcases ih _ h with h_hash | ⟨property, h_mem, h_name, h_prop⟩
      · rcases mem_g_hash_table_insert _ _ _ _ h_hash with h_new | h_old
        · right
          refine ⟨head, List.mem_cons_self _ _, ?_, ?_⟩
          · rw [h_new]
          · rw [h_new]; exact h_value
        · exact Or.inl h_old
      · exact Or.inr ⟨property, List.mem_cons_of_mem _ h_mem, h_name, h_prop⟩
    · rcases ih _ h with h_hash | ⟨property, h_mem, h_name, h_prop⟩
      · exact Or.inl h_hash
      · exact Or.inr ⟨property, List.mem_cons_of_mem _ h_mem, h_name, h_prop⟩

/-- A descriptor that contributes a value has passed the secret filter of the mode. -/
theorem to_dbus_property_some_filter (setting : NMSetting) (connection : NMConnection)
    (flags : Nat) (property : NMSettingProperty) (value : GValue)
    (h : to_dbus_property setting connection flags property = some value) :
    (flag_set flags NM_CONNECTION_SERIALIZE_NO_SECRETS = true →
        prop_spec_is_secret property.param_spec = false)
      ∧ (flag_set flags NM_CONNECTION_SERIALIZE_ONLY_SECRETS = true →
        prop_spec_is_secret property.param_spec = true) := by
  unfold to_dbus_property at h
  simp only at h
  split at h
  · simp at h
  · split at h
    · simp at h
    · split at h
      · simp at h
      · split at h
        · simp at h
        · rename_i h_no h_only
          constructor
          · intro h_flag
            simpa [h_flag] using h_no
          · intro h_flag
            simpa [h_flag] using h_only

/-- C7: the mode filter of `_nm_setting_to_dbus`. In a class whose schema has
one descriptor per name, with NO_SECRETS no key of the returned hash names a
secret-flagged property, and with ONLY_SECRETS every key does. -/
theorem to_dbus_mode_filter (klass : NMSettingClass) (setting : NMSetting)
    (connection : NMConnection) (flags : Nat) (h_nodup : (schema_names klass).Nodup) :
    (flag_set flags NM_CONNECTION_SERIALIZE_NO_SECRETS = true →
        ∀ entry ∈ _nm_setting_to_dbus klass setting connection flags,
          names_secret_property klass entry.1 = false)
      ∧ (flag_set flags NM_CONNECTION_SERIALIZE_ONLY_SECRETS = true →
        ∀ entry ∈ _nm_setting_to_dbus klass setting connection flags,
          names_secret_property klass entry.1 = true) := by
  have h_entry : ∀ entry ∈ _nm_setting_to_dbus klass setting connection flags,
      ∃ property, nm_setting_class_find_property klass entry.1 = some property
        ∧ to_dbus_property setting connection flags property = some entry.2 := by
    intro entry h_mem
    unfold _nm_setting_to_dbus at h_mem
    rcases mem_to_dbus_loop setting connection flags entry _ _ h_mem with h_nil
      | ⟨property, h_prop, h_name, h_value⟩
    · simp at h_nil
    · refine ⟨property, ?_, h_value⟩
      unfold nm_setting_class_find_property
      rw [← h_name]
      exact find_property_of_nodup _ h_nodup property h_prop
  constructor
  · intro h_flag entry h_mem
    obtain ⟨property, h_find, h_value⟩ := h_entry entry h_mem
    unfold names_secret_property
    rw [h_find]
    exact (to_dbus_property_some_filter setting connection flags property _ h_value).1 h_flag
  · intro h_flag entry h_mem
    obtain ⟨property, h_find, h_value⟩ := h_entry entry h_mem
    unfold names_secret_property
    rw [h_find]
    exact (to_dbus_property_some_filter setting connection flags property _ h_value).2 h_flag

/-- Witness for C7: `example_class`, whose schema names are pairwise distinct,
and a setting holding a flagged secret. -/
theorem to_dbus_mode_filter_witness :
    (schema_names example_class).Nodup
      ∧ _nm_setting_to_dbus example_class example_setting_agent_owned ⟨[]⟩
          NM_CONNECTION_SERIALIZE_NO_SECRETS = [("psk-flags", GValue.uint 1)]
      ∧ _nm_setting_to_dbus example_class example_setting_agent_owned ⟨[]⟩
          NM_CONNECTION_SERIALIZE_ONLY_SECRETS = [("psk", GValue.string (some "secret"))]
      ∧ ((flag_set NM_CONNECTION_SERIALIZE_NO_SECRETS NM_CONNECTION_SERIALIZE_NO_SECRETS = true →
          ∀ entry ∈ _nm_setting_to_dbus example_class example_setting_agent_owned ⟨[]⟩
              NM_CONNECTION_SERIALIZE_NO_SECRETS,
            names_secret_property example_class entry.1 = false)
        ∧ (flag_set NM_CONNECTION_SERIALIZE_NO_SECRETS NM_CONNECTION_SERIALIZE_ONLY_SECRETS
            = true →
          ∀ entry ∈ _nm_setting_to_dbus example_class example_setting_agent_owned ⟨[]⟩
              NM_CONNECTION_SERIALIZE_NO_SECRETS,
            names_secret_property example_class entry.1 = true)) :=
  ⟨by decide, by decide, by decide,
    to_dbus_mode_filter example_class example_setting_agent_owned ⟨[]⟩
      NM_CONNECTION_SERIALIZE_NO_SECRETS (by decide)⟩

/-! ## Deserialization -/

theorem g_hash_table_lookup_filter {β : Type} (keep : String → Bool) (key : String)
    (h_keep : keep key = true) :
    ∀ (hash : GHashTable β),
      g_hash_table_lookup (hash.filter (fun entry => keep entry.1)) key
        = g_hash_table_lookup hash key := by
  intro hash
  induction hash with
  | nil => rfl
  | cons head rest ih =>
    obtain ⟨k, v⟩ := head
    by_cases h_k : k = key
    · subst h_k
      simp [List.filter_cons, h_keep, g_hash_table_lookup]
    · by_cases h_kept : keep k = true
      · simp [List.filter_cons, h_kept, g_hash_table_lookup, h_k, ih]
      · simp [List.filter_cons, h_kept, g_hash_table_lookup, h_k, ih]

/-- The step for one descriptor reads the hash at the descriptor's name only. -/
theorem new_from_dbus_property_congr (klass : NMSettingClass)
    (hash1 hash2 : GHashTable GValue) (connection_hash : GHashTable (GHashTable GValue))
    (property : NMSettingProperty) (setting : NMSetting)
    (h : g_hash_table_lookup hash1 property.name = g_hash_table_lookup hash2 property.name) :
    new_from_dbus_property klass hash1 connection_hash property setting
      = new_from_dbus_property klass hash2 connection_hash property setting := by
  unfold new_from_dbus_property
  rw [h]

theorem new_from_dbus_loop_congr (klass : NMSettingClass) (hash1 hash2 : GHashTable GValue)
    (connection_hash : GHashTable (GHashTable GValue)) :
    ∀ (properties : List NMSettingProperty) (setting : NMSetting),
      (∀ property ∈ properties,
        g_hash_table_lookup hash1 property.name = g_hash_table_lookup hash2 property.name) →
      new_from_dbus_loop klass hash1 connection_hash properties setting
        = new_from_dbus_loop klass hash2 connection_hash properties setting := by
  intro properties
  induction properties with
  | nil => intro setting _; rfl
  | cons head rest ih =>
    intro setting h
    unfold new_from_dbus_loop
    rw [new_from_dbus_property_congr klass hash1 hash2 connection_hash head setting
      (h head (List.mem_cons_self _ _))]
    cases new_from_dbus_property klass hash2 connection_hash head setting with
    | error error => rfl
    | ok setting1 => exact ih setting1 (fun property hp => h property (List.mem_cons_of_mem _ hp))

/-- C8: unknown keys are not fatal and have no effect. The result of
`_nm_setting_new_from_dbus` (the setting, or the error) is the same for a hash
and for the hash without the keys that name no schema property. -/
theorem new_from_dbus_ignores_unknown_keys (klass : NMSettingClass)
    (setting_hash : GHashTable GValue) (connection_hash : GHashTable (GHashTable GValue)) :
    _nm_setting_new_from_dbus klass setting_hash connection_hash
      = _nm_setting_new_from_dbus klass
          (setting_hash.filter (fun entry =>
            (nm_setting_class_find_property klass entry.1).isSome))
          connection_hash := by
  unfold _nm_setting_new_from_dbus
  apply new_from_dbus_loop_congr
  intro property h_mem
  symm
  apply g_hash_table_lookup_filter (fun key => (nm_setting_class_find_property klass key).isSome)
  exact find_property_isSome_of_mem _ property h_mem

/-- A step fails exactly when the custom function it calls fails, with that
function's error. -/
theorem new_from_dbus_property_error_iff (klass : NMSettingClass)
    (setting_hash : GHashTable GValue) (connection_hash : GHashTable (GHashTable GValue))
    (property : NMSettingProperty) (setting : NMSetting) (error : GError) :
    new_from_dbus_property klass setting_hash connection_hash property setting = .error error
      ↔ custom_function_failure setting_hash connection_hash property setting = some error := by
  unfold new_from_dbus_property custom_function_failure
  rcases property with ⟨name, param_spec, dbus_type, get_func, set_func, not_set_func,
    to_dbus, from_dbus⟩
  simp only
  cases g_hash_table_lookup setting_hash name with
  | none =>
    cases not_set_func with
    | none => simp
    | some not_set_func =>
      simp only
      cases not_set_func setting connection_hash name <;> simp
  | some value =>
    cases set_func with
    | some set_func =>
      simp only
      cases set_func setting connection_hash name value <;> simp
    | none =>
      cases param_spec with
      | none => simp
      | some param_spec =>
        simp only
        split
        · simp
        · split <;> simp

theorem new_from_dbus_loop_append (klass : NMSettingClass) (setting_hash : GHashTable GValue)
    (connection_hash : GHashTable (GHashTable GValue)) (rest : List NMSettingProperty) :
    ∀ (before : List NMSettingProperty) (setting : NMSetting),
      new_from_dbus_loop klass setting_hash connection_hash (before ++ rest) setting
        = match new_from_dbus_loop klass setting_hash connection_hash before setting with
          | .error error => .error error
          | .ok current => new_from_dbus_loop klass setting_hash connection_hash rest current := by
  intro before
  induction before with
  | nil => intro setting; simp [new_from_dbus_loop]
  | cons head before ih =>
    intro setting
    simp only [List.cons_append, new_from_dbus_loop]
    cases new_from_dbus_property klass setting_hash connection_hash head setting with
    | error error => rfl
    | ok setting1 => exact ih setting1

theorem new_from_dbus_loop_error (klass : NMSettingClass) (setting_hash : GHashTable GValue)
    (connection_hash : GHashTable (GHashTable GValue)) (error : GError) :
    ∀ (properties : List NMSettingProperty) (setting : NMSetting),
      new_from_dbus_loop klass setting_hash connection_hash properties setting = .error error →
      ∃ before property after current, properties = before ++ property :: after
        ∧ new_from_dbus_loop klass setting_hash connection_hash before setting = .ok current
        ∧ new_from_dbus_property klass setting_hash connection_hash property current
          = .error error := by
  intro properties
  induction properties with
  | nil => intro setting h; simp [new_from_dbus_loop] at h
  | cons head rest ih =>
    intro setting h
    unfold new_from_dbus_loop at h
    cases h_step : new_from_dbus_property klass setting_hash connection_hash head setting with
    | error error1 =>
      rw [h_step] at h
      simp only [Except.error.injEq] at h
      subst h
      exact ⟨[], head, rest, setting, rfl, rfl, h_step⟩
    | ok setting1 =>
      rw [h_step] at h
      obtain ⟨before, property, after, current, h_split, h_before, h_fail⟩ := ih setting1 h
      refine ⟨head :: before, property, after, current, ?_, ?_, h_fail⟩
      · rw [h_split]; rfl
      · simp only [new_from_dbus_loop, h_step]
        exact h_before

/-- C9: `_nm_setting_new_from_dbus` fails with `error` if and only if, scanning
the schema in order, the steps before some descriptor succeed and that
descriptor has a value in the hash and a set function that fails with `error`
on the setting built so far, or has no value and a not-set function that fails
with `error`; the descriptors after it play no part. A not-set function plays
no part either for a descriptor that has a value in the hash: the loop gives
the same result whatever that function is. -/
theorem new_from_dbus_fails_iff (klass : NMSettingClass) (setting_hash : GHashTable GValue)
    (connection_hash : GHashTable (GHashTable GValue)) :
    (∀ error, _nm_setting_new_from_dbus klass setting_hash connection_hash = .error error
      ↔ ∃ before property after current,
          nm_setting_class_get_properties klass = before ++ property :: after
          ∧ new_from_dbus_loop klass setting_hash connection_hash before (g_object_new klass)
            = .ok current
          ∧ custom_function_failure setting_hash connection_hash property current
            = some error)
      ∧ (∀ (property : NMSettingProperty) (rest : List NMSettingProperty) (setting : NMSetting)
          (value : GValue) (not_set_func : Option NMSettingPropertyNotSetFunc),
          g_hash_table_lookup setting_hash property.name = some value →
          new_from_dbus_loop klass setting_hash connection_hash
              ({ property with not_set_func := not_set_func } :: rest) setting
            = new_from_dbus_loop klass setting_hash connection_hash (property :: rest)
                setting) := by
  constructor
  · intro error
    unfold _nm_setting_new_from_dbus
    constructor
    · intro h
      obtain ⟨before, property, after, current, h_split, h_before, h_fail⟩ :=
        new_from_dbus_loop_error klass setting_hash connection_hash error _ _ h
      exact ⟨before, property, after, current, h_split, h_before,
        (new_from_dbus_property_error_iff klass setting_hash connection_hash property current
          error).mp h_fail⟩
    · rintro ⟨before, property, after, current, h_split, h_before, h_fail⟩
      rw [h_split, new_from_dbus_loop_append, h_before]
      simp only [new_from_dbus_loop]
      rw [(new_from_dbus_property_error_iff klass setting_hash connection_hash property current
        error).mpr h_fail]
  · intro property rest setting value not_set_func h_value
    have h_step : new_from_dbus_property klass setting_hash connection_hash
        { property with not_set_func := not_set_func } setting
        = new_from_dbus_property klass setting_hash connection_hash property setting := by
      unfold new_from_dbus_property
      rcases property with ⟨name, param_spec, dbus_type, get_func, set_func, not_set_func0,
        to_dbus, from_dbus⟩
      simp only at h_value
      simp only [h_value]
      cases set_func <;> cases param_spec <;> cases not_set_func <;> cases not_set_func0 <;> rfl
    simp only [new_from_dbus_loop, h_step]

/-- Witness for C9: in `example_checked_class` the hash with a value for "name"
fails with the error of the set function of "name", the first descriptor. -/
theorem new_from_dbus_fails_iff_witness :
    _nm_setting_new_from_dbus example_checked_class
        [("name", GValue.string (some "wired")), ("id", GValue.string (some "home"))] []
      = .error { domain := "example-error-quark", code := 1, message := "name" } :=
  ((new_from_dbus_fails_iff example_checked_class
      [("name", GValue.string (some "wired")), ("id", GValue.string (some "home"))] []).1
    { domain := "example-error-quark", code := 1, message := "name" }).mpr
    ⟨[], _, _, g_object_new example_checked_class, rfl, rfl, rfl⟩

theorem new_from_dbus_loop_congr_step (klass : NMSettingClass)
    (hash1 hash2 : GHashTable GValue) (connection_hash : GHashTable (GHashTable GValue)) :
    ∀ (properties : List NMSettingProperty) (setting : NMSetting),
      (∀ property ∈ properties, ∀ current,
        new_from_dbus_property klass hash1 connection_hash property current
          = new_from_dbus_property klass hash2 connection_hash property current) →
      new_from_dbus_loop klass hash1 connection_hash properties setting
        = new_from_dbus_loop klass hash2 connection_hash properties setting := by
  intro properties
  induction properties with
  | nil => intro setting _; rfl
  | cons head rest ih =>
    intro setting h
    unfold new_from_dbus_loop
    rw [h head (List.mem_cons_self _ _) setting]
    cases new_from_dbus_property klass hash2 connection_hash head setting with
    | error error => rfl
    | ok setting1 =>
      exact ih setting1 (fun property hp => h property (List.mem_cons_of_mem _ hp))

/-- The step for a read-only descriptor without custom functions leaves the
setting alone, whatever the hash holds. -/
theorem new_from_dbus_property_read_only (klass : NMSettingClass)
    (setting_hash : GHashTable GValue) (connection_hash : GHashTable (GHashTable GValue))
    (property : NMSettingProperty) (setting : NMSetting)
    (h : read_only_without_functions property = true) :
    new_from_dbus_property klass setting_hash connection_hash property setting
      = .ok setting := by
  unfold read_only_without_functions at h
  unfold new_from_dbus_property
  rcases property with ⟨name, param_spec, dbus_type, get_func, set_func, not_set_func,
    to_dbus, from_dbus⟩
  simp only [Bool.and_eq_true, Option.isNone_iff_eq_none] at h
  obtain ⟨⟨h_set, h_not_set⟩, h_spec⟩ := h
  subst h_set h_not_set
  cases param_spec with
  | none => simp at h_spec
  | some param_spec =>
    simp only at h_spec
    cases g_hash_table_lookup setting_hash name with
    | none => rfl
    | some value => simp [h_spec]

/-- C10, as amended: for a property that is not writable and whose descriptor
has no set function and no not-set function, the result of
`_nm_setting_new_from_dbus` is the same for any two hashes that agree on every
other key: it does not depend on the value the hash holds for the property, nor
on whether it holds one. -/
theorem new_from_dbus_ignores_read_only (klass : NMSettingClass)
    (hash1 hash2 : GHashTable GValue) (connection_hash : GHashTable (GHashTable GValue))
    (name : String)
    (h_read_only : ∀ property ∈ nm_setting_class_get_properties klass,
      property.name = name → read_only_without_functions property = true)
    (h_agree : ∀ key, key ≠ name →
      g_hash_table_lookup hash1 key = g_hash_table_lookup hash2 key) :
    _nm_setting_new_from_dbus klass hash1 connection_hash
      = _nm_setting_new_from_dbus klass hash2 connection_hash := by
  unfold _nm_setting_new_from_dbus
  apply new_from_dbus_loop_congr_step
  intro property h_mem current
  by_cases h_name : property.name = name
  · rw [new_from_dbus_property_read_only klass hash1 connection_hash property current
        (h_read_only property h_mem h_name),
      new_from_dbus_property_read_only klass hash2 connection_hash property current
        (h_read_only property h_mem h_name)]
  · exact new_from_dbus_property_congr klass hash1 hash2 connection_hash property current
      (h_agree property.name h_name)

/-- Witness for C10 as amended: the read-only "name" of `example_class`, once
with a value in the hash and once without. -/
theorem new_from_dbus_ignores_read_only_witness :
    (∀ property ∈ nm_setting_class_get_properties example_class,
        property.name = "name" → read_only_without_functions property = true)
      ∧ _nm_setting_new_from_dbus example_class
          [("name", GValue.string (some "wired")), ("mtu", GValue.uint 9)] []
        = _nm_setting_new_from_dbus example_class [("mtu", GValue.uint 9)] [] :=
  ⟨by decide,
    new_from_dbus_ignores_read_only example_class
      [("name", GValue.string (some "wired")), ("mtu", GValue.uint 9)]
      [("mtu", GValue.uint 9)] [] "name" (by decide)
      (fun key h_key => by simp [g_hash_table_lookup, Ne.symm h_key])⟩

/-- C10 fails as stated: "name" is a schema property of `example_checked_class`
that is not writable, yet a hash with a value for it is refused (its set
function is called and fails) while the same hash without that value builds a
setting. -/
theorem new_from_dbus_read_only_value_matters :
    example_name_spec ∈ example_checked_class.property_specs
      ∧ flag_set example_name_spec.flags G_PARAM_WRITABLE = false
      ∧ (_nm_setting_new_from_dbus example_checked_class
          [("name", GValue.string (some "wired")), ("id", GValue.string (some "home"))]
          []).toBool = false
      ∧ (_nm_setting_new_from_dbus example_checked_class
          [("id", GValue.string (some "home"))] []).toBool = true := by
  decide

/-! ## Round trip through the D-Bus hash -/

theorem g_hash_table_lookup_insert {β : Type} (key : String) (value : β) (other : String) :
    ∀ (hash : GHashTable β),
      g_hash_table_lookup (g_hash_table_insert hash key value) other
        = if key = other then some value else g_hash_table_lookup hash other := by
  intro hash
  induction hash with
  | nil => simp [g_hash_table_insert, g_hash_table_lookup]
  | cons head rest ih =>
    obtain ⟨k, v⟩ := head
    unfold g_hash_table_insert
    by_cases h_k : k = key
    · subst h_k
      simp only [if_true, g_hash_table_lookup]
      split <;> rfl
    · simp only [h_k, if_false, g_hash_table_lookup, ih]
      by_cases h_other : k = other
      · have h_ne : ¬ key = other := fun h => h_k (h_other.trans h.symm)
        simp [h_other, h_ne]
      · simp [h_other]

theorem to_dbus_loop_append (setting : NMSetting) (connection : NMConnection) (flags : Nat)
    (rest : List NMSettingProperty) :
    ∀ (before : List NMSettingProperty) (hash : GHashTable GValue),
      to_dbus_loop setting connection flags (before ++ rest) hash
        = to_dbus_loop setting connection flags rest
            (to_dbus_loop setting connection flags before hash) := by
  intro before
  induction before with
  | nil => intro hash; simp [to_dbus_loop]
  | cons head before ih =>
    intro hash
    simp only [List.cons_append, to_dbus_loop]
    split
    · exact ih _
    · exact ih _

/-- The loop leaves alone the keys that no descriptor of the list is named by. -/
theorem to_dbus_loop_lookup_other (setting : NMSetting) (connection : NMConnection)
    (flags : Nat) (key : String) :
    ∀ (properties : List NMSettingProperty) (hash : GHashTable GValue),
      (∀ property ∈ properties, property.name ≠ key) →
      g_hash_table_lookup (to_dbus_loop setting connection flags properties hash) key
        = g_hash_table_lookup hash key := by
  intro properties
  induction properties with
  | nil => intro hash _; simp [to_dbus_loop]
  | cons head rest ih =>
    intro hash h
    have h_rest : ∀ property ∈ rest, property.name ≠ key :=
      fun property hp => h property (List.mem_cons_of_mem _ hp)
    unfold to_dbus_loop
    split
    · rw [ih _ h_rest, g_hash_table_lookup_insert]
      simp [h head (List.mem_cons_self _ _)]
    · exact ih _ h_rest

/-- In a list of descriptors with distinct names, the hash holds for each
descriptor exactly the value its step produced. -/
theorem to_dbus_loop_lookup (setting : NMSetting) (connection : NMConnection) (flags : Nat)
    (before after : List NMSettingProperty) (property : NMSettingProperty)
    (h_nodup : ((before ++ property :: after).map (fun property => property.name)).Nodup) :
    g_hash_table_lookup
        (to_dbus_loop setting connection flags (before ++ property :: after) []) property.name
      = to_dbus_property setting connection flags property := by
  simp only [List.map_append, List.map_cons] at h_nodup
  have h_parts := List.nodup_append.mp h_nodup
  have h_before : ∀ other ∈ before, other.name ≠ property.name := by
    intro other h_other h_eq
    exact h_parts.2.2 (List.mem_map.mpr ⟨other, h_other, rfl⟩)
      (by rw [h_eq]; exact List.mem_cons_self _ _)
  have h_after : ∀ other ∈ after, other.name ≠ property.name := by
    intro other h_other h_eq
    have h_tail := (List.nodup_cons.mp h_parts.2.1).1
    exact h_tail (by rw [← h_eq]; exact List.mem_map.mpr ⟨other, h_other, rfl⟩)
  rw [to_dbus_loop_append]
  unfold to_dbus_loop
  cases h_step : to_dbus_property setting connection flags property with
  | some value =>
    simp only
    rw [to_dbus_loop_lookup_other _ _ _ _ _ _ h_after, g_hash_table_lookup_insert]
    simp
  | none =>
    simp only
    rw [to_dbus_loop_lookup_other _ _ _ _ _ _ h_after,
      to_dbus_loop_lookup_other _ _ _ _ _ _ h_before]
    rfl

theorem g_object_class_find_property_of_mem (klass : NMSettingClass)
    (h_nodup : (klass.property_specs.map (fun pspec => pspec.name)).Nodup)
    (pspec : GParamSpec) (h_mem : pspec ∈ klass.property_specs) :
    g_object_class_find_property klass pspec.name = some pspec := by
  unfold g_object_class_find_property
  generalize klass.property_specs = specs at h_nodup h_mem
  induction specs with
  | nil => simp at h_mem
  | cons head rest ih =>
    simp only [List.map_cons, List.nodup_cons, List.mem_map, not_exists, not_and] at h_nodup
    rcases List.mem_cons.mp h_mem with h_eq | h_rest
    · subst h_eq; simp [List.find?_cons]
    · have h_ne : ¬ head.name = pspec.name := fun h => h_nodup.1 pspec h_rest h.symm
      simp only [List.find?_cons, h_ne, decide_False]
      exact ih h_nodup.2 h_rest

theorem g_object_set_property_g_type (klass : NMSettingClass) (object : NMSetting)
    (property_name : String) (value : GValue) :
    (g_object_set_property klass object property_name value).g_type = object.g_type := by
  unfold g_object_set_property
  split
  · rfl
  · split
    · rfl
    · split
      · rfl
      · split <;> rfl

theorem g_object_set_property_other (klass : NMSettingClass) (object : NMSetting)
    (property_name : String) (value : GValue) (other : String) (h : other ≠ property_name) :
    (g_object_set_property klass object property_name value).values other
      = object.values other := by
  unfold g_object_set_property
  split
  · rfl
  · split
    · rfl
    · split
      · rfl
      · split
        · rfl
        · simp [Function.update, h]

/-- Assignment of a value of the declared type to a property that may be
assigned stores the value. -/
theorem g_object_set_property_stores (klass : NMSettingClass)
    (h_nodup : (klass.property_specs.map (fun pspec => pspec.name)).Nodup)
    (object : NMSetting) (pspec : GParamSpec) (value : GValue)
    (h_mem : pspec ∈ klass.property_specs)
    (h_fixed : fixed_after_construction pspec = false)
    (h_type : G_VALUE_TYPE value = pspec.value_type) :
    (g_object_set_property klass object pspec.name value).values pspec.name = value := by
  unfold fixed_after_construction at h_fixed
  simp only [Bool.or_eq_false_iff, Bool.not_eq_false'] at h_fixed
  unfold g_object_set_property
  rw [g_object_class_find_property_of_mem klass h_nodup pspec h_mem]
  simp [h_fixed.1, h_fixed.2, g_value_type_compatible, h_type]

/-- The step of the second loop for a descriptor without custom functions. -/
theorem new_from_dbus_property_plain (klass : NMSettingClass)
    (setting_hash : GHashTable GValue) (connection_hash : GHashTable (GHashTable GValue))
    (property : NMSettingProperty) (setting : NMSetting)
    (h_plain : without_custom_functions property = true) :
    new_from_dbus_property klass setting_hash connection_hash property setting
      = .ok (match g_hash_table_lookup setting_hash property.name, property.param_spec with
        | some value, some param_spec =>
          if flag_set param_spec.flags G_PARAM_WRITABLE then
            g_object_set_property klass setting param_spec.name
              (match property.from_dbus with
                | some from_dbus => from_dbus value
                | none => value)
          else setting
        | _, _ => setting) := by
  unfold without_custom_functions at h_plain
  unfold new_from_dbus_property
  rcases property with ⟨name, param_spec, dbus_type, get_func, set_func, not_set_func,
    to_dbus, from_dbus⟩
  simp only [Bool.and_eq_true, Option.isNone_iff_eq_none] at h_plain
  obtain ⟨⟨_, h_set⟩, h_not_set⟩ := h_plain
  subst h_set h_not_set
  cases g_hash_table_lookup setting_hash name with
  | none => cases param_spec <;> rfl
  | some value =>
    cases param_spec with
    | none => rfl
    | some param_spec =>
      simp only
      cases flag_set param_spec.flags G_PARAM_WRITABLE with
      | false => simp
      | true => cases from_dbus <;> simp

/-- The second loop over descriptors without custom functions cannot fail; it
keeps the type of the setting and the value of every property that none of the
descriptors is named by. -/
theorem new_from_dbus_loop_plain (klass : NMSettingClass) (setting_hash : GHashTable GValue)
    (connection_hash : GHashTable (GHashTable GValue)) :
    ∀ (properties : List NMSettingProperty) (setting : NMSetting),
      (∀ property ∈ properties, without_custom_functions property = true) →
      (∀ property ∈ properties, descriptor_well_formed klass property = true) →
      ∃ built, new_from_dbus_loop klass setting_hash connection_hash properties setting
          = .ok built
        ∧ built.g_type = setting.g_type
        ∧ ∀ other, (∀ property ∈ properties, property.name ≠ other) →
            built.values other = setting.values other := by
  intro properties
  induction properties with
  | nil => intro setting _ _; exact ⟨setting, rfl, rfl, fun _ _ => rfl⟩
  | cons head rest ih =>
    intro setting h_plain h_wf
    have h_head := new_from_dbus_property_plain klass setting_hash connection_hash head setting
      (h_plain head (List.mem_cons_self _ _))
    have h_head_wf := h_wf head (List.mem_cons_self _ _)
    obtain ⟨built, h_loop, h_type, h_frame⟩ := ih
      (match g_hash_table_lookup setting_hash head.name, head.param_spec with
        | some value, some param_spec =>
          if flag_set param_spec.flags G_PARAM_WRITABLE then
            g_object_set_property klass setting param_spec.name
              (match head.from_dbus with
                | some from_dbus => from_dbus value
                | none => value)
          else setting
        | _, _ => setting)
      (fun property hp => h_plain property (List.mem_cons_of_mem _ hp))
      (fun property hp => h_wf property (List.mem_cons_of_mem _ hp))
    refine ⟨built, ?_, ?_, ?_⟩
    · simp only [new_from_dbus_loop, h_head]
      exact h_loop
    · rw [h_type]
      split
      · split
        · exact g_object_set_property_g_type _ _ _ _
        · rfl
      · rfl
    · intro other h_other
      rw [h_frame other (fun property hp => h_other property (List.mem_cons_of_mem _ hp))]
      have h_ne := h_other head (List.mem_cons_self _ _)
      split
      · rename_i value param_spec h_value h_spec
        split
        · apply g_object_set_property_other
          unfold descriptor_well_formed at h_head_wf
          rw [h_spec] at h_head_wf
          simp only [Bool.and_eq_true, decide_eq_true_eq] at h_head_wf
          rw [h_head_wf.2]
          exact fun h => h_ne h.symm
        · rfl
      · rfl

/-- What a descriptor without get function contributes in the mode "all": the
value of its property, transformed if need be, when the property is writable
and does not hold its default. -/
theorem to_dbus_property_plain (setting : NMSetting) (connection : NMConnection)
    (property : NMSettingProperty) (pspec : GParamSpec)
    (h_get : property.get_func = none) (h_spec : property.param_spec = some pspec) :
    to_dbus_property setting connection NM_CONNECTION_SERIALIZE_ALL property
      = if flag_set pspec.flags G_PARAM_WRITABLE = true
            ∧ setting.values pspec.name ≠ pspec.default_value then
          some (match property.to_dbus with
            | some to_dbus => to_dbus (setting.values pspec.name)
            | none => setting.values pspec.name)
        else none := by
  unfold to_dbus_property
  rcases property with ⟨name, param_spec, dbus_type, get_func, set_func, not_set_func,
    to_dbus, from_dbus⟩
  simp only at h_get h_spec
  subst h_get h_spec
  simp only [NM_CONNECTION_SERIALIZE_ALL, flag_set_zero, g_param_value_defaults,
    g_object_get_property]
  cases flag_set pspec.flags G_PARAM_WRITABLE with
  | false => simp
  | true =>
    by_cases h_default : setting.values pspec.name = pspec.default_value
    · simp [h_default]
    · cases to_dbus <;> simp [h_default]

/-- The descriptor the schema of a well-formed class has for a `GParamSpec`
points to that `GParamSpec`. -/
theorem schema_descriptor_of_property_spec (klass : NMSettingClass)
    (h_class : class_well_formed klass) (pspec : GParamSpec)
    (h_mem : pspec ∈ klass.property_specs) :
    ∃ property ∈ nm_setting_class_get_properties klass,
      property.name = pspec.name ∧ property.param_spec = some pspec := by
  obtain ⟨h_specs, _, h_wf, _⟩ := h_class
  obtain ⟨property, h_find⟩ := schema_has_property_spec klass pspec h_mem
  obtain ⟨h_in, h_name⟩ := find_property_some _ _ _ h_find
  refine ⟨property, h_in, h_name, ?_⟩
  have h_desc := h_wf property h_in
  unfold descriptor_well_formed at h_desc
  cases h_spec : property.param_spec with
  | none =>
    rw [h_spec] at h_desc
    simp only [Option.isNone_iff_eq_none] at h_desc
    rw [h_name, g_object_class_find_property_of_mem klass h_specs pspec h_mem] at h_desc
    simp at h_desc
  | some other =>
    rw [h_spec] at h_desc
    simp only [Bool.and_eq_true, decide_eq_true_eq] at h_desc
    have h_other := g_object_class_find_property_of_mem klass h_specs other h_desc.1
    rw [h_desc.2, h_name, g_object_class_find_property_of_mem klass h_specs pspec h_mem]
      at h_other
    simp only [Option.some.injEq] at h_other
    rw [h_other]

/-- The setting rebuilt from the hash of a setting holds, for every property,
the value the setting held; a property that held its default is absent from
the hash. -/
theorem round_trip_values (klass : NMSettingClass) (setting : NMSetting)
    (connection : NMConnection) (connection_hash : GHashTable (GHashTable GValue))
    (h_class : class_well_formed klass) (h_instance : setting_is_instance klass setting)
    (h_constructed : ∀ pspec ∈ klass.property_specs, fixed_after_construction pspec = true →
      setting.values pspec.name = (g_object_new klass).values pspec.name)
    (h_plain : ∀ property ∈ nm_setting_class_get_properties klass,
      without_custom_functions property = true)
    (h_transforms : ∀ property ∈ nm_setting_class_get_properties klass,
      ∀ pspec, property.param_spec = some pspec →
        transforms_round_trip property (setting.values pspec.name)) :
    ∃ built,
      _nm_setting_new_from_dbus klass
          (_nm_setting_to_dbus klass setting connection NM_CONNECTION_SERIALIZE_ALL)
          connection_hash = .ok built
        ∧ built.g_type = setting.g_type
        ∧ ∀ pspec ∈ klass.property_specs,
            built.values pspec.name = setting.values pspec.name
              ∧ (setting.values pspec.name = pspec.default_value →
                g_hash_table_lookup
                  (_nm_setting_to_dbus klass setting connection NM_CONNECTION_SERIALIZE_ALL)
                  pspec.name = none) := by
  have h_wf := h_class.2.2.1
  have h_name_fixed := h_class.2.2.2
  have h_names := h_class.2.1
  have h_specs := h_class.1
  unfold _nm_setting_new_from_dbus _nm_setting_to_dbus
  obtain ⟨built, h_loop, h_type, _⟩ := new_from_dbus_loop_plain klass
    (to_dbus_loop setting connection NM_CONNECTION_SERIALIZE_ALL
      (nm_setting_class_get_properties klass) [])
    connection_hash (nm_setting_class_get_properties klass) (g_object_new klass) h_plain h_wf
  refine ⟨built, h_loop, ?_, ?_⟩
  · rw [h_type, h_instance.1]; rfl
  intro pspec h_mem
  obtain ⟨property, h_in, h_name, h_spec⟩ :=
    schema_descriptor_of_property_spec klass h_class pspec h_mem
  obtain ⟨before, after, h_split⟩ := List.append_of_mem h_in
  unfold schema_names at h_names
  rw [h_split] at h_names
  have h_lookup := to_dbus_loop_lookup setting connection NM_CONNECTION_SERIALIZE_ALL
    before after property h_names
  have h_get : property.get_func = none := by
    have h := h_plain property h_in
    unfold without_custom_functions at h
    simp only [Bool.and_eq_true, Option.isNone_iff_eq_none] at h
    exact h.1.1
  rw [to_dbus_property_plain setting connection property pspec h_get h_spec] at h_lookup
  have h_parts := List.nodup_append.mp (by simpa [List.map_append] using h_names)
  have h_before : ∀ other ∈ before, other.name ≠ pspec.name := by
    intro other h_other h_eq
    exact h_parts.2.2 (List.mem_map.mpr ⟨other, h_other, rfl⟩)
      (by rw [h_eq, ← h_name]; exact List.mem_cons_self _ _)
  have h_after : ∀ other ∈ after, other.name ≠ pspec.name := by
    intro other h_other h_eq
    have h_tail := (List.nodup_cons.mp h_parts.2.1).1
    exact h_tail (by rw [h_name, ← h_eq]; exact List.mem_map.mpr ⟨other, h_other, rfl⟩)
  have h_sub : ∀ other ∈ before ++ property :: after,
      other ∈ nm_setting_class_get_properties klass := by
    intro other h_other; rw [h_split]; exact h_other
  obtain ⟨built1, h_loop1, _, h_frame1⟩ := new_from_dbus_loop_plain klass
    (to_dbus_loop setting connection NM_CONNECTION_SERIALIZE_ALL
      (before ++ property :: after) [])
    connection_hash before (g_object_new klass)
    (fun other h_other => h_plain other (h_sub other (List.mem_append_left _ h_other)))
    (fun other h_other => h_wf other (h_sub other (List.mem_append_left _ h_other)))
  have h_step := new_from_dbus_property_plain klass
    (to_dbus_loop setting connection NM_CONNECTION_SERIALIZE_ALL
      (before ++ property :: after) [])
    connection_hash property built1 (h_plain property h_in)
  obtain ⟨built3, h_loop3, _, h_frame3⟩ := new_from_dbus_loop_plain klass
    (to_dbus_loop setting connection NM_CONNECTION_SERIALIZE_ALL
      (before ++ property :: after) [])
    connection_hash after
    (match g_hash_table_lookup
        (to_dbus_loop setting connection NM_CONNECTION_SERIALIZE_ALL
          (before ++ property :: after) []) property.name, property.param_spec with
      | some value, some param_spec =>
        if flag_set param_spec.flags G_PARAM_WRITABLE then
          g_object_set_property klass built1 param_spec.name
            (match property.from_dbus with
              | some from_dbus => from_dbus value
              | none => value)
        else built1
      | _, _ => built1)
    (fun other h_other => h_plain other
      (h_sub other (List.mem_append_right _ (List.mem_cons_of_mem _ h_other))))
    (fun other h_other => h_wf other
      (h_sub other (List.mem_append_right _ (List.mem_cons_of_mem _ h_other))))
  have h_built : built = built3 := by
    have h_whole := h_loop
    rw [h_split, new_from_dbus_loop_append, h_loop1] at h_whole
    simp only [new_from_dbus_loop, h_step] at h_whole
    rw [h_loop3] at h_whole
    simp only [Except.ok.injEq] at h_whole
    exact h_whole.symm
  have h_new : built1.values pspec.name = (g_object_new klass).values pspec.name :=
    h_frame1 pspec.name h_before
  have h_new_default : flag_set pspec.flags G_PARAM_WRITABLE = true →
      (g_object_new klass).values pspec.name = pspec.default_value := by
    intro h_writable
    have h_not_name : ¬ pspec.name = NM_SETTING_NAME := by
      intro h
      rw [h_name_fixed pspec h_mem h] at h_writable
      exact Bool.false_ne_true h_writable
    unfold g_object_new
    simp only [h_not_name, if_false]
    rw [g_object_class_find_property_of_mem klass h_specs pspec h_mem]
  have h_inst := h_instance.2 pspec h_mem
  have h_lookup_spec := h_lookup
  rw [h_name] at h_lookup_spec
  rw [h_split, h_built, h_frame3 pspec.name h_after, h_lookup, h_lookup_spec, h_spec]
  by_cases h_sent : flag_set pspec.flags G_PARAM_WRITABLE = true
      ∧ setting.values pspec.name ≠ pspec.default_value
  · have h_fixed : fixed_after_construction pspec = false := by
      cases h_f : fixed_after_construction pspec with
      | false => rfl
      | true =>
        have h_held := h_constructed pspec h_mem h_f
        rw [h_new_default h_sent.1] at h_held
        exact absurd h_held h_sent.2
    have h_trans := h_transforms property h_in pspec h_spec
    unfold transforms_round_trip at h_trans
    simp only [h_sent, and_self, if_true, ne_eq, not_false_eq_true]
    constructor
    · have h_value : (match property.from_dbus with
          | some from_dbus => from_dbus (match property.to_dbus with
              | some to_dbus => to_dbus (setting.values pspec.name)
              | none => setting.values pspec.name)
          | none => (match property.to_dbus with
              | some to_dbus => to_dbus (setting.values pspec.name)
              | none => setting.values pspec.name)) = setting.values pspec.name := by
        cases h_to : property.to_dbus <;> cases h_from : property.from_dbus <;>
          simp only [h_to, h_from] at h_trans ⊢
        exact h_trans
      rw [h_value]
      exact g_object_set_property_stores klass h_specs built1 pspec _ h_mem h_fixed h_inst
    · exact fun h_default => h_default.elim
  · simp only [h_sent, if_false]
    refine ⟨?_, fun _ => trivial⟩
    rw [h_new]
    by_cases h_writable : flag_set pspec.flags G_PARAM_WRITABLE = true
    · rw [h_new_default h_writable]
      by_contra h_ne
      exact h_sent ⟨h_writable, fun h => h_ne h.symm⟩
    · symm
      apply h_constructed pspec h_mem
      unfold fixed_after_construction
      simp only [Bool.not_eq_true] at h_writable
      simp [h_writable]

/-- Two settings that hold the same value for every property of the class
store the same secret flags. -/
theorem secret_flags_or_none_of_values_eq (klass : NMSettingClass) (a b : NMSetting)
    (h_values : ∀ pspec ∈ klass.property_specs, a.values pspec.name = b.values pspec.name)
    (secret_name : String) :
    secret_flags_or_none klass a secret_name = secret_flags_or_none klass b secret_name := by
  have h_flags : ∀ flags_prop flags,
      g_object_get_flags klass a flags_prop flags = g_object_get_flags klass b flags_prop flags := by
    intro flags_prop flags
    unfold g_object_get_flags
    cases h_find : g_object_class_find_property klass flags_prop with
    | none => rfl
    | some pspec =>
      unfold g_object_class_find_property at h_find
      have h_mem := List.mem_of_find?_eq_some h_find
      have h_name : pspec.name = flags_prop := by
        simpa using List.find?_some h_find
      simp only [g_object_get_property]
      rw [← h_name, h_values pspec h_mem]
  unfold secret_flags_or_none nm_setting_get_secret_flags get_secret_flags
  rw [h_flags]

/-- Two settings that hold the same value for every property of the class
compare equal, property by property, under the exact comparison. -/
theorem compare_property_of_values_eq (nm_property_compare : GValue → GValue → Int)
    (h_compare : ∀ value, nm_property_compare value value = 0)
    (klass : NMSettingClass) (a b : NMSetting)
    (h_values : ∀ pspec ∈ klass.property_specs, a.values pspec.name = b.values pspec.name)
    (prop_spec : GParamSpec) (h_mem : prop_spec ∈ klass.property_specs) :
    compare_property nm_property_compare klass a b prop_spec NM_SETTING_COMPARE_FLAG_EXACT
      = true := by
  obtain ⟨property, h_find⟩ := schema_has_property_spec klass prop_spec h_mem
  have h_equal : compare_property_values nm_property_compare klass a b prop_spec = true := by
    unfold compare_property_values
    rw [h_find]
    simp only [g_object_get_property, h_values prop_spec h_mem]
    split <;> simp [h_compare]
  unfold compare_property
  rw [secret_flags_or_none_of_values_eq klass a b h_values prop_spec.name]
  simp [NM_SETTING_COMPARE_FLAG_EXACT, flag_set_zero, h_equal]

/-- C1 (as amended): round trip. For a well-formed class whose descriptors
have no custom get, set or not-set function, an instance `setting` of the
class in which every property that cannot be assigned after construction (not
writable, or construct-only) holds the value a newly constructed object has,
transform pairs that undo one another on the values `setting` holds, and a
value comparer that reports identical values as equal: rebuilding `setting`
from its hash in the mode "all" succeeds, the setting built compares equal to
`setting` under the exact comparison, and every property that held its default
in `setting` is absent from the hash and holds its default in the setting
built. -/
theorem round_trip (nm_property_compare : GValue → GValue → Int)
    (h_compare : ∀ value, nm_property_compare value value = 0)
    (klass : NMSettingClass) (setting : NMSetting)
    (connection : NMConnection) (connection_hash : GHashTable (GHashTable GValue))
    (h_class : class_well_formed klass) (h_instance : setting_is_instance klass setting)
    (h_constructed : ∀ pspec ∈ klass.property_specs, fixed_after_construction pspec = true →
      setting.values pspec.name = (g_object_new klass).values pspec.name)
    (h_plain : ∀ property ∈ nm_setting_class_get_properties klass,
      without_custom_functions property = true)
    (h_transforms : ∀ property ∈ nm_setting_class_get_properties klass,
      ∀ pspec, property.param_spec = some pspec →
        transforms_round_trip property (setting.values pspec.name)) :
    ∃ built,
      _nm_setting_new_from_dbus klass
          (_nm_setting_to_dbus klass setting connection NM_CONNECTION_SERIALIZE_ALL)
          connection_hash = .ok built
        ∧ nm_setting_compare nm_property_compare klass built setting
            NM_SETTING_COMPARE_FLAG_EXACT = true
        ∧ ∀ pspec ∈ klass.property_specs,
            setting.values pspec.name = pspec.default_value →
            g_hash_table_lookup
                (_nm_setting_to_dbus klass setting connection NM_CONNECTION_SERIALIZE_ALL)
                pspec.name = none
              ∧ built.values pspec.name = pspec.default_value := by
  obtain ⟨built, h_built, h_type, h_values⟩ := round_trip_values klass setting connection
    connection_hash h_class h_instance h_constructed h_plain h_transforms
  refine ⟨built, h_built, ?_, ?_⟩
  · unfold nm_setting_compare
    simp only [h_type, bne_self_eq_false, Bool.false_eq_true, if_false]
    apply compare_loop_true_of_forall
    intro prop_spec h_mem _
    exact compare_property_of_values_eq nm_property_compare h_compare klass built setting
      (fun pspec h => (h_values pspec h).1) prop_spec h_mem
  · intro pspec h_mem h_default
    exact ⟨(h_values pspec h_mem).2 h_default, by rw [(h_values pspec h_mem).1, h_default]⟩

/-- Witness for C1 as amended: `example_typed_class`, whose "mtu" travels as a
64-bit number, and a setting with a secret, its flags and a number. -/
theorem round_trip_witness :
    class_well_formed example_typed_class
      ∧ setting_is_instance example_typed_class example_typed_setting
      ∧ (∀ pspec ∈ example_typed_class.property_specs,
          fixed_after_construction pspec = true →
          example_typed_setting.values pspec.name
            = (g_object_new example_typed_class).values pspec.name)
      ∧ (∀ property ∈ nm_setting_class_get_properties example_typed_class,
          without_custom_functions property = true)
      ∧ example_from_uint64 (example_to_uint64 (example_typed_setting.values "mtu"))
        = example_typed_setting.values "mtu"
      ∧ _nm_setting_to_dbus example_typed_class example_typed_setting ⟨[]⟩
          NM_CONNECTION_SERIALIZE_ALL
        = [("psk", GValue.string (some "secret")), ("psk-flags", GValue.uint 2),
            ("mtu", GValue.uint64 1500)]
      ∧ ∃ built,
          _nm_setting_new_from_dbus example_typed_class
              (_nm_setting_to_dbus example_typed_class example_typed_setting ⟨[]⟩
                NM_CONNECTION_SERIALIZE_ALL) [] = .ok built
            ∧ nm_setting_compare example_compare example_typed_class built
                example_typed_setting NM_SETTING_COMPARE_FLAG_EXACT = true
            ∧ ∀ pspec ∈ example_typed_class.property_specs,
                example_typed_setting.values pspec.name = pspec.default_value →
                g_hash_table_lookup
                    (_nm_setting_to_dbus example_typed_class example_typed_setting
                      ⟨[]⟩ NM_CONNECTION_SERIALIZE_ALL) pspec.name = none
                  ∧ built.values pspec.name = pspec.default_value :=
  ⟨⟨by decide, by decide, by decide, by decide⟩, ⟨by decide, by decide⟩, by decide,
    by decide, by decide, by decide,
    round_trip example_compare (fun value => by simp [example_compare])
      example_typed_class example_typed_setting ⟨[]⟩ []
      ⟨by decide, by decide, by decide, by decide⟩ ⟨by decide, by decide⟩ (by decide)
      (by decide)
      (by
        have h_schema : nm_setting_class_get_properties example_typed_class
            = [ { name := "name", param_spec := some example_name_spec, dbus_type := 0,
                  get_func := none, set_func := none, not_set_func := none,
                  to_dbus := none, from_dbus := none },
                { name := "psk", param_spec := some example_psk_spec, dbus_type := 0,
                  get_func := none, set_func := none, not_set_func := none,
                  to_dbus := none, from_dbus := none },
                { name := "psk-flags",
                  param_spec := some
                    { name := "psk-flags", value_type := G_TYPE_UINT,
                      flags := G_PARAM_READABLE ||| G_PARAM_WRITABLE,
                      default_value := .uint 0 },
                  dbus_type := 0, get_func := none, set_func := none, not_set_func := none,
                  to_dbus := none, from_dbus := none },
                { name := "mtu", param_spec := some example_mtu_spec,
                  dbus_type := G_TYPE_UINT64, get_func := none, set_func := none,
                  not_set_func := none, to_dbus := some example_to_uint64,
                  from_dbus := some example_from_uint64 } ] := by rfl
        rw [h_schema]
        intro property h_mem pspec h_spec
        simp only [List.mem_cons, List.mem_singleton, List.not_mem_nil, or_false] at h_mem
        rcases h_mem with h | h | h | h <;> subst h <;>
          simp only [transforms_round_trip]
        simp only [Option.some.injEq] at h_spec
        subst h_spec
        decide)⟩

/-- C1 (as stated) fails: `example_construct_class` is well-formed and has
neither custom functions nor transforms, and `example_constructed_setting` is an
instance of it whose construct-only "token" was given a value at construction.
The hash holds that value, but GLib refuses to assign a construct-only
property of the object `_nm_setting_new_from_dbus` has constructed, so the
setting built holds the default and does not compare equal. -/
theorem round_trip_construct_only_fails :
    class_well_formed example_construct_class
      ∧ setting_is_instance example_construct_class example_constructed_setting
      ∧ (∀ property ∈ nm_setting_class_get_properties example_construct_class,
          without_custom_functions property = true
            ∧ property.to_dbus.isNone = true ∧ property.from_dbus.isNone = true)
      ∧ _nm_setting_to_dbus example_construct_class example_constructed_setting ⟨[]⟩
          NM_CONNECTION_SERIALIZE_ALL = [("token", GValue.string (some "t"))]
      ∧ (match _nm_setting_new_from_dbus example_construct_class
            (_nm_setting_to_dbus example_construct_class example_constructed_setting ⟨[]⟩
              NM_CONNECTION_SERIALIZE_ALL) [] with
          | .ok built =>
            decide (built.values "token" = GValue.string none)
              && !nm_setting_compare example_compare example_construct_class built
                example_constructed_setting NM_SETTING_COMPARE_FLAG_EXACT
          | .error _ => false) = true := by
  refine ⟨⟨by decide, by decide, by decide, by decide⟩, ⟨by decide, by decide⟩, by decide,
    by decide, by decide⟩

/-! ## Slave types -/

/-- C19: `_nm_setting_slave_type_is_valid` returns TRUE exactly for the bond,
bridge and team setting names; the port type it reports is the bridge-port
setting name for bridge, the team-port setting name for team, and none
otherwise (bond, an absent name, an unrecognized name). -/
theorem slave_type_is_valid_table (slave_type : Option String) :
    ((_nm_setting_slave_type_is_valid slave_type).1 = true
        ↔ slave_type = some NM_SETTING_BOND_SETTING_NAME
          ∨ slave_type = some NM_SETTING_BRIDGE_SETTING_NAME
          ∨ slave_type = some NM_SETTING_TEAM_SETTING_NAME)
      ∧ (slave_type = some NM_SETTING_BRIDGE_SETTING_NAME →
        (_nm_setting_slave_type_is_valid slave_type).2
          = some NM_SETTING_BRIDGE_PORT_SETTING_NAME)
      ∧ (slave_type = some NM_SETTING_TEAM_SETTING_NAME →
        (_nm_setting_slave_type_is_valid slave_type).2
          = some NM_SETTING_TEAM_PORT_SETTING_NAME)
      ∧ (slave_type ≠ some NM_SETTING_BRIDGE_SETTING_NAME →
        slave_type ≠ some NM_SETTING_TEAM_SETTING_NAME →
        (_nm_setting_slave_type_is_valid slave_type).2 = none) := by
  have h_bond_bridge : NM_SETTING_BOND_SETTING_NAME ≠ NM_SETTING_BRIDGE_SETTING_NAME := by
    decide
  have h_bond_team : NM_SETTING_BOND_SETTING_NAME ≠ NM_SETTING_TEAM_SETTING_NAME := by decide
  have h_bridge_team : NM_SETTING_BRIDGE_SETTING_NAME ≠ NM_SETTING_TEAM_SETTING_NAME := by
    decide
  cases slave_type with
  | none => simp [_nm_setting_slave_type_is_valid]
  | some name =>
    unfold _nm_setting_slave_type_is_valid
    by_cases h_bond : name = NM_SETTING_BOND_SETTING_NAME
    · subst h_bond
      simp [h_bond_bridge, h_bond_team]
    · by_cases h_bridge : name = NM_SETTING_BRIDGE_SETTING_NAME
      · subst h_bridge
        simp [h_bridge_team, h_bond_bridge.symm]
      · by_cases h_team : name = NM_SETTING_TEAM_SETTING_NAME
        · subst h_team
          simp [h_bridge_team.symm, h_bond_team.symm]
        · simp [h_bond, h_bridge, h_team]

/-- Witness for C19: the bridge setting name is valid and its port type is the
bridge-port setting name; "vlan" is not valid and has no port type. -/
theorem slave_type_is_valid_table_witness :
    _nm_setting_slave_type_is_valid (some "bridge") = (true, some "bridge-port")
      ∧ (_nm_setting_slave_type_is_valid (some "vlan")).1 = false
      ∧ (_nm_setting_slave_type_is_valid (some "vlan")).2 = none :=
  ⟨by
      have h := (slave_type_is_valid_table (some "bridge")).2.1 rfl
      have h_valid := (slave_type_is_valid_table (some "bridge")).1.mpr (Or.inr (Or.inl rfl))
      exact Prod.ext h_valid h,
    by
      have h := (slave_type_is_valid_table (some "vlan")).1
      cases h_valid : (_nm_setting_slave_type_is_valid (some "vlan")).1 with
      | false => rfl
      | true => exact absurd (h.mp h_valid) (by decide),
    (slave_type_is_valid_table (some "vlan")).2.2.2 (by decide) (by decide)⟩

/-! ## The schema build -/

theorem ensure_properties_overrides_eq :
    ∀ (type_overrides : List (Option (List NMSettingProperty)))
      (overrides : List NMSettingProperty),
      ensure_properties_overrides type_overrides overrides
        = overrides ++ type_overrides.foldr (fun array tail => array.getD [] ++ tail) [] := by
  intro type_overrides
  induction type_overrides with
  | nil => intro overrides; simp [ensure_properties_overrides]
  | cons head rest ih =>
    intro overrides
    cases head with
    | none => simp [ensure_properties_overrides, ih]
    | some array => simp [ensure_properties_overrides, ih]

theorem flatten_map_getD_eq_foldr (type_overrides : List (Option (List NMSettingProperty))) :
    (type_overrides.map (fun array => array.getD [])).flatten
      = type_overrides.foldr (fun array tail => array.getD [] ++ tail) [] := by
  induction type_overrides with
  | nil => rfl
  | cons head rest ih => simp [ih]

theorem find_property_eq_find (properties : List NMSettingProperty) (name : String) :
    find_property properties name
      = properties.find? (fun descriptor => descriptor.name = name) := by
  induction properties with
  | nil => rfl
  | cons head rest ih =>
    unfold find_property
    by_cases h : name = head.name
    · simp [h]
    · have h_ne : ¬ head.name = name := fun h_eq => h h_eq.symm
      simp [h, h_ne, List.find?_cons, ih]

theorem ensure_properties_specs_eq (overrides : List NMSettingProperty) :
    ∀ (property_specs : List GParamSpec) (properties : List NMSettingProperty),
      ensure_properties_specs overrides property_specs properties
        = properties ++ property_specs.map (fun pspec =>
            (overrides.find? (fun descriptor => descriptor.name = pspec.name)).getD
              (default_descriptor pspec)) := by
  intro property_specs
  induction property_specs with
  | nil => intro properties; simp [ensure_properties_specs]
  | cons head rest ih =>
    intro properties
    unfold ensure_properties_specs
    rw [find_property_eq_find]
    cases h_find : overrides.find? (fun descriptor => descriptor.name = head.name) with
    | none => simp [ih, default_descriptor, h_find]
    | some override => simp [ih, h_find]

theorem find_property_spec_isNone (klass : NMSettingClass) (name : String) :
    (g_object_class_find_property klass name).isNone
      = !klass.property_specs.any (fun pspec => pspec.name = name) := by
  unfold g_object_class_find_property
  induction klass.property_specs with
  | nil => rfl
  | cons head rest ih =>
    by_cases h : head.name = name
    · simp [List.find?_cons, h]
    · simp only [List.find?_cons, h, decide_False, List.any_cons, Bool.false_or]
      exact ih

theorem ensure_properties_remaining_eq (klass : NMSettingClass) :
    ∀ (overrides properties : List NMSettingProperty),
      ensure_properties_remaining klass overrides properties
        = properties ++ overrides.filter (fun descriptor =>
            !klass.property_specs.any (fun pspec => pspec.name = descriptor.name)) := by
  intro overrides
  induction overrides with
  | nil => intro properties; simp [ensure_properties_remaining]
  | cons head rest ih =>
    intro properties
    unfold ensure_properties_remaining
    rw [find_property_spec_isNone]
    cases h : !klass.property_specs.any (fun pspec => pspec.name = head.name) with
    | false => simp [ih, List.filter_cons, h]
    | true => simp [ih, List.filter_cons, h]

/-- C20: the schema build equals its reference definition. The array that the
three loops of `nm_setting_class_ensure_properties` build is the schema as the
specification words it, and so is the schema every operation of the engine
works with. -/
theorem schema_build_eq_reference (klass : NMSettingClass) :
    ensure_properties_build klass = schema_reference klass
      ∧ nm_setting_class_ensure_properties klass = schema_reference klass := by
  constructor
  · unfold ensure_properties_build schema_reference
    simp only [ensure_properties_remaining_eq, ensure_properties_specs_eq,
      ensure_properties_overrides_eq, List.nil_append]
  · unfold nm_setting_class_ensure_properties schema_reference
    simp only [flatten_map_getD_eq_foldr, find_property_eq_find]
    congr 1
    · apply List.map_congr_left
      intro pspec _
      cases h_find : (List.foldr (fun array tail => array.getD [] ++ tail) []
        klass.type_overrides).find? (fun descriptor => descriptor.name = pspec.name) with
      | none => simp [default_descriptor]
      | some override => simp
    · apply List.filter_congr
      intro descriptor _
      exact find_property_spec_isNone klass descriptor.name

/-! ## Priorities and base types -/

/-- The verdict of `_nm_setting_type_is_base_type` for a registered setting type. -/
theorem type_is_base_type_registered (nm_is_setting_type : GType → Bool)
    (nm_type_setting_pppoe : GType) (registry : Registry) (type : GType) (info : SettingInfo)
    (h_setting : nm_is_setting_type type = true)
    (h_registered : _nm_setting_lookup_setting_by_type registry type = some info) :
    _nm_setting_type_is_base_type nm_is_setting_type nm_type_setting_pppoe registry type
      = some (info.priority == 1 || type == nm_type_setting_pppoe) := by
  simp [_nm_setting_type_is_base_type, _get_setting_type_priority, h_setting, h_registered]

/-- C16: for a registered setting type, `_nm_setting_type_is_base_type` is TRUE
if and only if the registered priority of the type is 1 or the type is the
PPPoE setting type. -/
theorem type_is_base_type_iff (nm_is_setting_type : GType → Bool)
    (nm_type_setting_pppoe : GType) (registry : Registry) (type : GType) (info : SettingInfo)
    (h_setting : nm_is_setting_type type = true)
    (h_registered : _nm_setting_lookup_setting_by_type registry type = some info) :
    ∃ result,
      _nm_setting_type_is_base_type nm_is_setting_type nm_type_setting_pppoe registry type
          = some result
        ∧ (result = true ↔ info.priority = 1 ∨ type = nm_type_setting_pppoe) := by
  refine ⟨info.priority == 1 || type == nm_type_setting_pppoe, ?_, ?_⟩
  · exact type_is_base_type_registered nm_is_setting_type nm_type_setting_pppoe registry type
      info h_setting h_registered
  · rw [Bool.or_eq_true, beq_iff_eq, beq_iff_eq]

/-- Witness for C16: in `example_registry` the type of "wired" is a base type
and the type of "ppp" is not, with 2010 as the PPPoE type. -/
theorem type_is_base_type_iff_witness :
    _nm_setting_lookup_setting_by_type example_registry 2001
        = some { name := "wired", type := 2001, priority := 1, error_quark := 12 }
      ∧ _nm_setting_type_is_base_type example_is_setting_type 2010 example_registry 2001
        = some true
      ∧ _nm_setting_type_is_base_type example_is_setting_type 2010 example_registry 2003
        = some false
      ∧ ∃ result,
          _nm_setting_type_is_base_type example_is_setting_type 2010 example_registry 2001
              = some result
            ∧ (result = true ↔ (1 : Nat) = 1 ∨ (2001 : GType) = 2010) :=
  ⟨by decide, by decide, by decide,
    type_is_base_type_iff example_is_setting_type 2010 example_registry 2001
      { name := "wired", type := 2001, priority := 1, error_quark := 12 } rfl (by decide)⟩

/-- The priority read for a registered setting type. -/
theorem get_setting_type_priority_registered (nm_is_setting_type : GType → Bool)
    (registry : Registry) (type : GType) (info : SettingInfo)
    (h_setting : nm_is_setting_type type = true)
    (h_registered : _nm_setting_lookup_setting_by_type registry type = some info) :
    _get_setting_type_priority nm_is_setting_type registry type = some info.priority := by
  simp [_get_setting_type_priority, h_setting, h_registered]

/-- C18: for settings of registered types, `_nm_setting_compare_priority`
returns -1, 0 or 1 exactly when the priority of the first is less than, equal
to or greater than the priority of the second. Hence the result for `(a, b)` is
the negation of the result for `(b, a)`, and results not above zero for
`(a, b)` and `(b, c)` give a result not above zero for `(a, c)`. -/
theorem compare_priority_order (nm_is_setting_type : GType → Bool) (registry : Registry)
    (a b c : NMSetting) (info_a info_b info_c : SettingInfo)
    (h_setting_a : nm_is_setting_type a.g_type = true)
    (h_setting_b : nm_is_setting_type b.g_type = true)
    (h_setting_c : nm_is_setting_type c.g_type = true)
    (h_a : _nm_setting_lookup_setting_by_type registry a.g_type = some info_a)
    (h_b : _nm_setting_lookup_setting_by_type registry b.g_type = some info_b)
    (h_c : _nm_setting_lookup_setting_by_type registry c.g_type = some info_c) :
    ∃ ab ba bc ac : Int,
      _nm_setting_compare_priority nm_is_setting_type registry a b = some ab
        ∧ _nm_setting_compare_priority nm_is_setting_type registry b a = some ba
        ∧ _nm_setting_compare_priority nm_is_setting_type registry b c = some bc
        ∧ _nm_setting_compare_priority nm_is_setting_type registry a c = some ac
        ∧ (ab = -1 ∨ ab = 0 ∨ ab = 1)
        ∧ (ab = -1 ↔ info_a.priority < info_b.priority)
        ∧ (ab = 0 ↔ info_a.priority = info_b.priority)
        ∧ (ab = 1 ↔ info_a.priority > info_b.priority)
        ∧ ab = -ba
        ∧ (ab ≤ 0 → bc ≤ 0 → ac ≤ 0) := by
  have h_pa := get_setting_type_priority_registered nm_is_setting_type registry a.g_type
    info_a h_setting_a h_a
  have h_pb := get_setting_type_priority_registered nm_is_setting_type registry b.g_type
    info_b h_setting_b h_b
  have h_pc := get_setting_type_priority_registered nm_is_setting_type registry c.g_type
    info_c h_setting_c h_c
  have h_value : ∀ (x y : NMSetting) (px py : Nat),
      _get_setting_type_priority nm_is_setting_type registry x.g_type = some px →
      _get_setting_type_priority nm_is_setting_type registry y.g_type = some py →
      _nm_setting_compare_priority nm_is_setting_type registry x y
        = some (if px < py then -1 else if px = py then 0 else 1) := by
    intro x y px py h_x h_y
    simp only [_nm_setting_compare_priority, h_x, h_y]
    split
    · rfl
    · split <;> rfl
  refine ⟨_, _, _, _, h_value a b _ _ h_pa h_pb, h_value b a _ _ h_pb h_pa,
    h_value b c _ _ h_pb h_pc, h_value a c _ _ h_pa h_pc, ?_⟩
  rcases Nat.lt_trichotomy info_a.priority info_b.priority with h | h | h <;>
    rcases Nat.lt_trichotomy info_b.priority info_c.priority with h' | h' | h' <;>
    rcases Nat.lt_trichotomy info_a.priority info_c.priority with h'' | h'' | h'' <;>
    simp [h, h', h''] <;> omega

/-- Witness for C18: in `example_registry` a wired setting sorts before a ppp
setting, and the connection setting before both. -/
theorem compare_priority_order_witness :
    _nm_setting_compare_priority example_is_setting_type example_registry example_connection
        example_wired = some (-1)
      ∧ _nm_setting_compare_priority example_is_setting_type example_registry example_ppp
        example_wired = some 1
      ∧ ∃ ab ba bc ac : Int,
          _nm_setting_compare_priority example_is_setting_type example_registry
              example_connection example_wired = some ab
            ∧ _nm_setting_compare_priority example_is_setting_type example_registry
              example_wired example_connection = some ba
            ∧ _nm_setting_compare_priority example_is_setting_type example_registry
              example_wired example_ppp = some bc
            ∧ _nm_setting_compare_priority example_is_setting_type example_registry
              example_connection example_ppp = some ac
            ∧ (ab = -1 ∨ ab = 0 ∨ ab = 1)
            ∧ (ab = -1 ↔ (0 : Nat) < 1)
            ∧ (ab = 0 ↔ (0 : Nat) = 1)
            ∧ (ab = 1 ↔ (0 : Nat) > 1)
            ∧ ab = -ba
            ∧ (ab ≤ 0 → bc ≤ 0 → ac ≤ 0) :=
  ⟨by decide, by decide,
    compare_priority_order example_is_setting_type example_registry example_connection
      example_wired example_ppp
      { name := "connection", type := 2000, priority := 0, error_quark := 11 }
      { name := "wired", type := 2001, priority := 1, error_quark := 12 }
      { name := "ppp", type := 2003, priority := 3, error_quark := 13 }
      rfl rfl rfl (by decide) (by decide) (by decide)⟩

/-- The loop that has already found a base setting returns it when no further
setting of the list is of a base type, and nothing otherwise. -/
theorem find_in_list_base_type_loop_found (nm_is_setting_type : GType → Bool)
    (nm_type_setting_pppoe : GType) (registry : Registry) (found : NMSetting) :
    ∀ (all_settings : List NMSetting),
      (∀ setting ∈ all_settings,
        (_nm_setting_is_base_type nm_is_setting_type nm_type_setting_pppoe registry
          setting).isSome = true) →
      find_in_list_base_type_loop nm_is_setting_type nm_type_setting_pppoe registry
          all_settings (some found)
        = some (match all_settings.filter
            (setting_is_base nm_is_setting_type nm_type_setting_pppoe registry) with
          | [] => some found
          | _ => none) := by
  intro all_settings
  induction all_settings with
  | nil => intro _; rfl
  | cons head rest ih =>
    intro h_defined
    have h_head := h_defined head (List.mem_cons_self _ _)
    have h_rest := ih (fun setting h => h_defined setting (List.mem_cons_of_mem _ h))
    simp only [find_in_list_base_type_loop]
    cases h_base : _nm_setting_is_base_type nm_is_setting_type nm_type_setting_pppoe registry
        head with
    | none => rw [h_base] at h_head; simp at h_head
    | some base =>
      cases base with
      | false =>
        simp only [List.filter_cons, setting_is_base, h_base]
        exact h_rest
      | true => simp [List.filter_cons, setting_is_base, h_base]

/-- C17: for a list of settings of registered types,
`_nm_setting_find_in_list_base_type` returns the setting `s` exactly when `s` is
the one and only element of the list whose type is a base type; it returns
nothing when the list has no such element and when it has two or more. -/
theorem find_in_list_base_type_unique (nm_is_setting_type : GType → Bool)
    (nm_type_setting_pppoe : GType) (registry : Registry) (all_settings : List NMSetting)
    (h_registered : ∀ setting ∈ all_settings,
      nm_is_setting_type setting.g_type = true
        ∧ (_nm_setting_lookup_setting_by_type registry setting.g_type).isSome = true) :
    _nm_setting_find_in_list_base_type nm_is_setting_type nm_type_setting_pppoe registry
        all_settings
      = some (match all_settings.filter
          (setting_is_base nm_is_setting_type nm_type_setting_pppoe registry) with
        | [setting] => some setting
        | _ => none) := by
  have h_defined : ∀ setting ∈ all_settings,
      (_nm_setting_is_base_type nm_is_setting_type nm_type_setting_pppoe registry
        setting).isSome = true := by
    intro setting h_mem
    obtain ⟨h_setting, h_lookup⟩ := h_registered setting h_mem
    obtain ⟨info, h_info⟩ := Option.isSome_iff_exists.mp h_lookup
    have h_result := type_is_base_type_registered nm_is_setting_type
      nm_type_setting_pppoe registry setting.g_type info h_setting h_info
    simp [_nm_setting_is_base_type, h_result]
  unfold _nm_setting_find_in_list_base_type
  clear h_registered
  induction all_settings with
  | nil => rfl
  | cons head rest ih =>
    have h_head := h_defined head (List.mem_cons_self _ _)
    have h_tail : ∀ setting ∈ rest,
        (_nm_setting_is_base_type nm_is_setting_type nm_type_setting_pppoe registry
          setting).isSome = true :=
      fun setting h => h_defined setting (List.mem_cons_of_mem _ h)
    simp only [find_in_list_base_type_loop]
    cases h_base : _nm_setting_is_base_type nm_is_setting_type nm_type_setting_pppoe registry
        head with
    | none => rw [h_base] at h_head; simp at h_head
    | some base =>
      cases base with
      | false =>
        simp only [List.filter_cons, setting_is_base, h_base]
        exact ih h_tail
      | true =>
        have h_is : setting_is_base nm_is_setting_type nm_type_setting_pppoe registry head
            = true := by
          simp [setting_is_base, h_base]
        simp only [Bool.not_true, Bool.false_eq_true, if_false, List.filter_cons, h_is, if_true]
        rw [find_in_list_base_type_loop_found nm_is_setting_type nm_type_setting_pppoe
          registry head rest h_tail]
        cases List.filter (setting_is_base nm_is_setting_type nm_type_setting_pppoe registry)
          rest <;> rfl

/-- Witness for C17, the example of the specification: a connection that holds
a "wired" setting (priority 1) and a "ppp" setting (priority 3) resolves its
base type to the "wired" setting. -/
theorem find_in_list_base_type_unique_witness :
    (∀ setting ∈ [example_ppp, example_wired],
        example_is_setting_type setting.g_type = true
          ∧ (_nm_setting_lookup_setting_by_type example_registry setting.g_type).isSome = true)
      ∧ _nm_setting_find_in_list_base_type example_is_setting_type 2010 example_registry
          [example_ppp, example_wired] = some (some example_wired)
      ∧ _nm_setting_find_in_list_base_type example_is_setting_type 2010 example_registry
          [example_ppp, example_wired]
        = some (match [example_ppp, example_wired].filter
            (setting_is_base example_is_setting_type 2010 example_registry) with
          | [setting] => some setting
          | _ => none) :=
  ⟨by decide, by rfl,
    find_in_list_base_type_unique example_is_setting_type 2010 example_registry
      [example_ppp, example_wired] (by decide)⟩

/-! ## Clearing secrets -/

/-- The loop changes no property that no secret `GParamSpec` of the list is
named by, and keeps the type of the setting. -/
theorem clear_secrets_loop_frame (klass : NMSettingClass) :
    ∀ (property_specs : List GParamSpec) (setting : NMSetting) (changed : Bool),
      (clear_secrets_loop klass property_specs setting changed).2.g_type = setting.g_type
        ∧ ∀ name,
          (∀ pspec ∈ property_specs,
            flag_set pspec.flags NM_SETTING_PARAM_SECRET = true → pspec.name ≠ name) →
          (clear_secrets_loop klass property_specs setting changed).2.values name
            = setting.values name := by
  intro property_specs
  induction property_specs with
  | nil => intro setting changed; exact ⟨rfl, fun _ _ => rfl⟩
  | cons head rest ih =>
    intro setting changed
    unfold clear_secrets_loop
    split
    · rename_i h_secret
      split
      · refine ⟨?_, ?_⟩
        · rw [(ih _ _).1, g_object_set_property_g_type]
        · intro name h_other
          rw [(ih _ _).2 name (fun pspec h => h_other pspec (List.mem_cons_of_mem _ h))]
          exact g_object_set_property_other klass setting head.name _ name
            (fun h => h_other head (List.mem_cons_self _ _) h_secret h.symm)
      · exact ⟨(ih _ _).1, fun name h_other =>
          (ih _ _).2 name (fun pspec h => h_other pspec (List.mem_cons_of_mem _ h))⟩
    · exact ⟨(ih _ _).1, fun name h_other =>
        (ih _ _).2 name (fun pspec h => h_other pspec (List.mem_cons_of_mem _ h))⟩

/-- The flag the loop returns: the flag it started with, or TRUE when a secret
of the list does not hold its default. -/
theorem clear_secrets_loop_changed (klass : NMSettingClass) :
    ∀ (property_specs : List GParamSpec) (setting : NMSetting) (changed : Bool),
      (clear_secrets_loop klass property_specs setting changed).1
        = (changed || property_specs.any (fun pspec =>
            flag_set pspec.flags NM_SETTING_PARAM_SECRET
              && !g_param_value_defaults pspec (setting.values pspec.name))) := by
  intro property_specs
  induction property_specs with
  | nil => intro setting changed; simp [clear_secrets_loop]
  | cons head rest ih =>
    intro setting changed
    unfold clear_secrets_loop
    split
    · rename_i h_secret
      split
      · rename_i h_value
        rw [ih]
        simp only [g_object_get_property] at h_value
        simp [h_secret, h_value]
      · rename_i h_value
        rw [ih]
        simp only [g_object_get_property] at h_value
        simp [h_secret, h_value]
    · rename_i h_secret
      rw [ih]
      simp [h_secret]

/-- The loop leaves alone a setting whose secrets all hold their defaults. -/
theorem clear_secrets_loop_noop (klass : NMSettingClass) (setting : NMSetting) :
    ∀ (property_specs : List GParamSpec) (changed : Bool),
      (∀ pspec ∈ property_specs, flag_set pspec.flags NM_SETTING_PARAM_SECRET = true →
        setting.values pspec.name = pspec.default_value) →
      clear_secrets_loop klass property_specs setting changed = (changed, setting) := by
  intro property_specs
  induction property_specs with
  | nil => intro changed _; rfl
  | cons head rest ih =>
    intro changed h_default
    have h_rest := ih changed (fun pspec h => h_default pspec (List.mem_cons_of_mem _ h))
    unfold clear_secrets_loop
    split
    · rename_i h_secret
      have h_head := h_default head (List.mem_cons_self _ _) h_secret
      simp only [g_object_get_property, g_param_value_defaults, h_head, decide_True,
        Bool.not_true, Bool.false_eq_true, if_false]
      exact h_rest
    · exact h_rest

/-- After the loop every secret of the list holds its default, provided a
secret that cannot be assigned already does. -/
theorem clear_secrets_loop_cleared (klass : NMSettingClass)
    (h_specs : (klass.property_specs.map (fun pspec => pspec.name)).Nodup)
    (h_defaults : ∀ pspec ∈ klass.property_specs,
      G_VALUE_TYPE pspec.default_value = pspec.value_type) :
    ∀ (property_specs : List GParamSpec) (setting : NMSetting) (changed : Bool),
      (property_specs.map (fun pspec => pspec.name)).Nodup →
      (∀ pspec ∈ property_specs, pspec ∈ klass.property_specs) →
      (∀ pspec ∈ property_specs, flag_set pspec.flags NM_SETTING_PARAM_SECRET = true →
        fixed_after_construction pspec = true →
        setting.values pspec.name = pspec.default_value) →
      ∀ pspec ∈ property_specs, flag_set pspec.flags NM_SETTING_PARAM_SECRET = true →
        (clear_secrets_loop klass property_specs setting changed).2.values pspec.name
          = pspec.default_value := by
  intro property_specs
  induction property_specs with
  | nil => intro _ _ _ _ _ pspec h; simp at h
  | cons head rest ih =>
    intro setting changed h_nodup h_sub h_fixed pspec h_mem h_secret
    simp only [List.map_cons, List.nodup_cons, List.mem_map, not_exists, not_and] at h_nodup
    have h_sub_rest : ∀ pspec ∈ rest, pspec ∈ klass.property_specs :=
      fun pspec h => h_sub pspec (List.mem_cons_of_mem _ h)
    have h_names : ∀ other ∈ rest, other.name ≠ head.name :=
      fun other h h_eq => h_nodup.1 other h h_eq
    unfold clear_secrets_loop
    split
    · rename_i h_head_secret
      split
      · rename_i h_value
        simp only [g_object_get_property, g_param_value_defaults, Bool.not_eq_true',
          decide_eq_false_iff_not] at h_value
        have h_assignable : fixed_after_construction head = false := by
          cases h_f : fixed_after_construction head with
          | false => rfl
          | true => exact absurd (h_fixed head (List.mem_cons_self _ _) h_head_secret h_f) h_value
        have h_stored := g_object_set_property_stores klass h_specs setting head
          head.default_value (h_sub head (List.mem_cons_self _ _)) h_assignable
          (h_defaults head (h_sub head (List.mem_cons_self _ _)))
        rcases List.mem_cons.mp h_mem with h_eq | h_rest
        · subst h_eq
          rw [(clear_secrets_loop_frame klass rest _ _).2 pspec.name
            (fun other h _ => h_names other h)]
          exact h_stored
        · apply ih _ _ h_nodup.2 h_sub_rest _ pspec h_rest h_secret
          intro other h_other h_other_secret h_other_fixed
          rw [g_object_set_property_other klass setting head.name _ other.name
            (h_names other h_other)]
          exact h_fixed other (List.mem_cons_of_mem _ h_other) h_other_secret h_other_fixed
      · rename_i h_value
        simp only [g_object_get_property, g_param_value_defaults, Bool.not_eq_true',
          decide_eq_false_iff_not, not_not] at h_value
        rcases List.mem_cons.mp h_mem with h_eq | h_rest
        · subst h_eq
          rw [(clear_secrets_loop_frame klass rest _ _).2 pspec.name
            (fun other h _ => h_names other h)]
          exact h_value
        · exact ih _ _ h_nodup.2 h_sub_rest
            (fun other h => h_fixed other (List.mem_cons_of_mem _ h)) pspec h_rest h_secret
    · rename_i h_head_secret
      rcases List.mem_cons.mp h_mem with h_eq | h_rest
      · subst h_eq
        exact absurd h_secret h_head_secret
      · exact ih _ _ h_nodup.2 h_sub_rest
          (fun other h => h_fixed other (List.mem_cons_of_mem _ h)) pspec h_rest h_secret

/-- C11 (as amended): in a class with pairwise distinct property names and
defaults of the declared types, and for a setting in which every secret that
cannot be assigned after construction (not writable, or construct-only) holds
its default: `_nm_setting_clear_secrets` returns TRUE if and only if some
secret-flagged property did not hold its default before the call; afterwards
every secret-flagged property holds its default and every other property holds
the value it held; on a setting whose secrets all hold their defaults it
returns FALSE and the setting is left identical. -/
theorem clear_secrets_spec (klass : NMSettingClass) (setting : NMSetting)
    (h_specs : (klass.property_specs.map (fun pspec => pspec.name)).Nodup)
    (h_defaults : ∀ pspec ∈ klass.property_specs,
      G_VALUE_TYPE pspec.default_value = pspec.value_type)
    (h_fixed : ∀ pspec ∈ klass.property_specs,
      flag_set pspec.flags NM_SETTING_PARAM_SECRET = true →
      fixed_after_construction pspec = true →
      setting.values pspec.name = pspec.default_value) :
    ((_nm_setting_clear_secrets klass setting).1 = true
        ↔ ∃ pspec ∈ klass.property_specs,
            flag_set pspec.flags NM_SETTING_PARAM_SECRET = true
              ∧ setting.values pspec.name ≠ pspec.default_value)
      ∧ (∀ pspec ∈ klass.property_specs,
          flag_set pspec.flags NM_SETTING_PARAM_SECRET = true →
          (_nm_setting_clear_secrets klass setting).2.values pspec.name = pspec.default_value)
      ∧ (∀ pspec ∈ klass.property_specs,
          flag_set pspec.flags NM_SETTING_PARAM_SECRET = false →
          (_nm_setting_clear_secrets klass setting).2.values pspec.name
            = setting.values pspec.name)
      ∧ (_nm_setting_clear_secrets klass setting).2.g_type = setting.g_type
      ∧ ((∀ pspec ∈ klass.property_specs,
            flag_set pspec.flags NM_SETTING_PARAM_SECRET = true →
            setting.values pspec.name = pspec.default_value) →
          _nm_setting_clear_secrets klass setting = (false, setting)) := by
  unfold _nm_setting_clear_secrets
  refine ⟨?_, ?_, ?_, ?_, ?_⟩
  · rw [clear_secrets_loop_changed]
    simp only [Bool.false_or, List.any_eq_true, Bool.and_eq_true, Bool.not_eq_true',
      g_param_value_defaults, decide_eq_false_iff_not, ne_eq]
  · exact clear_secrets_loop_cleared klass h_specs h_defaults klass.property_specs setting
      false h_specs (fun _ h => h) h_fixed
  · intro pspec h_mem h_plain
    apply (clear_secrets_loop_frame klass klass.property_specs setting false).2
    intro other h_other h_secret h_name
    have h_found := g_object_class_find_property_of_mem klass h_specs other h_other
    rw [h_name, g_object_class_find_property_of_mem klass h_specs pspec h_mem] at h_found
    simp only [Option.some.injEq] at h_found
    rw [h_found, h_secret] at h_plain
    exact Bool.noConfusion h_plain
  · exact (clear_secrets_loop_frame klass klass.property_specs setting false).1
  · exact clear_secrets_loop_noop klass setting klass.property_specs false

/-- Witness for C11: clearing the secrets of the example setting, which holds
the secret "psk", returns TRUE, resets "psk" and keeps its flags. -/
theorem clear_secrets_spec_witness :
    (example_class.property_specs.map (fun pspec => pspec.name)).Nodup
      ∧ (∀ pspec ∈ example_class.property_specs,
          G_VALUE_TYPE pspec.default_value = pspec.value_type)
      ∧ (_nm_setting_clear_secrets example_class example_setting_agent_owned).1 = true
      ∧ (_nm_setting_clear_secrets example_class example_setting_agent_owned).2.values "psk"
        = GValue.string none
      ∧ (_nm_setting_clear_secrets example_class example_setting_agent_owned).2.values
          "psk-flags" = GValue.uint 1
      ∧ (((_nm_setting_clear_secrets example_class example_setting_agent_owned).1 = true
          ↔ ∃ pspec ∈ example_class.property_specs,
              flag_set pspec.flags NM_SETTING_PARAM_SECRET = true
                ∧ example_setting_agent_owned.values pspec.name ≠ pspec.default_value)
        ∧ (∀ pspec ∈ example_class.property_specs,
            flag_set pspec.flags NM_SETTING_PARAM_SECRET = true →
            (_nm_setting_clear_secrets example_class example_setting_agent_owned).2.values
              pspec.name = pspec.default_value)
        ∧ (∀ pspec ∈ example_class.property_specs,
            flag_set pspec.flags NM_SETTING_PARAM_SECRET = false →
            (_nm_setting_clear_secrets example_class example_setting_agent_owned).2.values
              pspec.name = example_setting_agent_owned.values pspec.name)
        ∧ (_nm_setting_clear_secrets example_class example_setting_agent_owned).2.g_type
          = example_setting_agent_owned.g_type
        ∧ ((∀ pspec ∈ example_class.property_specs,
              flag_set pspec.flags NM_SETTING_PARAM_SECRET = true →
              example_setting_agent_owned.values pspec.name = pspec.default_value) →
            _nm_setting_clear_secrets example_class example_setting_agent_owned
              = (false, example_setting_agent_owned))) :=
  ⟨by decide, by decide, by decide, by decide, by decide,
    clear_secrets_spec example_class example_setting_agent_owned (by decide) (by decide)
      (by decide)⟩

/-! ## The registry -/

theorem g_hash_table_lookup_none_iff {β : Type} (key : String) :
    ∀ (hash : GHashTable β),
      g_hash_table_lookup hash key = none ↔ key ∉ hash.map Prod.fst := by
  intro hash
  induction hash with
  | nil => simp [g_hash_table_lookup]
  | cons head rest ih =>
    obtain ⟨k, v⟩ := head
    unfold g_hash_table_lookup
    by_cases h : k = key
    · simp [h]
    · have h_ne : ¬ key = k := fun h_eq => h h_eq.symm
      simp [h, h_ne, ih]

theorem g_hash_table_lookup_some_mem {β : Type} (key : String) (value : β) :
    ∀ (hash : GHashTable β), g_hash_table_lookup hash key = some value → (key, value) ∈ hash := by
  intro hash
  induction hash with
  | nil => intro h; simp [g_hash_table_lookup] at h
  | cons head rest ih =>
    obtain ⟨k, v⟩ := head
    intro h
    unfold g_hash_table_lookup at h
    split at h
    · rename_i h_key
      simp only [Option.some.injEq] at h
      rw [h_key, h]
      exact List.mem_cons_self _ _
    · exact List.mem_cons_of_mem _ (ih h)

theorem g_hash_table_lookup_of_mem {β : Type} (key : String) (value : β) :
    ∀ (hash : GHashTable β), (hash.map Prod.fst).Nodup → (key, value) ∈ hash →
      g_hash_table_lookup hash key = some value := by
  intro hash
  induction hash with
  | nil => intro _ h; simp at h
  | cons head rest ih =>
    obtain ⟨k, v⟩ := head
    intro h_nodup h_mem
    simp only [List.map_cons, List.nodup_cons, List.mem_map, not_exists, not_and] at h_nodup
    unfold g_hash_table_lookup
    rcases List.mem_cons.mp h_mem with h_eq | h_rest
    · simp only [Prod.mk.injEq] at h_eq
      simp [h_eq.1, h_eq.2]
    · have h_ne : ¬ k = key := fun h => h_nodup.1 (key, value) h_rest h.symm
      simp only [h_ne, if_false]
      exact ih h_nodup.2 h_rest

theorem g_hash_table_insert_new {β : Type} (key : String) (value : β) :
    ∀ (hash : GHashTable β), g_hash_table_lookup hash key = none →
      g_hash_table_insert hash key value = hash ++ [(key, value)] := by
  intro hash
  induction hash with
  | nil => intro _; rfl
  | cons head rest ih =>
    obtain ⟨k, v⟩ := head
    intro h
    unfold g_hash_table_lookup at h
    unfold g_hash_table_insert
    split at h
    · simp at h
    · rename_i h_key
      simp [h_key, ih h]

theorem g_type_hash_table_lookup_none_iff {β : Type} (key : GType) :
    ∀ (hash : GTypeHashTable β),
      g_type_hash_table_lookup hash key = none ↔ key ∉ hash.map Prod.fst := by
  intro hash
  induction hash with
  | nil => simp [g_type_hash_table_lookup]
  | cons head rest ih =>
    obtain ⟨k, v⟩ := head
    unfold g_type_hash_table_lookup
    by_cases h : k = key
    · simp [h]
    · have h_ne : ¬ key = k := fun h_eq => h h_eq.symm
      simp [h, h_ne, ih]

theorem g_type_hash_table_lookup_of_mem {β : Type} (key : GType) (value : β) :
    ∀ (hash : GTypeHashTable β), (hash.map Prod.fst).Nodup → (key, value) ∈ hash →
      g_type_hash_table_lookup hash key = some value := by
  intro hash
  induction hash with
  | nil => intro _ h; simp at h
  | cons head rest ih =>
    obtain ⟨k, v⟩ := head
    intro h_nodup h_mem
    simp only [List.map_cons, List.nodup_cons, List.mem_map, not_exists, not_and] at h_nodup
    unfold g_type_hash_table_lookup
    rcases List.mem_cons.mp h_mem with h_eq | h_rest
    · simp only [Prod.mk.injEq] at h_eq
      simp [h_eq.1, h_eq.2]
    · have h_ne : ¬ k = key := fun h => h_nodup.1 (key, value) h_rest h.symm
      simp only [h_ne, if_false]
      exact ih h_nodup.2 h_rest

theorem g_type_hash_table_insert_new {β : Type} (key : GType) (value : β) :
    ∀ (hash : GTypeHashTable β), g_type_hash_table_lookup hash key = none →
      g_type_hash_table_insert hash key value = hash ++ [(key, value)] := by
  intro hash
  induction hash with
  | nil => intro _; rfl
  | cons head rest ih =>
    obtain ⟨k, v⟩ := head
    intro h
    unfold g_type_hash_table_lookup at h
    unfold g_type_hash_table_insert
    split at h
    · simp at h
    · rename_i h_key
      simp [h_key, ih h]

/-- In a well-formed registry the keys of the table by name are the names of
its records. -/
theorem registry_keys_eq_names (registry : Registry) (h : registry_well_formed registry) :
    registry.registered_settings.map Prod.fst
      = registry.registered_settings.map (fun entry => entry.2.name) := by
  apply List.map_congr_left
  intro entry h_mem
  exact (h.1 entry h_mem).1

/-- Every branch of `_nm_register_setting` but the last leaves the tables as
they were; the last appends the new record to both. -/
theorem register_setting_cases (registry : Registry) (name : String) (type : GType)
    (priority : Nat) (error_quark : GQuark) :
    (_nm_register_setting registry name type priority error_quark).2 = registry
      ∨ (name ≠ "" ∧ type ≠ G_TYPE_INVALID ∧ type ≠ G_TYPE_NONE ∧ error_quark ≠ 0
        ∧ priority ≤ 4
        ∧ g_hash_table_lookup registry.registered_settings name = none
        ∧ g_type_hash_table_lookup registry.registered_settings_by_type type = none
        ∧ (priority = 0 → name = NM_SETTING_CONNECTION_SETTING_NAME)
        ∧ _nm_register_setting registry name type priority error_quark
          = (.returned,
              { registered_settings := registry.registered_settings
                  ++ [(name, { name := name, type := type, priority := priority,
                               error_quark := error_quark })]
                registered_settings_by_type := registry.registered_settings_by_type
                  ++ [(type, { name := name, type := type, priority := priority,
                               error_quark := error_quark })] })) := by
  unfold _nm_register_setting
  split
  · exact Or.inl rfl
  · rename_i h_name
    split
    · exact Or.inl rfl
    · rename_i h_invalid
      split
      · exact Or.inl rfl
      · rename_i h_none
        split
        · exact Or.inl rfl
        · rename_i h_quark
          split
          · exact Or.inl rfl
          · rename_i h_priority
            split
            · split
              · exact Or.inl rfl
              · split
                · exact Or.inl rfl
                · split
                  · exact Or.inl rfl
                  · split <;> exact Or.inl rfl
            · rename_i h_lookup
              split
              · exact Or.inl rfl
              · rename_i h_type
                split
                · exact Or.inl rfl
                · rename_i h_assert
                  right
                  have h_type' : g_type_hash_table_lookup registry.registered_settings_by_type
                      type = none := by
                    simpa using h_type
                  refine ⟨by simpa using h_name, by simpa using h_invalid,
                    by simpa using h_none, by simpa using h_quark, by simpa using h_priority,
                    h_lookup, h_type', ?_, ?_⟩
                  · intro h_zero
                    by_contra h_ne
                    exact h_assert ⟨h_zero, h_ne⟩
                  · simp only [g_hash_table_insert_new name _ _ h_lookup,
                      g_type_hash_table_insert_new type _ _ h_type']

/-- A call of `_nm_register_setting` keeps the registry well-formed. -/
theorem register_setting_well_formed (registry : Registry) (name : String) (type : GType)
    (priority : Nat) (error_quark : GQuark) (h : registry_well_formed registry) :
    registry_well_formed (_nm_register_setting registry name type priority error_quark).2 := by
  rcases register_setting_cases registry name type priority error_quark with h_same
    | ⟨h_name, h_invalid, h_none, h_quark, h_priority, h_lookup, h_type, h_zero, h_new⟩
  · rw [h_same]; exact h
  · rw [h_new]
    have h_keys := registry_keys_eq_names registry h
    obtain ⟨h_entries, h_names, h_types, h_tables⟩ := h
    refine ⟨?_, ?_, ?_, ?_⟩
    · intro entry h_mem
      simp only [List.mem_append, List.mem_singleton] at h_mem
      rcases h_mem with h_old | h_eq
      · exact h_entries entry h_old
      · subst h_eq
        exact ⟨rfl, h_name, h_invalid, h_none, h_quark, h_priority, h_zero⟩
    · simp only [List.map_append, List.map_cons, List.map_nil]
      rw [List.nodup_append]
      refine ⟨h_names, List.nodup_singleton _, ?_⟩
      intro other h_other h_single
      simp only [List.mem_singleton] at h_single
      subst h_single
      rw [g_hash_table_lookup_none_iff, h_keys] at h_lookup
      exact h_lookup h_other
    · simp only [List.map_append, List.map_cons, List.map_nil]
      rw [List.nodup_append]
      refine ⟨h_types, List.nodup_singleton _, ?_⟩
      intro other h_other h_single
      simp only [List.mem_singleton] at h_single
      subst h_single
      rw [g_type_hash_table_lookup_none_iff, h_tables] at h_type
      apply h_type
      simpa [List.map_map] using h_other
    · simp only [List.map_append, List.map_cons, List.map_nil, h_tables]

/-- Every registry that calls of `_nm_register_setting` build from the empty
tables is well-formed. -/
theorem register_all_well_formed (calls : List (String × GType × Nat × GQuark)) :
    registry_well_formed (register_all calls) := by
  unfold register_all
  have h_empty : registry_well_formed _ensure_registered := by
    refine ⟨?_, ?_, ?_, rfl⟩ <;> simp [_ensure_registered]
  generalize _ensure_registered = registry at h_empty
  induction calls generalizing registry with
  | nil => exact h_empty
  | cons call rest ih =>
    simp only [List.foldl_cons]
    exact ih _ (register_setting_well_formed registry _ _ _ _ h_empty)

/-- A call that returns normally found the very tuple under the name, or
registered a new name and a new type. -/
theorem register_setting_returned (registry : Registry) (name : String) (type : GType)
    (priority : Nat) (error_quark : GQuark)
    (h : (_nm_register_setting registry name type priority error_quark).1 = .returned) :
    (∃ info, g_hash_table_lookup registry.registered_settings name = some info
        ∧ info.priority = priority ∧ info.name = name)
      ∨ (g_hash_table_lookup registry.registered_settings name = none
        ∧ (priority = 0 → name = NM_SETTING_CONNECTION_SETTING_NAME)) := by
  unfold _nm_register_setting at h
  split at h
  · simp at h
  · split at h
    · simp at h
    · split at h
      · simp at h
      · split at h
        · simp at h
        · split at h
          · simp at h
          · split at h
            · rename_i info h_lookup
              split at h
              · simp at h
              · split at h
                · simp at h
                · split at h
                  · simp at h
                  · rename_i h_priority
                    split at h
                    · simp at h
                    · rename_i h_name
                      exact Or.inl ⟨info, h_lookup, by simpa using h_priority, by simpa using h_name⟩
            · rename_i h_lookup
              split at h
              · simp at h
              · split at h
                · simp at h
                · rename_i h_assert
                  refine Or.inr ⟨h_lookup, fun h_zero => ?_⟩
                  by_contra h_ne
                  exact h_assert ⟨h_zero, h_ne⟩

/-- C12: re-registering an identical tuple is a no-op. In every registry built
by calls of `_nm_register_setting`, a call with a tuple that is already
registered returns normally and leaves both tables exactly as they were. -/
theorem register_identical_noop (calls : List (String × GType × Nat × GQuark))
    (name : String) (type : GType) (priority : Nat) (error_quark : GQuark)
    (h_registered : g_hash_table_lookup (register_all calls).registered_settings name
      = some { name := name, type := type, priority := priority,
               error_quark := error_quark }) :
    _nm_register_setting (register_all calls) name type priority error_quark
      = (.returned, register_all calls) := by
  have h_wf := register_all_well_formed calls
  have h_entry := (h_wf.1 _ (g_hash_table_lookup_some_mem _ _ _ h_registered)).2
  simp only at h_entry
  obtain ⟨h_name, h_invalid, h_none, h_quark, h_priority, _⟩ := h_entry
  unfold _nm_register_setting
  simp [h_name, h_invalid, h_none, h_quark, h_priority, h_registered]

/-- Witness for C12: registering "wired" again in `example_registry`. -/
theorem register_identical_noop_witness :
    g_hash_table_lookup example_registry.registered_settings "wired"
        = some { name := "wired", type := 2001, priority := 1, error_quark := 12 }
      ∧ _nm_register_setting example_registry "wired" 2001 1 12
        = (.returned, example_registry) :=
  ⟨by decide,
    register_identical_noop
      [("connection", 2000, 0, 11), ("wired", 2001, 1, 12), ("ppp", 2003, 3, 13)]
      "wired" 2001 1 12 (by decide)⟩

/-- C13: a conflicting registration fails. In every registry, a call whose name
is registered with another type, priority or error quark, and a call whose name
is new but whose type is already registered, returns from a failed check and
leaves both tables as they were. -/
theorem register_conflict_rejected (registry : Registry) (name : String) (type : GType)
    (priority : Nat) (error_quark : GQuark)
    (h_conflict : (∃ info, g_hash_table_lookup registry.registered_settings name = some info
        ∧ (info.type ≠ type ∨ info.priority ≠ priority ∨ info.error_quark ≠ error_quark))
      ∨ (g_hash_table_lookup registry.registered_settings name = none
        ∧ (_nm_setting_lookup_setting_by_type registry type).isSome = true)) :
    _nm_register_setting registry name type priority error_quark
      = (.return_if_fail, registry) := by
  unfold _nm_register_setting
  rcases h_conflict with ⟨info, h_lookup, h_differ⟩ | ⟨h_lookup, h_type⟩
  · simp only [h_lookup]
    by_cases h_t : info.type = type
    · by_cases h_q : info.error_quark = error_quark
      · by_cases h_p : info.priority = priority
        · rcases h_differ with h | h | h
          · exact absurd h_t h
          · exact absurd h_p h
          · exact absurd h_q h
        · simp [h_t, h_q, h_p]
      · simp [h_t, h_q]
    · simp [h_t]
  · unfold _nm_setting_lookup_setting_by_type at h_type
    simp [h_lookup, h_type]

/-- Witness for C13: in `example_registry`, "wired" with another priority, and
a new name for the type of "wired". -/
theorem register_conflict_rejected_witness :
    _nm_register_setting example_registry "wired" 2001 2 12
        = (.return_if_fail, example_registry)
      ∧ _nm_register_setting example_registry "ethernet" 2001 1 14
        = (.return_if_fail, example_registry) :=
  ⟨register_conflict_rejected example_registry "wired" 2001 2 12
      (Or.inl ⟨{ name := "wired", type := 2001, priority := 1, error_quark := 12 },
        by decide, by decide⟩),
    register_conflict_rejected example_registry "ethernet" 2001 1 14
      (Or.inr ⟨by decide, by decide⟩)⟩

/-- C14 (as amended): the priority invariant. In every registry built by calls
of `_nm_register_setting`, every record of either table has a priority from 0
to 4, a record with priority 0 is the record of the connection setting, there
is at most one such record, and a call with priority 0 and another name than
that of the connection setting does not return normally and adds no record. -/
theorem registry_priority_invariant (calls : List (String × GType × Nat × GQuark)) :
    (∀ entry ∈ (register_all calls).registered_settings,
        entry.2.priority ≤ 4
          ∧ (entry.2.priority = 0 → entry.2.name = NM_SETTING_CONNECTION_SETTING_NAME))
      ∧ (∀ entry ∈ (register_all calls).registered_settings_by_type,
        entry.2.priority ≤ 4
          ∧ (entry.2.priority = 0 → entry.2.name = NM_SETTING_CONNECTION_SETTING_NAME))
      ∧ (∀ first ∈ (register_all calls).registered_settings,
        ∀ second ∈ (register_all calls).registered_settings,
          first.2.priority = 0 → second.2.priority = 0 → first = second)
      ∧ (∀ (name : String) (type : GType) (error_quark : GQuark),
        name ≠ NM_SETTING_CONNECTION_SETTING_NAME →
        (_nm_register_setting (register_all calls) name type 0 error_quark).1 ≠ .returned
          ∧ (_nm_register_setting (register_all calls) name type 0 error_quark).2
            = register_all calls) := by
  have h_wf := register_all_well_formed calls
  refine ⟨?_, ?_, ?_, ?_⟩
  · intro entry h_mem
    exact ⟨(h_wf.1 entry h_mem).2.2.2.2.2.1, (h_wf.1 entry h_mem).2.2.2.2.2.2⟩
  · intro entry h_mem
    rw [h_wf.2.2.2] at h_mem
    obtain ⟨source, h_source, h_eq⟩ := List.mem_map.mp h_mem
    rw [← h_eq]
    exact ⟨(h_wf.1 source h_source).2.2.2.2.2.1, (h_wf.1 source h_source).2.2.2.2.2.2⟩
  · intro first h_first second h_second h_zero_first h_zero_second
    apply List.inj_on_of_nodup_map h_wf.2.1 h_first h_second
    rw [(h_wf.1 first h_first).2.2.2.2.2.2 h_zero_first,
      (h_wf.1 second h_second).2.2.2.2.2.2 h_zero_second]
  · intro name type error_quark h_name
    constructor
    · intro h_returned
      rcases register_setting_returned _ _ _ _ _ h_returned with
        ⟨info, h_lookup, h_priority, h_info_name⟩ | ⟨_, h_zero⟩
      · have h_entry := h_wf.1 _ (g_hash_table_lookup_some_mem _ _ _ h_lookup)
        exact h_name (h_info_name ▸ h_entry.2.2.2.2.2.2 h_priority)
      · exact h_name (h_zero rfl)
    · rcases register_setting_cases (register_all calls) name type 0 error_quark with h_same
        | ⟨_, _, _, _, _, _, _, h_zero, _⟩
      · exact h_same
      · exact absurd (h_zero rfl) h_name

/-- Witness for C14: in `example_registry` the record of "connection" is the one
with priority 0, and registering "loopback" at priority 0 stops at the
assertion without adding a record. -/
theorem registry_priority_invariant_witness :
    _nm_register_setting example_registry "loopback" 2005 0 15
        = (.assertion_failed, example_registry)
      ∧ (_nm_register_setting example_registry "loopback" 2005 0 15).1 ≠ .returned
      ∧ (_nm_register_setting example_registry "loopback" 2005 0 15).2 = example_registry
      ∧ ∀ entry ∈ example_registry.registered_settings,
          entry.2.priority ≤ 4
            ∧ (entry.2.priority = 0 → entry.2.name = NM_SETTING_CONNECTION_SETTING_NAME) :=
  ⟨by decide,
    ((registry_priority_invariant
      [("connection", 2000, 0, 11), ("wired", 2001, 1, 12), ("ppp", 2003, 3, 13)]).2.2.2
      "loopback" 2005 15 (by decide)).1,
    ((registry_priority_invariant
      [("connection", 2000, 0, 11), ("wired", 2001, 1, 12), ("ppp", 2003, 3, 13)]).2.2.2
      "loopback" 2005 15 (by decide)).2,
    (registry_priority_invariant
      [("connection", 2000, 0, 11), ("wired", 2001, 1, 12), ("ppp", 2003, 3, 13)]).1⟩

/-- C15, as amended: in every registry built by calls of
`_nm_register_setting`, name and type determine one another. No two distinct
records share a name or share a type, each record is found under its name and
under its type, and what is found under a type is the record of that type. -/
theorem registry_name_type_bijection (calls : List (String × GType × Nat × GQuark)) :
    (∀ first ∈ (register_all calls).registered_settings,
        ∀ second ∈ (register_all calls).registered_settings,
          first.2.name = second.2.name ∨ first.2.type = second.2.type → first = second)
      ∧ (∀ entry ∈ (register_all calls).registered_settings,
        g_hash_table_lookup (register_all calls).registered_settings entry.2.name
            = some entry.2
          ∧ _nm_setting_lookup_setting_by_type (register_all calls) entry.2.type
            = some entry.2
          ∧ nm_setting_lookup_type (register_all calls) entry.2.name = entry.2.type)
      ∧ (∀ (type : GType) (info : SettingInfo),
        _nm_setting_lookup_setting_by_type (register_all calls) type = some info →
        info.type = type
          ∧ g_hash_table_lookup (register_all calls).registered_settings info.name
            = some info) := by
  have h_wf := register_all_well_formed calls
  have h_keys := registry_keys_eq_names _ h_wf
  obtain ⟨h_entries, h_names, h_types, h_tables⟩ := h_wf
  have h_by_name : ∀ entry ∈ (register_all calls).registered_settings,
      g_hash_table_lookup (register_all calls).registered_settings entry.2.name
        = some entry.2 := by
    intro entry h_mem
    apply g_hash_table_lookup_of_mem _ _ _ (by rw [h_keys]; exact h_names)
    have h_key := (h_entries entry h_mem).1
    rw [← h_key]
    exact h_mem
  have h_type_keys : ((register_all calls).registered_settings_by_type.map Prod.fst).Nodup := by
    rw [h_tables, List.map_map]
    exact h_types
  refine ⟨?_, ?_, ?_⟩
  · intro first h_first second h_second h_shared
    rcases h_shared with h_name | h_type
    · exact List.inj_on_of_nodup_map h_names h_first h_second h_name
    · exact List.inj_on_of_nodup_map h_types h_first h_second h_type
  · intro entry h_mem
    refine ⟨h_by_name entry h_mem, ?_, ?_⟩
    · unfold _nm_setting_lookup_setting_by_type
      apply g_type_hash_table_lookup_of_mem _ _ _ h_type_keys
      rw [h_tables]
      exact List.mem_map.mpr ⟨entry, h_mem, rfl⟩
    · unfold nm_setting_lookup_type
      rw [h_by_name entry h_mem]
  · intro type info h_lookup
    unfold _nm_setting_lookup_setting_by_type at h_lookup
    have h_mem : (type, info) ∈ (register_all calls).registered_settings_by_type := by
      generalize (register_all calls).registered_settings_by_type = table at h_lookup
      induction table with
      | nil => simp [g_type_hash_table_lookup] at h_lookup
      | cons head rest ih =>
        obtain ⟨k, v⟩ := head
        unfold g_type_hash_table_lookup at h_lookup
        split at h_lookup
        · rename_i h_key
          simp only [Option.some.injEq] at h_lookup
          rw [h_key, h_lookup]
          exact List.mem_cons_self _ _
        · exact List.mem_cons_of_mem _ (ih h_lookup)
    rw [h_tables] at h_mem
    obtain ⟨entry, h_entry, h_eq⟩ := List.mem_map.mp h_mem
    simp only [Prod.mk.injEq] at h_eq
    rw [← h_eq.2]
    exact ⟨h_eq.1, h_by_name entry h_entry⟩

/-- Witness for C15 as amended: the records of `example_registry` under the
name "ppp" and under the type of "ppp". -/
theorem registry_name_type_bijection_witness :
    g_hash_table_lookup example_registry.registered_settings "ppp"
        = some { name := "ppp", type := 2003, priority := 3, error_quark := 13 }
      ∧ _nm_setting_lookup_setting_by_type example_registry 2003
        = some { name := "ppp", type := 2003, priority := 3, error_quark := 13 }
      ∧ nm_setting_lookup_type example_registry "ppp" = 2003 :=
  (registry_name_type_bijection
    [("connection", 2000, 0, 11), ("wired", 2001, 1, 12), ("ppp", 2003, 3, 13)]).2.1
    ("ppp", { name := "ppp", type := 2003, priority := 3, error_quark := 13 }) (by decide)

/-- C15 fails as stated: both calls of `example_shared_quark_calls` return
normally, and the registry they build holds two distinct records with the same
error quark, of which `nm_setting_lookup_type_by_quark` reports the first. -/
theorem registry_error_quark_shared :
    (_nm_register_setting _ensure_registered "wired" 2001 1 12).1 = .returned
      ∧ (_nm_register_setting (_nm_register_setting _ensure_registered "wired" 2001 1 12).2
          "ppp" 2003 3 12).1 = .returned
      ∧ (register_all example_shared_quark_calls).registered_settings
        = [("wired", { name := "wired", type := 2001, priority := 1, error_quark := 12 }),
            ("ppp", { name := "ppp", type := 2003, priority := 3, error_quark := 12 })]
      ∧ (∃ first ∈ (register_all example_shared_quark_calls).registered_settings,
          ∃ second ∈ (register_all example_shared_quark_calls).registered_settings,
            first ≠ second ∧ first.2.error_quark = second.2.error_quark)
      ∧ nm_setting_lookup_type_by_quark (register_all example_shared_quark_calls) 12
        = 2001 := by
  decide

/-! ## The schema cache and the registration of overrides -/

theorem g_type_hash_table_lookup_insert {β : Type} (key : GType) (value : β) (other : GType) :
    ∀ (hash : GTypeHashTable β),
      g_type_hash_table_lookup (g_type_hash_table_insert hash key value) other
        = if key = other then some value else g_type_hash_table_lookup hash other := by
  intro hash
  induction hash with
  | nil =>
    by_cases h : key = other <;> simp [g_type_hash_table_insert, g_type_hash_table_lookup, h]
  | cons head rest ih =>
    obtain ⟨k, v⟩ := head
    unfold g_type_hash_table_insert
    by_cases h_key : k = key
    · by_cases h : key = other
      · simp [h_key, h, g_type_hash_table_lookup]
      · simp [h_key, h, g_type_hash_table_lookup]
    · by_cases h_other : k = other
      · have h_ne : ¬ key = other := fun h => h_key (h_other.trans h.symm)
        simp only [h_key, if_false]
        unfold g_type_hash_table_lookup
        simp [h_other, h_ne]
      · simp only [h_key, if_false]
        unfold g_type_hash_table_lookup
        simp only [h_other, if_false]
        exact ih

theorem mem_g_type_hash_table_insert {β : Type} (key : GType) (value : β) (entry : GType × β) :
    ∀ (hash : GTypeHashTable β), entry ∈ g_type_hash_table_insert hash key value →
      entry = (key, value) ∨ entry ∈ hash := by
  intro hash
  induction hash with
  | nil => intro h; simpa [g_type_hash_table_insert] using h
  | cons head rest ih =>
    obtain ⟨k, v⟩ := head
    intro h
    unfold g_type_hash_table_insert at h
    by_cases h_key : k = key
    · simp only [h_key, if_true, List.mem_cons] at h
      rcases h with h | h
      · exact Or.inl h
      · exact Or.inr (List.mem_cons_of_mem _ h)
    · simp only [h_key, if_false, List.mem_cons] at h
      rcases h with h | h
      · exact Or.inr (h ▸ List.mem_cons_self _ _)
      · rcases ih h with h | h
        · exact Or.inl h
        · exact Or.inr (List.mem_cons_of_mem _ h)

theorem g_type_hash_table_mem_of_lookup {β : Type} (key : GType) (value : β) :
    ∀ (hash : GTypeHashTable β), g_type_hash_table_lookup hash key = some value →
      (key, value) ∈ hash := by
  intro hash
  induction hash with
  | nil => intro h; simp [g_type_hash_table_lookup] at h
  | cons head rest ih =>
    obtain ⟨k, v⟩ := head
    intro h
    unfold g_type_hash_table_lookup at h
    by_cases h_key : k = key
    · simp only [h_key, if_true, Option.some.injEq] at h
      simp [h_key, h]
    · simp only [h_key, if_false] at h
      exact List.mem_cons_of_mem _ (ih h)

/-- A registration changes no attached schema. -/
theorem add_property_override_setting_properties (qdata : GTypeQData)
    (setting_class : GTypeClass) (property_name : String) (param_spec : Option GParamSpec)
    (dbus_type : GType) (get_func : Option NMSettingPropertyGetFunc)
    (set_func : Option NMSettingPropertySetFunc)
    (not_set_func : Option NMSettingPropertyNotSetFunc)
    (to_dbus from_dbus : Option NMSettingPropertyTransformFunc) :
    (add_property_override qdata setting_class property_name param_spec dbus_type get_func
      set_func not_set_func to_dbus from_dbus).2.setting_properties
      = qdata.setting_properties := by
  unfold add_property_override
  simp only
  split
  · rfl
  · split
    · rfl
    · split <;> rfl

/-- A schema that is attached to a type stays attached, the same, through
every later call. -/
theorem schema_call_keeps_schema (qdata : GTypeQData) (call : SchemaCall) (type : GType)
    (properties : List NMSettingProperty)
    (h : g_type_hash_table_lookup qdata.setting_properties type = some properties) :
    g_type_hash_table_lookup (schema_call qdata call).setting_properties type
      = some properties := by
  cases call with
  | add_dbus_only_property setting_class property_name dbus_type get_func set_func =>
    simp only [schema_call, _nm_setting_class_add_dbus_only_property]
    split
    · exact h
    · rw [add_property_override_setting_properties]; exact h
  | override_property setting_class property_name dbus_type get_func set_func not_set_func =>
    simp only [schema_call, _nm_setting_class_override_property]
    split
    · exact h
    · rw [add_property_override_setting_properties]; exact h
  | transform_property setting_class property dbus_type to_dbus from_dbus =>
    simp only [schema_call, _nm_setting_class_transform_property]
    split
    · exact h
    · rw [add_property_override_setting_properties]; exact h
  | ensure_properties setting_class =>
    simp only [schema_call, nm_setting_class_ensure_properties_cached]
    split
    · exact h
    · rename_i h_none
      simp only
      rw [g_type_hash_table_lookup_insert]
      by_cases h_type : setting_class.g_type = type
      · rw [h_type, h] at h_none
        simp at h_none
      · simp only [h_type, if_false]
        exact h

theorem schema_calls_keep_schema (calls : List SchemaCall) :
    ∀ (qdata : GTypeQData) (type : GType) (properties : List NMSettingProperty),
      g_type_hash_table_lookup qdata.setting_properties type = some properties →
      g_type_hash_table_lookup (schema_calls qdata calls).setting_properties type
        = some properties := by
  induction calls with
  | nil => intro qdata type properties h; exact h
  | cons call rest ih =>
    intro qdata type properties h
    exact ih (schema_call qdata call) type properties
      (schema_call_keeps_schema qdata call type properties h)

/-- A request for the schema of a class leaves the schema it returns attached
to the type of the class. -/
theorem ensure_properties_cached_attaches (qdata : GTypeQData) (setting_class : GTypeClass) :
    g_type_hash_table_lookup
        (nm_setting_class_ensure_properties_cached qdata setting_class).2.setting_properties
        setting_class.g_type
      = some (nm_setting_class_ensure_properties_cached qdata setting_class).1 := by
  unfold nm_setting_class_ensure_properties_cached
  simp only
  split
  · rename_i properties h_some
    exact h_some
  · simp [g_type_hash_table_lookup_insert]

/-- C23: schema caching. Once `nm_setting_class_ensure_properties` has been
called for a class, then after any further sequence of registrations and schema
requests (for this or any other class) a call for the class returns the very
descriptor list of the first call and leaves the type data as they are, and
`add_property_override` on the class is refused and leaves the type data, the
override array of the type among them, as they are. -/
theorem ensure_properties_cached_stable (qdata : GTypeQData) (setting_class : GTypeClass)
    (calls : List SchemaCall) :
    (nm_setting_class_ensure_properties_cached
        (schema_calls (nm_setting_class_ensure_properties_cached qdata setting_class).2 calls)
        setting_class
      = ((nm_setting_class_ensure_properties_cached qdata setting_class).1,
          schema_calls (nm_setting_class_ensure_properties_cached qdata setting_class).2 calls))
    ∧ (∀ (property_name : String) (param_spec : Option GParamSpec) (dbus_type : GType)
        (get_func : Option NMSettingPropertyGetFunc)
        (set_func : Option NMSettingPropertySetFunc)
        (not_set_func : Option NMSettingPropertyNotSetFunc)
        (to_dbus from_dbus : Option NMSettingPropertyTransformFunc),
        add_property_override
            (schema_calls (nm_setting_class_ensure_properties_cached qdata setting_class).2
              calls)
            setting_class property_name param_spec dbus_type get_func set_func not_set_func
            to_dbus from_dbus
          = (RegisterOutcome.return_if_fail,
              schema_calls (nm_setting_class_ensure_properties_cached qdata setting_class).2
                calls)) := by
  have h_kept := schema_calls_keep_schema calls
    (nm_setting_class_ensure_properties_cached qdata setting_class).2 setting_class.g_type
    (nm_setting_class_ensure_properties_cached qdata setting_class).1
    (ensure_properties_cached_attaches qdata setting_class)
  constructor
  · generalize schema_calls
      (nm_setting_class_ensure_properties_cached qdata setting_class).2 calls = later at h_kept
    generalize (nm_setting_class_ensure_properties_cached qdata setting_class).1
      = properties at h_kept
    unfold nm_setting_class_ensure_properties_cached
    simp only [h_kept]
  · intro property_name param_spec dbus_type get_func set_func not_set_func to_dbus from_dbus
    generalize schema_calls
      (nm_setting_class_ensure_properties_cached qdata setting_class).2 calls = later at h_kept
    unfold add_property_override
    simp only [h_kept, Option.isSome_some, if_true]

/-- C21: one descriptor per name in a built schema. The registration functions
accept a wire-only property of the same name on a class and on a class derived
from it (the duplicate check of `add_property_override` looks at the array of
the one type only), and the third loop of `nm_setting_class_ensure_properties`
appends both: the schema of the derived class, whose `GParamSpec` names are
pairwise distinct, holds two descriptors named "legacy". -/
theorem schema_duplicate_dbus_only_name :
    (example_derived_class.property_specs.map (fun pspec => pspec.name)).Nodup
    ∧ (_nm_setting_class_add_dbus_only_property g_type_qdata_none example_base_class
        "legacy" G_TYPE_STRING none none).1 = RegisterOutcome.returned
    ∧ (_nm_setting_class_add_dbus_only_property
        (_nm_setting_class_add_dbus_only_property g_type_qdata_none example_base_class
          "legacy" G_TYPE_STRING none none).2
        example_derived_class "legacy" G_TYPE_STRING none none).1 = RegisterOutcome.returned
    ∧ (nm_setting_class_ensure_properties_cached
        (_nm_setting_class_add_dbus_only_property
          (_nm_setting_class_add_dbus_only_property g_type_qdata_none example_base_class
            "legacy" G_TYPE_STRING none none).2
          example_derived_class "legacy" G_TYPE_STRING none none).2
        example_derived_class).1.map (fun property => property.name)
      = ["name", "mtu", "legacy", "legacy"] := by
  refine ⟨by decide, by decide, by decide, by decide⟩

theorem mem_foldr_getD (property : NMSettingProperty) :
    ∀ (type_overrides : List (Option (List NMSettingProperty))),
      property ∈ type_overrides.foldr (fun array tail => array.getD [] ++ tail) [] →
      ∃ array, some array ∈ type_overrides ∧ property ∈ array := by
  intro type_overrides
  induction type_overrides with
  | nil => intro h; simp at h
  | cons head rest ih =>
    intro h
    simp only [List.foldr_cons, List.mem_append] at h
    rcases h with h | h
    · cases head with
      | none => simp at h
      | some array => exact ⟨array, List.mem_cons_self _ _, by simpa using h⟩
    · obtain ⟨array, h_mem, h_in⟩ := ih h
      exact ⟨array, List.mem_cons_of_mem _ h_mem, h_in⟩

/-- Every descriptor of a built schema is one of the overrides of the type or
of an ancestor, or the default descriptor of a `GParamSpec`. -/
theorem ensure_properties_build_mem (klass : NMSettingClass) (property : NMSettingProperty)
    (h : property ∈ ensure_properties_build klass) :
    (∃ array, some array ∈ klass.type_overrides ∧ property ∈ array)
      ∨ (∃ pspec, property = default_descriptor pspec) := by
  unfold ensure_properties_build at h
  simp only [ensure_properties_remaining_eq, ensure_properties_specs_eq,
    ensure_properties_overrides_eq, List.nil_append, List.mem_append, List.mem_map,
    List.mem_filter] at h
  rcases h with ⟨pspec, _, h_eq⟩ | ⟨h_mem, _⟩
  · cases h_find : (List.foldr (fun array tail => array.getD [] ++ tail) []
      klass.type_overrides).find? (fun descriptor => descriptor.name = pspec.name) with
    | none =>
      rw [h_find] at h_eq
      exact Or.inr ⟨pspec, h_eq.symm⟩
    | some override =>
      rw [h_find] at h_eq
      simp only [Option.getD_some] at h_eq
      subst h_eq
      exact Or.inl (mem_foldr_getD _ _ (List.mem_of_find?_eq_some h_find))
  · exact Or.inl (mem_foldr_getD _ _ h_mem)

theorem add_property_override_paired (qdata : GTypeQData) (h : qdata_transforms_paired qdata)
    (setting_class : GTypeClass) (property_name : String) (param_spec : Option GParamSpec)
    (dbus_type : GType) (get_func : Option NMSettingPropertyGetFunc)
    (set_func : Option NMSettingPropertySetFunc)
    (not_set_func : Option NMSettingPropertyNotSetFunc)
    (to_dbus from_dbus : Option NMSettingPropertyTransformFunc)
    (h_pair : to_dbus.isSome = from_dbus.isSome) :
    qdata_transforms_paired
      (add_property_override qdata setting_class property_name param_spec dbus_type get_func
        set_func not_set_func to_dbus from_dbus).2 := by
  unfold add_property_override
  simp only
  split
  · exact h
  · split
    · refine ⟨?_, h.2⟩
      intro entry h_entry property h_property
      rcases mem_g_type_hash_table_insert _ _ _ _ h_entry with h_new | h_old
      · subst h_new
        simp only [List.mem_singleton] at h_property
        subst h_property
        exact h_pair
      · exact h.1 entry h_old property h_property
    · rename_i overrides h_lookup
      split
      · exact h
      · refine ⟨?_, h.2⟩
        intro entry h_entry property h_property
        rcases mem_g_type_hash_table_insert _ _ _ _ h_entry with h_new | h_old
        · subst h_new
          simp only [List.mem_append, List.mem_singleton] at h_property
          rcases h_property with h_in | h_eq
          · exact h.1 _ (g_type_hash_table_mem_of_lookup _ _ _ h_lookup) property h_in
          · subst h_eq
            exact h_pair
        · exact h.1 entry h_old property h_property

theorem ensure_properties_cached_paired (qdata : GTypeQData)
    (h : qdata_transforms_paired qdata) (setting_class : GTypeClass) :
    (∀ property ∈ (nm_setting_class_ensure_properties_cached qdata setting_class).1,
        property.to_dbus.isSome = property.from_dbus.isSome)
      ∧ qdata_transforms_paired
        (nm_setting_class_ensure_properties_cached qdata setting_class).2 := by
  have h_build : ∀ property ∈
      ensure_properties_build (setting_class_with_qdata qdata setting_class),
      property.to_dbus.isSome = property.from_dbus.isSome := by
    intro property h_mem
    rcases ensure_properties_build_mem _ _ h_mem with ⟨array, h_array, h_in⟩ | ⟨pspec, h_eq⟩
    · simp only [setting_class_with_qdata, List.mem_map] at h_array
      obtain ⟨otype, _, h_lookup⟩ := h_array
      exact h.1 _ (g_type_hash_table_mem_of_lookup _ _ _ h_lookup) property h_in
    · subst h_eq
      rfl
  unfold nm_setting_class_ensure_properties_cached
  simp only
  split
  · rename_i properties h_lookup
    exact ⟨h.2 _ (g_type_hash_table_mem_of_lookup _ _ _ h_lookup), h⟩
  · refine ⟨h_build, h.1, ?_⟩
    intro entry h_entry property h_property
    rcases mem_g_type_hash_table_insert _ _ _ _ h_entry with h_new | h_old
    · subst h_new
      exact h_build property h_property
    · exact h.2 entry h_old property h_property

theorem schema_call_paired (qdata : GTypeQData) (h : qdata_transforms_paired qdata)
    (call : SchemaCall) (h_call : call_transforms_paired call = true) :
    qdata_transforms_paired (schema_call qdata call) := by
  cases call with
  | add_dbus_only_property setting_class property_name dbus_type get_func set_func =>
    simp only [schema_call, _nm_setting_class_add_dbus_only_property]
    split
    · exact h
    · exact add_property_override_paired qdata h _ _ _ _ _ _ _ _ _ rfl
  | override_property setting_class property_name dbus_type get_func set_func not_set_func =>
    simp only [schema_call, _nm_setting_class_override_property]
    split
    · exact h
    · exact add_property_override_paired qdata h _ _ _ _ _ _ _ _ _ rfl
  | transform_property setting_class property dbus_type to_dbus from_dbus =>
    simp only [call_transforms_paired, beq_iff_eq] at h_call
    simp only [schema_call, _nm_setting_class_transform_property]
    split
    · exact h
    · exact add_property_override_paired qdata h _ _ _ _ _ _ _ _ _ h_call
  | ensure_properties setting_class =>
    exact (ensure_properties_cached_paired qdata h setting_class).2

theorem schema_calls_paired (calls : List SchemaCall) :
    ∀ (qdata : GTypeQData), qdata_transforms_paired qdata →
      (∀ call ∈ calls, call_transforms_paired call = true) →
      qdata_transforms_paired (schema_calls qdata calls) := by
  induction calls with
  | nil => intro qdata h _; exact h
  | cons call rest ih =>
    intro qdata h h_calls
    exact ih (schema_call qdata call)
      (schema_call_paired qdata h call (h_calls call (List.mem_cons_self _ _)))
      (fun later h_later => h_calls later (List.mem_cons_of_mem _ h_later))

/-- C22 (as amended): after every sequence of registrations and schema
requests in which each call of `_nm_setting_class_transform_property` is handed
both transforms or neither, every descriptor of the schema of every class has
both a to-D-Bus and a from-D-Bus transform or neither. -/
theorem schema_transforms_paired (calls : List SchemaCall)
    (h_calls : ∀ call ∈ calls, call_transforms_paired call = true)
    (setting_class : GTypeClass) :
    ∀ property ∈ (nm_setting_class_ensure_properties_cached
        (schema_calls g_type_qdata_none calls) setting_class).1,
      property.to_dbus.isSome = property.from_dbus.isSome := by
  have h_none : qdata_transforms_paired g_type_qdata_none := by
    constructor <;> intro entry h_entry <;> simp [g_type_qdata_none] at h_entry
  exact (ensure_properties_cached_paired _
    (schema_calls_paired calls g_type_qdata_none h_none h_calls) setting_class).1

theorem schema_transforms_paired_witness :
    (∀ call ∈ example_schema_calls, call_transforms_paired call = true)
    ∧ (nm_setting_class_ensure_properties_cached
        (schema_calls g_type_qdata_none example_schema_calls) example_derived_class).1.map
        (fun property => (property.name, property.to_dbus.isSome, property.from_dbus.isSome))
      = [("name", false, false), ("mtu", true, true), ("legacy", false, false)]
    ∧ ∀ property ∈ (nm_setting_class_ensure_properties_cached
        (schema_calls g_type_qdata_none example_schema_calls) example_derived_class).1,
      property.to_dbus.isSome = property.from_dbus.isSome :=
  ⟨by decide, by decide,
    schema_transforms_paired example_schema_calls (by decide) example_derived_class⟩

/-- C22 (as stated) fails: `_nm_setting_class_transform_property` accepts a
to-D-Bus transform without a from-D-Bus transform, and the schema then holds a
descriptor with the one and not the other. -/
theorem transform_property_unpaired :
    (_nm_setting_class_transform_property g_type_qdata_none example_derived_class "mtu"
        G_TYPE_UINT64 (some example_widen) none).1 = RegisterOutcome.returned
    ∧ (nm_setting_class_ensure_properties_cached
        (_nm_setting_class_transform_property g_type_qdata_none example_derived_class "mtu"
          G_TYPE_UINT64 (some example_widen) none).2 example_derived_class).1.map
        (fun property => (property.name, property.to_dbus.isSome, property.from_dbus.isSome))
      = [("name", false, false), ("mtu", true, false)] := by
  refine ⟨by decide, by decide⟩

/-! ## Serialization, property by property -/

/-- In a class whose schema has one descriptor per name, the hash holds under
the name of each descriptor exactly what the step of the descriptor produced. -/
theorem to_dbus_lookup (klass : NMSettingClass) (setting : NMSetting)
    (connection : NMConnection) (flags : Nat) (h_nodup : (schema_names klass).Nodup)
    (name : String) (property : NMSettingProperty)
    (h_find : nm_setting_class_find_property klass name = some property) :
    g_hash_table_lookup (_nm_setting_to_dbus klass setting connection flags) name
      = to_dbus_property setting connection flags property := by
  obtain ⟨h_mem, h_name⟩ := find_property_some _ _ _ h_find
  obtain ⟨before, after, h_eq⟩ := List.append_of_mem h_mem
  unfold schema_names nm_setting_class_get_properties at h_nodup
  unfold _nm_setting_to_dbus nm_setting_class_get_properties
  rw [h_eq] at h_nodup ⊢
  rw [← h_name]
  exact to_dbus_loop_lookup setting connection flags before after property h_nodup

/-- C24: serialization of a native property without get function. In a class
whose schema has one descriptor per name, for every setting, every mode and
every schema descriptor with a `GParamSpec` and no get function that passes the
secret filter of the mode: the hash of `_nm_setting_to_dbus` holds the name of
the descriptor exactly when the property is writable and its value is not the
declared default, and then holds the value transformed by the to-D-Bus
transform if the descriptor has one and the value itself otherwise. -/
theorem to_dbus_native_property (klass : NMSettingClass) (setting : NMSetting)
    (connection : NMConnection) (flags : Nat) (h_nodup : (schema_names klass).Nodup)
    (name : String) (property : NMSettingProperty) (pspec : GParamSpec)
    (h_find : nm_setting_class_find_property klass name = some property)
    (h_spec : property.param_spec = some pspec) (h_get : property.get_func = none)
    (h_filter : passes_mode_filter flags property = true) :
    g_hash_table_lookup (_nm_setting_to_dbus klass setting connection flags) name
      = if flag_set pspec.flags G_PARAM_WRITABLE = true
            ∧ g_object_get_property setting pspec.name ≠ pspec.default_value then
          some (match property.to_dbus with
            | some to_dbus => to_dbus (g_object_get_property setting pspec.name)
            | none => g_object_get_property setting pspec.name)
        else none := by
  rw [to_dbus_lookup klass setting connection flags h_nodup name property h_find]
  unfold to_dbus_property
  rcases property with ⟨name, param_spec, dbus_type, get_func, set_func, not_set_func,
    to_dbus, from_dbus⟩
  simp only at h_get h_spec
  subst h_get h_spec
  simp only [passes_mode_filter, Bool.and_eq_true, Bool.not_eq_true',
    Bool.and_eq_false_iff] at h_filter
  by_cases h_writable : flag_set pspec.flags G_PARAM_WRITABLE = true
  · by_cases h_default : g_object_get_property setting pspec.name = pspec.default_value
    · rcases h_filter with ⟨h_no | h_no, h_only | h_only⟩ <;>
        simp_all [g_param_value_defaults]
    · rcases h_filter with ⟨h_no | h_no, h_only | h_only⟩ <;>
        cases to_dbus <;> simp_all [g_param_value_defaults]
  · simp [h_writable]

theorem to_dbus_native_property_witness :
    (schema_names example_transform_class).Nodup
    ∧ nm_setting_class_find_property example_transform_class "mtu"
      = some { name := "mtu", param_spec := some example_mtu_spec,
               dbus_type := G_TYPE_UINT64, get_func := none, set_func := none,
               not_set_func := none, to_dbus := some example_widen,
               from_dbus := some example_widen }
    ∧ g_hash_table_lookup (_nm_setting_to_dbus example_transform_class
        example_transform_setting ⟨[]⟩ NM_CONNECTION_SERIALIZE_NO_SECRETS) "mtu"
      = some (GValue.uint64 1500)
    ∧ g_hash_table_lookup (_nm_setting_to_dbus example_transform_class
        example_transform_setting ⟨[]⟩ NM_CONNECTION_SERIALIZE_NO_SECRETS) "mtu"
      = if flag_set example_mtu_spec.flags G_PARAM_WRITABLE = true
            ∧ g_object_get_property example_transform_setting example_mtu_spec.name
              ≠ example_mtu_spec.default_value then
          some (example_widen
            (g_object_get_property example_transform_setting example_mtu_spec.name))
        else none :=
  ⟨by decide, rfl, by decide,
    to_dbus_native_property example_transform_class example_transform_setting ⟨[]⟩
      NM_CONNECTION_SERIALIZE_NO_SECRETS (by decide) "mtu" _ example_mtu_spec rfl rfl rfl
      (by decide)⟩

/-- C25 (as amended): serialization through a get function. In a class whose
schema has one descriptor per name, for every setting, every mode and every
schema descriptor that passes the secret filter of the mode, has a get function
and has no `GParamSpec` or a writable one: the hash of `_nm_setting_to_dbus`
holds the name of the descriptor exactly when the get function reports TRUE,
with the value the function produced, whether or not that is the default. A
descriptor with neither a `GParamSpec` nor a get function is never in the
hash. -/
theorem to_dbus_get_func_property (klass : NMSettingClass) (setting : NMSetting)
    (connection : NMConnection) (flags : Nat) (h_nodup : (schema_names klass).Nodup)
    (name : String) (property : NMSettingProperty)
    (h_find : nm_setting_class_find_property klass name = some property) :
    (∀ get_func, property.get_func = some get_func →
        passes_mode_filter flags property = true →
        (∀ pspec, property.param_spec = some pspec →
          flag_set pspec.flags G_PARAM_WRITABLE = true) →
        g_hash_table_lookup (_nm_setting_to_dbus klass setting connection flags) name
          = get_func setting connection property.name)
      ∧ (property.param_spec = none → property.get_func = none →
        g_hash_table_lookup (_nm_setting_to_dbus klass setting connection flags) name
          = none) := by
  rw [to_dbus_lookup klass setting connection flags h_nodup name property h_find]
  unfold to_dbus_property
  rcases property with ⟨name, param_spec, dbus_type, get_func, set_func, not_set_func,
    to_dbus, from_dbus⟩
  constructor
  · intro get h_get h_filter h_writable
    simp only at h_get h_writable
    subst h_get
    simp only [passes_mode_filter, Bool.and_eq_true, Bool.not_eq_true',
      Bool.and_eq_false_iff] at h_filter
    cases param_spec with
    | none =>
      rcases h_filter with ⟨h_no | h_no, h_only | h_only⟩ <;> simp_all
    | some pspec =>
      have h_flag := h_writable pspec rfl
      rcases h_filter with ⟨h_no | h_no, h_only | h_only⟩ <;> simp_all
  · intro h_spec h_get
    simp only at h_spec h_get
    subst h_spec h_get
    simp

theorem to_dbus_get_func_property_witness :
    (schema_names example_get_class).Nodup
    ∧ _nm_setting_to_dbus example_get_class (g_object_new example_get_class) ⟨[]⟩
        NM_CONNECTION_SERIALIZE_ALL
      = [("mtu", GValue.uint 0), ("legacy", GValue.string (some "old"))]
    ∧ example_mtu_spec.default_value = GValue.uint 0
    ∧ g_hash_table_lookup (_nm_setting_to_dbus example_get_class
        (g_object_new example_get_class) ⟨[]⟩ NM_CONNECTION_SERIALIZE_ALL) "mtu"
      = example_zero_get_func (g_object_new example_get_class) ⟨[]⟩ "mtu"
    ∧ g_hash_table_lookup (_nm_setting_to_dbus example_get_class
        (g_object_new example_get_class) ⟨[]⟩ NM_CONNECTION_SERIALIZE_ALL) "ghost" = none :=
  ⟨by decide, by decide, rfl,
    (to_dbus_get_func_property example_get_class (g_object_new example_get_class) ⟨[]⟩
      NM_CONNECTION_SERIALIZE_ALL (by decide) "mtu"
      { name := "mtu", param_spec := some example_mtu_spec, dbus_type := G_TYPE_UINT,
        get_func := some example_zero_get_func, set_func := none, not_set_func := none,
        to_dbus := none, from_dbus := none } rfl).1 example_zero_get_func rfl (by decide)
      (fun pspec h_spec => by cases h_spec; decide),
    (to_dbus_get_func_property example_get_class (g_object_new example_get_class) ⟨[]⟩
      NM_CONNECTION_SERIALIZE_ALL (by decide) "ghost"
      { name := "ghost", param_spec := none, dbus_type := G_TYPE_STRING,
        get_func := none, set_func := none, not_set_func := none,
        to_dbus := none, from_dbus := none } rfl).2 rfl rfl⟩

/-- C25 (as stated) fails: the read-only "name" of `example_get_class` passes
the filter of the mode "all" and has a get function that reports TRUE, yet the
hash does not hold it, because `_nm_setting_to_dbus` skips a property that is
not writable before it looks at the get function. -/
theorem to_dbus_get_func_read_only_skipped :
    (schema_names example_get_class).Nodup
    ∧ (nm_setting_class_find_property example_get_class "name").map
        (fun property =>
          (passes_mode_filter NM_CONNECTION_SERIALIZE_ALL property,
            property.get_func.map (fun get_func =>
              get_func (g_object_new example_get_class) ⟨[]⟩ "name")))
      = some (true, some (some (GValue.string (some "old"))))
    ∧ g_hash_table_lookup (_nm_setting_to_dbus example_get_class
        (g_object_new example_get_class) ⟨[]⟩ NM_CONNECTION_SERIALIZE_ALL) "name" = none := by
  refine ⟨by decide, by decide, by decide⟩

/-! ## Comparison under the ignore flags and the skip rules -/

theorem nat_or_eq_zero (x y : Nat) : x ||| y = 0 ↔ x = 0 ∧ y = 0 := by
  constructor
  · intro h
    have h_bits : ∀ i, (x.testBit i || y.testBit i) = false := by
      intro i
      rw [← Nat.testBit_or, h, Nat.zero_testBit]
    constructor
    · apply Nat.eq_of_testBit_eq
      intro i
      have h_i := h_bits i
      rw [Bool.or_eq_false_iff] at h_i
      rw [h_i.1, Nat.zero_testBit]
    · apply Nat.eq_of_testBit_eq
      intro i
      have h_i := h_bits i
      rw [Bool.or_eq_false_iff] at h_i
      rw [h_i.2, Nat.zero_testBit]
  · rintro ⟨h_x, h_y⟩
    rw [h_x, h_y]
    rfl

theorem flag_set_or (flags mask1 mask2 : Nat) :
    flag_set flags (mask1 ||| mask2) = (flag_set flags mask1 || flag_set flags mask2) := by
  unfold flag_set
  rw [Nat.and_or_distrib_left, Bool.eq_iff_iff]
  simp only [bne_iff_ne, ne_eq, Bool.or_eq_true, nat_or_eq_zero]
  tauto

/-- The flags stored for a secret are read from its flags property alone. -/
theorem secret_flags_or_none_of_flags_eq (klass : NMSettingClass) (a b : NMSetting)
    (secret_name : String)
    (h_values : ∀ pspec ∈ klass.property_specs, pspec.name = secret_name ++ "-flags" →
      a.values pspec.name = b.values pspec.name) :
    secret_flags_or_none klass a secret_name = secret_flags_or_none klass b secret_name := by
  have h_flags : ∀ flags,
      g_object_get_flags klass a (secret_name ++ "-flags") flags
        = g_object_get_flags klass b (secret_name ++ "-flags") flags := by
    intro flags
    unfold g_object_get_flags
    cases h_find : g_object_class_find_property klass (secret_name ++ "-flags") with
    | none => rfl
    | some pspec =>
      unfold g_object_class_find_property at h_find
      have h_mem := List.mem_of_find?_eq_some h_find
      have h_name : pspec.name = secret_name ++ "-flags" := by
        simpa using List.find?_some h_find
      simp only [g_object_get_property]
      rw [← h_name, h_values pspec h_mem h_name]
  unfold secret_flags_or_none nm_setting_get_secret_flags get_secret_flags
  rw [h_flags]

/-- A property on whose value the two settings agree compares equal when it is
not a secret, and also when it is a secret for which they store equal flags. -/
theorem compare_property_of_agree (nm_property_compare : GValue → GValue → Int)
    (h_compare : ∀ value, nm_property_compare value value = 0)
    (klass : NMSettingClass) (a b : NMSetting) (prop_spec : GParamSpec)
    (h_mem : prop_spec ∈ klass.property_specs)
    (h_value : a.values prop_spec.name = b.values prop_spec.name)
    (h_flags : flag_set prop_spec.flags NM_SETTING_PARAM_SECRET = true →
      secret_flags_or_none klass a prop_spec.name
        = secret_flags_or_none klass b prop_spec.name)
    (flags : Nat) :
    compare_property nm_property_compare klass a b prop_spec flags = true := by
  obtain ⟨property, h_find⟩ := schema_has_property_spec klass prop_spec h_mem
  have h_equal : compare_property_values nm_property_compare klass a b prop_spec = true := by
    unfold compare_property_values
    rw [h_find]
    simp only [g_object_get_property, h_value]
    split <;> simp [h_compare]
  unfold compare_property
  by_cases h_secret : flag_set prop_spec.flags NM_SETTING_PARAM_SECRET = true
  · simp only [h_secret, if_true, h_flags h_secret, bne_self_eq_false, Bool.false_eq_true,
      if_false, h_equal]
    split
    · rfl
    · split <;> rfl
  · simp only [h_secret, if_false, h_equal, Bool.false_eq_true]

/-- C26: comparison ignoring flagged secrets. Let `a` and `b` be of the same
type and agree on the value of every property but the secret `p` (which is not
the flags property of a secret), let the value comparer report identical values
as equal, and let both settings store the same flags for `p`. If these flags
include agent-owned, `nm_setting_compare` with IGNORE_AGENT_OWNED_SECRETS
returns TRUE; if they include not-saved, `nm_setting_compare` with
IGNORE_NOT_SAVED_SECRETS returns TRUE. -/
theorem compare_ignores_flagged_secret (nm_property_compare : GValue → GValue → Int)
    (h_compare : ∀ value, nm_property_compare value value = 0)
    (klass : NMSettingClass) (a b : NMSetting) (p : GParamSpec) (secret_flags : Nat)
    (h_type : a.g_type = b.g_type)
    (h_nodup : (klass.property_specs.map (fun pspec => pspec.name)).Nodup)
    (h_p : p ∈ klass.property_specs)
    (h_secret : flag_set p.flags NM_SETTING_PARAM_SECRET = true)
    (h_not_flags : ∀ prop_spec ∈ klass.property_specs,
      flag_set prop_spec.flags NM_SETTING_PARAM_SECRET = true →
      prop_spec.name ++ "-flags" ≠ p.name)
    (h_values : ∀ prop_spec ∈ klass.property_specs, prop_spec.name ≠ p.name →
      a.values prop_spec.name = b.values prop_spec.name)
    (h_a : nm_setting_get_secret_flags klass a p.name = .ok secret_flags)
    (h_b : nm_setting_get_secret_flags klass b p.name = .ok secret_flags) :
    (flag_set secret_flags NM_SETTING_SECRET_FLAG_AGENT_OWNED = true →
        nm_setting_compare nm_property_compare klass a b
          NM_SETTING_COMPARE_FLAG_IGNORE_AGENT_OWNED_SECRETS = true)
      ∧ (flag_set secret_flags NM_SETTING_SECRET_FLAG_NOT_SAVED = true →
        nm_setting_compare nm_property_compare klass a b
          NM_SETTING_COMPARE_FLAG_IGNORE_NOT_SAVED_SECRETS = true) := by
  have h_flags_a : secret_flags_or_none klass a p.name = secret_flags := by
    unfold secret_flags_or_none; rw [h_a]
  have h_flags_b : secret_flags_or_none klass b p.name = secret_flags := by
    unfold secret_flags_or_none; rw [h_b]
  have h_other : ∀ flags, ∀ prop_spec ∈ klass.property_specs, prop_spec.name ≠ p.name →
      compare_property nm_property_compare klass a b prop_spec flags = true := by
    intro flags prop_spec h_mem h_ne
    apply compare_property_of_agree nm_property_compare h_compare klass a b prop_spec h_mem
      (h_values prop_spec h_mem h_ne)
    intro h_prop_secret
    apply secret_flags_or_none_of_flags_eq
    intro pspec h_pspec h_name
    apply h_values pspec h_pspec
    rw [h_name]
    exact h_not_flags prop_spec h_mem h_prop_secret
  have h_same : ∀ prop_spec ∈ klass.property_specs, prop_spec.name = p.name →
      prop_spec = p := by
    intro prop_spec h_mem h_name
    exact List.inj_on_of_nodup_map h_nodup h_mem h_p h_name
  constructor
  · intro h_owned
    unfold nm_setting_compare
    simp only [h_type, bne_self_eq_false, Bool.false_eq_true, if_false]
    apply compare_loop_true_of_forall
    intro prop_spec h_mem _
    by_cases h_name : prop_spec.name = p.name
    · rw [h_same prop_spec h_mem h_name]
      unfold compare_property
      simp only [h_secret, if_true, h_flags_a, h_flags_b, bne_self_eq_false,
        Bool.false_eq_true, if_false, h_owned, Bool.and_true]
      have h_flag : flag_set NM_SETTING_COMPARE_FLAG_IGNORE_AGENT_OWNED_SECRETS
          NM_SETTING_COMPARE_FLAG_IGNORE_AGENT_OWNED_SECRETS = true := by decide
      simp [h_flag]
    · exact h_other _ prop_spec h_mem h_name
  · intro h_saved
    unfold nm_setting_compare
    simp only [h_type, bne_self_eq_false, Bool.false_eq_true, if_false]
    apply compare_loop_true_of_forall
    intro prop_spec h_mem _
    by_cases h_name : prop_spec.name = p.name
    · rw [h_same prop_spec h_mem h_name]
      unfold compare_property
      simp only [h_secret, if_true, h_flags_a, h_flags_b, bne_self_eq_false,
        Bool.false_eq_true, if_false, h_saved, Bool.and_true]
      have h_flag : flag_set NM_SETTING_COMPARE_FLAG_IGNORE_NOT_SAVED_SECRETS
          NM_SETTING_COMPARE_FLAG_IGNORE_NOT_SAVED_SECRETS = true := by decide
      simp [h_flag]
    · exact h_other _ prop_spec h_mem h_name

theorem compare_ignores_flagged_secret_witness :
    (∀ value, example_compare value value = 0)
    ∧ example_setting_flagged.values "psk" ≠ example_setting_flagged_other.values "psk"
    ∧ nm_setting_compare example_compare example_class example_setting_flagged
        example_setting_flagged_other NM_SETTING_COMPARE_FLAG_EXACT = false
    ∧ nm_setting_compare example_compare example_class example_setting_flagged
        example_setting_flagged_other NM_SETTING_COMPARE_FLAG_IGNORE_AGENT_OWNED_SECRETS = true
    ∧ nm_setting_compare example_compare example_class example_setting_flagged
        example_setting_flagged_other NM_SETTING_COMPARE_FLAG_IGNORE_NOT_SAVED_SECRETS = true :=
  ⟨fun value => by simp [example_compare], by decide, by decide,
    (compare_ignores_flagged_secret example_compare (fun value => by simp [example_compare])
      example_class example_setting_flagged example_setting_flagged_other example_psk_spec 3
      (by decide) (by decide) (by decide) (by decide) (by decide) (by decide) rfl rfl).1
      (by decide),
    (compare_ignores_flagged_secret example_compare (fun value => by simp [example_compare])
      example_class example_setting_flagged example_setting_flagged_other example_psk_spec 3
      (by decide) (by decide) (by decide) (by decide) (by decide) (by decide) rfl rfl).2
      (by decide)⟩

/-- A property that is not a secret and on whose value the two settings agree
compares equal. -/
theorem compare_property_of_plain (nm_property_compare : GValue → GValue → Int)
    (h_compare : ∀ value, nm_property_compare value value = 0)
    (klass : NMSettingClass) (a b : NMSetting) (prop_spec : GParamSpec)
    (h_mem : prop_spec ∈ klass.property_specs)
    (h_plain : flag_set prop_spec.flags NM_SETTING_PARAM_SECRET = false)
    (h_value : a.values prop_spec.name = b.values prop_spec.name) (flags : Nat) :
    compare_property nm_property_compare klass a b prop_spec flags = true :=
  compare_property_of_agree nm_property_compare h_compare klass a b prop_spec h_mem h_value
    (fun h_secret => by rw [h_plain] at h_secret; exact Bool.noConfusion h_secret) flags

/-- C27 (as amended): the skip rules of `nm_setting_compare`. Let `a` and `b`
be of the same type and let the value comparer report identical values as
equal. If they agree on every property flagged neither secret nor fuzzy-ignore,
the comparison with FUZZY returns TRUE. If they agree on every property flagged
inferrable and store equal secret flags for every secret among these, the
comparison with INFERRABLE returns TRUE. If they agree on every property that is
not a secret, the comparison with IGNORE_SECRETS returns TRUE. -/
theorem compare_skip_rules (nm_property_compare : GValue → GValue → Int)
    (h_compare : ∀ value, nm_property_compare value value = 0)
    (klass : NMSettingClass) (a b : NMSetting) (h_type : a.g_type = b.g_type) :
    ((∀ prop_spec ∈ klass.property_specs,
          flag_set prop_spec.flags NM_SETTING_PARAM_SECRET = false →
          flag_set prop_spec.flags NM_SETTING_PARAM_FUZZY_IGNORE = false →
          a.values prop_spec.name = b.values prop_spec.name) →
        nm_setting_compare nm_property_compare klass a b NM_SETTING_COMPARE_FLAG_FUZZY = true)
      ∧ ((∀ prop_spec ∈ klass.property_specs,
          flag_set prop_spec.flags NM_SETTING_PARAM_INFERRABLE = true →
          a.values prop_spec.name = b.values prop_spec.name
            ∧ (flag_set prop_spec.flags NM_SETTING_PARAM_SECRET = true →
              secret_flags_or_none klass a prop_spec.name
                = secret_flags_or_none klass b prop_spec.name)) →
        nm_setting_compare nm_property_compare klass a b NM_SETTING_COMPARE_FLAG_INFERRABLE
          = true)
      ∧ ((∀ prop_spec ∈ klass.property_specs,
          flag_set prop_spec.flags NM_SETTING_PARAM_SECRET = false →
          a.values prop_spec.name = b.values prop_spec.name) →
        nm_setting_compare nm_property_compare klass a b
          NM_SETTING_COMPARE_FLAG_IGNORE_SECRETS = true) := by
  have h_fuzzy : flag_set NM_SETTING_COMPARE_FLAG_FUZZY NM_SETTING_COMPARE_FLAG_FUZZY
      = true := by decide
  have h_inferrable : flag_set NM_SETTING_COMPARE_FLAG_INFERRABLE
      NM_SETTING_COMPARE_FLAG_INFERRABLE = true := by decide
  have h_ignore : flag_set NM_SETTING_COMPARE_FLAG_IGNORE_SECRETS
      NM_SETTING_COMPARE_FLAG_IGNORE_SECRETS = true := by decide
  refine ⟨?_, ?_, ?_⟩
  · intro h_agree
    unfold nm_setting_compare
    simp only [h_type, bne_self_eq_false, Bool.false_eq_true, if_false]
    apply compare_loop_true_of_forall
    intro prop_spec h_mem h_skip
    unfold compare_skips at h_skip
    simp only [h_fuzzy, Bool.true_and, Bool.or_eq_false_iff, flag_set_or] at h_skip
    exact compare_property_of_plain nm_property_compare h_compare klass a b prop_spec h_mem
      h_skip.1.1.2 (h_agree prop_spec h_mem h_skip.1.1.2 h_skip.1.1.1) _
  · intro h_agree
    unfold nm_setting_compare
    simp only [h_type, bne_self_eq_false, Bool.false_eq_true, if_false]
    apply compare_loop_true_of_forall
    intro prop_spec h_mem h_skip
    unfold compare_skips at h_skip
    simp only [h_inferrable, Bool.true_and, Bool.or_eq_false_iff, Bool.not_eq_false'] at h_skip
    obtain ⟨h_value, h_flags⟩ := h_agree prop_spec h_mem h_skip.1.2
    exact compare_property_of_agree nm_property_compare h_compare klass a b prop_spec h_mem
      h_value h_flags _
  · intro h_agree
    unfold nm_setting_compare
    simp only [h_type, bne_self_eq_false, Bool.false_eq_true, if_false]
    apply compare_loop_true_of_forall
    intro prop_spec h_mem h_skip
    unfold compare_skips at h_skip
    simp only [h_ignore, Bool.true_and, Bool.or_eq_false_iff] at h_skip
    exact compare_property_of_plain nm_property_compare h_compare klass a b prop_spec h_mem
      h_skip.2 (h_agree prop_spec h_mem h_skip.2) _

theorem compare_skip_rules_witness :
    (∀ value, example_compare value value = 0)
    ∧ example_setting_plain.g_type = (g_object_new example_class).g_type
    ∧ nm_setting_compare example_compare example_class example_setting_plain
        (g_object_new example_class) NM_SETTING_COMPARE_FLAG_EXACT = false
    ∧ nm_setting_compare example_compare example_class example_setting_plain
        (g_object_new example_class) NM_SETTING_COMPARE_FLAG_FUZZY = true
    ∧ nm_setting_compare example_compare example_class example_setting_plain
        (g_object_new example_class) NM_SETTING_COMPARE_FLAG_INFERRABLE = true
    ∧ nm_setting_compare example_compare example_class example_setting_plain
        (g_object_new example_class) NM_SETTING_COMPARE_FLAG_IGNORE_SECRETS = true :=
  ⟨fun value => by simp [example_compare], by decide, by decide,
    (compare_skip_rules example_compare (fun value => by simp [example_compare])
      example_class example_setting_plain (g_object_new example_class) (by decide)).1
      (by decide),
    (compare_skip_rules example_compare (fun value => by simp [example_compare])
      example_class example_setting_plain (g_object_new example_class) (by decide)).2.1
      (by decide),
    (compare_skip_rules example_compare (fun value => by simp [example_compare])
      example_class example_setting_plain (g_object_new example_class) (by decide)).2.2
      (by decide)⟩

/-- C27 (as stated) fails for INFERRABLE: the two settings of
`example_inferrable_class` agree on the one inferrable property, the secret
"psk", but store different flags for it in a property that is not inferrable,
and `compare_property` reports secrets with different flags as unequal. -/
theorem compare_inferrable_secret_flags_differ :
    example_inferrable_setting.g_type = (g_object_new example_inferrable_class).g_type
    ∧ (∀ prop_spec ∈ example_inferrable_class.property_specs,
        flag_set prop_spec.flags NM_SETTING_PARAM_INFERRABLE = true →
        example_inferrable_setting.values prop_spec.name
          = (g_object_new example_inferrable_class).values prop_spec.name)
    ∧ nm_setting_compare example_compare example_inferrable_class example_inferrable_setting
        (g_object_new example_inferrable_class) NM_SETTING_COMPARE_FLAG_INFERRABLE = false := by
  refine ⟨by decide, by decide, by decide⟩

/-! ## Diff: the results table -/

/-- The loop of `nm_setting_diff` without a second setting, started on a table
all of whose values are `bit`: it adds every surviving name with the value
`bit` and keeps the rest of the table. -/
theorem diff_absent_fold (nm_property_compare : GValue → GValue → Int)
    (nm_type_setting_connection : GType) (klass : NMSettingClass) (a : NMSetting)
    (flags bit b_result : Nat) :
    ∀ (property_specs : List GParamSpec) (table : GHashTable Nat),
      (∀ name value, g_hash_table_lookup table name = some value → value = bit) →
      ∀ name,
        g_hash_table_lookup
            (property_specs.foldl
              (diff_property nm_property_compare nm_type_setting_connection klass a none flags
                bit b_result) table) name
          = if name ∈ (property_specs.filter (fun prop_spec =>
                should_compare_prop nm_type_setting_connection klass a prop_spec.name flags
                    prop_spec.flags
                  && decide (prop_spec.name ≠ NM_SETTING_NAME))).map
                (fun prop_spec => prop_spec.name)
            then some bit else g_hash_table_lookup table name := by
  intro property_specs
  induction property_specs with
  | nil => intro table _ name; simp
  | cons head rest ih =>
    intro table h_table name
    simp only [List.foldl_cons]
    by_cases h_keep : (should_compare_prop nm_type_setting_connection klass a head.name flags
        head.flags && decide (head.name ≠ NM_SETTING_NAME)) = true
    · have h_should : should_compare_prop nm_type_setting_connection klass a head.name flags
          head.flags = true := by
        simp only [Bool.and_eq_true] at h_keep
        exact h_keep.1
      have h_name : ¬ head.name = NM_SETTING_NAME := by
        simp only [Bool.and_eq_true, decide_eq_true_eq] at h_keep
        exact h_keep.2
      have h_value : ((g_hash_table_lookup table head.name).getD 0) ||| bit = bit := by
        cases h_lookup : g_hash_table_lookup table head.name with
        | none => simp
        | some value =>
          rw [h_table head.name value h_lookup]
          simp
      have h_step : diff_property nm_property_compare nm_type_setting_connection klass a none
          flags bit b_result table head = g_hash_table_insert table head.name bit := by
        unfold diff_property
        simp only [h_should, Bool.not_true, Bool.false_eq_true, if_false, h_name, h_value]
      rw [h_step]
      have h_table' : ∀ name value,
          g_hash_table_lookup (g_hash_table_insert table head.name bit) name = some value →
          value = bit := by
        intro name value h_lookup
        rw [g_hash_table_lookup_insert] at h_lookup
        by_cases h_eq : head.name = name
        · simp only [h_eq, if_true, Option.some.injEq] at h_lookup
          exact h_lookup.symm
        · simp only [h_eq, if_false] at h_lookup
          exact h_table name value h_lookup
      rw [ih _ h_table' name, g_hash_table_lookup_insert]
      simp only [List.filter_cons, h_keep, if_true, List.map_cons, List.mem_cons]
      by_cases h_eq : head.name = name
      · simp [h_eq]
      · have h_ne : ¬ name = head.name := fun h => h_eq h.symm
        simp only [h_eq, if_false, h_ne, false_or]
    · have h_step : diff_property nm_property_compare nm_type_setting_connection klass a none
          flags bit b_result table head = table := by
        unfold diff_property
        simp only [Bool.and_eq_true, decide_eq_true_eq, not_and, not_not] at h_keep
        by_cases h_should : should_compare_prop nm_type_setting_connection klass a head.name
            flags head.flags = true
        · simp [h_should, h_keep h_should]
        · simp [h_should]
      rw [h_step, ih _ h_table name]
      simp only [List.filter_cons, h_keep, if_false, Bool.false_eq_true]

/-- C28: the diff of a setting against an absent one. For every setting `a`,
every flags and either direction, `nm_setting_diff` called without a second
setting and without a results table leaves a table that holds exactly the names
of the properties of `a` that survive the skip rules, other than "name", each
with exactly the in-A bit (the in-B bit when the results are inverted),
whatever the values of the properties are. When no property survives, no table
is returned and the call reports TRUE; otherwise it reports FALSE. -/
theorem diff_absent_setting (nm_property_compare : GValue → GValue → Int)
    (nm_type_setting_connection : GType) (klass : NMSettingClass) (a : NMSetting)
    (flags : Nat) (invert_results : Bool) :
    (∀ name,
        g_hash_table_lookup
            ((nm_setting_diff nm_property_compare nm_type_setting_connection klass a none
              flags invert_results none).2.getD []) name
          = if name ∈ diff_survivors nm_type_setting_connection klass a flags then
              some (if invert_results then NM_SETTING_DIFF_RESULT_IN_B
                else NM_SETTING_DIFF_RESULT_IN_A)
            else none)
      ∧ (nm_setting_diff nm_property_compare nm_type_setting_connection klass a none
          flags invert_results none).2.isNone
        = (diff_survivors nm_type_setting_connection klass a flags).isEmpty
      ∧ (nm_setting_diff nm_property_compare nm_type_setting_connection klass a none
          flags invert_results none).1
        = (diff_survivors nm_type_setting_connection klass a flags).isEmpty := by
  have h_fold := diff_absent_fold nm_property_compare nm_type_setting_connection klass a flags
    (if invert_results then NM_SETTING_DIFF_RESULT_IN_B else NM_SETTING_DIFF_RESULT_IN_A)
    (if invert_results then NM_SETTING_DIFF_RESULT_IN_A else NM_SETTING_DIFF_RESULT_IN_B)
    klass.property_specs []
    (fun name value h => by simp [g_hash_table_lookup] at h)
  unfold nm_setting_diff
  simp only [Bool.false_eq_true, if_false, Option.getD_none, Option.isNone_none, Bool.true_and]
  generalize klass.property_specs.foldl
    (diff_property nm_property_compare nm_type_setting_connection klass a none flags
      (if invert_results then NM_SETTING_DIFF_RESULT_IN_B else NM_SETTING_DIFF_RESULT_IN_A)
      (if invert_results then NM_SETTING_DIFF_RESULT_IN_A else NM_SETTING_DIFF_RESULT_IN_B))
    [] = table at h_fold
  change ∀ name, g_hash_table_lookup table name
    = if name ∈ diff_survivors nm_type_setting_connection klass a flags then _ else _
    at h_fold
  cases table with
  | nil =>
    have h_none : ∀ name, name ∉ diff_survivors nm_type_setting_connection klass a flags := by
      intro name h_mem
      have h := h_fold name
      simp [g_hash_table_lookup, h_mem] at h
    have h_nil : diff_survivors nm_type_setting_connection klass a flags = [] :=
      List.eq_nil_iff_forall_not_mem.mpr h_none
    simp [h_nil, g_hash_table_lookup]
  | cons head rest =>
    obtain ⟨key, value⟩ := head
    have h_some : key ∈ diff_survivors nm_type_setting_connection klass a flags := by
      by_contra h_not
      have h := h_fold key
      simp [g_hash_table_lookup, h_not] at h
    have h_ne : diff_survivors nm_type_setting_connection klass a flags ≠ [] :=
      List.ne_nil_of_mem h_some
    simp only [List.isEmpty_cons, Bool.false_eq_true, if_false, Option.getD_some,
      Option.isNone_some]
    refine ⟨h_fold, ?_, ?_⟩ <;>
      cases h_list : diff_survivors nm_type_setting_connection klass a flags with
      | nil => exact absurd h_list h_ne
      | cons first others => rfl

/-- The loop of `nm_setting_diff` leaves the table alone when no surviving
property differs. -/
theorem diff_fold_no_difference (nm_property_compare : GValue → GValue → Int)
    (nm_type_setting_connection : GType) (klass : NMSettingClass) (a b : NMSetting)
    (flags a_result b_result : Nat) (table : GHashTable Nat) :
    ∀ (property_specs : List GParamSpec),
      (∀ prop_spec ∈ property_specs,
        should_compare_prop nm_type_setting_connection klass a prop_spec.name flags
          prop_spec.flags = true →
        prop_spec.name ≠ NM_SETTING_NAME →
        compare_property nm_property_compare klass a b prop_spec flags = true) →
      property_specs.foldl
          (diff_property nm_property_compare nm_type_setting_connection klass a (some b) flags
            a_result b_result) table
        = table := by
  intro property_specs
  induction property_specs with
  | nil => intro _; rfl
  | cons head rest ih =>
    intro h_same
    have h_step : diff_property nm_property_compare nm_type_setting_connection klass a
        (some b) flags a_result b_result table head = table := by
      unfold diff_property
      by_cases h_should : should_compare_prop nm_type_setting_connection klass a head.name
          flags head.flags = true
      · by_cases h_name : head.name = NM_SETTING_NAME
        · simp [h_should, h_name]
        · simp [h_should, h_name, h_same head (List.mem_cons_self _ _) h_should h_name]
      · simp [h_should]
    simp only [List.foldl_cons, h_step]
    exact ih (fun prop_spec h_mem => h_same prop_spec (List.mem_cons_of_mem _ h_mem))

/-- C29: the value `nm_setting_diff` returns. The documentation promises TRUE
when the settings contain the same values. A setting diffed against itself
under the exact comparison gives TRUE only when no results table is passed in:
with an empty or a filled table passed in, the call leaves the table as it is
and returns FALSE. -/
theorem diff_same_values_returns_false :
    nm_setting_compare example_compare example_class example_setting_plain
        example_setting_plain NM_SETTING_COMPARE_FLAG_EXACT = true
    ∧ nm_setting_diff example_compare 2000 example_class example_setting_plain
        (some example_setting_plain) NM_SETTING_COMPARE_FLAG_EXACT false none
      = (true, none)
    ∧ nm_setting_diff example_compare 2000 example_class example_setting_plain
        (some example_setting_plain) NM_SETTING_COMPARE_FLAG_EXACT false (some [])
      = (false, some [])
    ∧ nm_setting_diff example_compare 2000 example_class example_setting_plain
        (some example_setting_plain) NM_SETTING_COMPARE_FLAG_EXACT false
        (some [("mtu", NM_SETTING_DIFF_RESULT_IN_A)])
      = (false, some [("mtu", NM_SETTING_DIFF_RESULT_IN_A)]) := by
  refine ⟨by decide, by decide, by decide, by decide⟩

/-- C30: results left alone. When no property that survives the skip rules
differs between `a` and `b`, `nm_setting_diff` leaves the results as they were
passed in: no table stays no table (the empty table the call created is not
returned), and a table passed in keeps exactly its entries, in the order it
had them. -/
theorem diff_no_difference_keeps_results (nm_property_compare : GValue → GValue → Int)
    (nm_type_setting_connection : GType) (klass : NMSettingClass) (a b : NMSetting)
    (flags : Nat) (invert_results : Bool) (results : Option (GHashTable Nat))
    (h_same : ∀ prop_spec ∈ klass.property_specs,
      should_compare_prop nm_type_setting_connection klass a prop_spec.name flags
        prop_spec.flags = true →
      prop_spec.name ≠ NM_SETTING_NAME →
      compare_property nm_property_compare klass a b prop_spec flags = true) :
    (nm_setting_diff nm_property_compare nm_type_setting_connection klass a (some b) flags
      invert_results results).2 = results := by
  unfold nm_setting_diff
  simp only
  split
  · rfl
  · rw [diff_fold_no_difference nm_property_compare nm_type_setting_connection klass a b
      flags _ _ _ klass.property_specs h_same]
    cases results with
    | none => simp
    | some table => simp

theorem diff_no_difference_keeps_results_witness :
    (∀ prop_spec ∈ example_class.property_specs,
      should_compare_prop 2000 example_class example_setting_agent_owned prop_spec.name
        NM_SETTING_COMPARE_FLAG_IGNORE_SECRETS prop_spec.flags = true →
      prop_spec.name ≠ NM_SETTING_NAME →
      compare_property example_compare example_class example_setting_agent_owned
        (g_object_set_property example_class example_setting_agent_owned "psk"
          (.string (some "other")))
        prop_spec NM_SETTING_COMPARE_FLAG_IGNORE_SECRETS = true)
    ∧ (nm_setting_diff example_compare 2000 example_class example_setting_agent_owned
        (some (g_object_set_property example_class example_setting_agent_owned "psk"
          (.string (some "other"))))
        NM_SETTING_COMPARE_FLAG_IGNORE_SECRETS false none).2 = none
    ∧ (nm_setting_diff example_compare 2000 example_class example_setting_agent_owned
        (some (g_object_set_property example_class example_setting_agent_owned "psk"
          (.string (some "other"))))
        NM_SETTING_COMPARE_FLAG_IGNORE_SECRETS false
        (some [("mtu", NM_SETTING_DIFF_RESULT_IN_B)])).2
      = some [("mtu", NM_SETTING_DIFF_RESULT_IN_B)] :=
  ⟨by decide,
    diff_no_difference_keeps_results example_compare 2000 example_class
      example_setting_agent_owned
      (g_object_set_property example_class example_setting_agent_owned "psk"
        (.string (some "other")))
      NM_SETTING_COMPARE_FLAG_IGNORE_SECRETS false none (by decide),
    diff_no_difference_keeps_results example_compare 2000 example_class
      example_setting_agent_owned
      (g_object_set_property example_class example_setting_agent_owned "psk"
        (.string (some "other")))
      NM_SETTING_COMPARE_FLAG_IGNORE_SECRETS false
      (some [("mtu", NM_SETTING_DIFF_RESULT_IN_B)]) (by decide)⟩

/-! ## One descriptor per name -/

/-- A schema has one descriptor per name as soon as the `GParamSpec` names are
pairwise distinct and so are the names of the overrides, of the type and its
ancestors together, that name no `GParamSpec`. -/
theorem schema_names_nodup (klass : NMSettingClass)
    (h_specs : (klass.property_specs.map (fun pspec => pspec.name)).Nodup)
    (h_rest : ((((klass.type_overrides.map (fun type_overrides =>
        type_overrides.getD [])).flatten).filter (fun override =>
          (g_object_class_find_property klass override.name).isNone)).map
        (fun override => override.name)).Nodup) :
    (schema_names klass).Nodup := by
  unfold schema_names nm_setting_class_get_properties nm_setting_class_ensure_properties
  simp only [List.map_append, List.map_map]
  have h_first : ∀ (build : GParamSpec → NMSettingProperty),
      (∀ pspec, (build pspec).name = pspec.name) →
      List.map ((fun property : NMSettingProperty => property.name) ∘ build)
          klass.property_specs
        = klass.property_specs.map (fun pspec => pspec.name) := by
    intro build h_build
    apply List.map_congr_left
    intro pspec _
    exact h_build pspec
  rw [h_first]
  swap
  · intro pspec
    cases h_find : find_property
      (klass.type_overrides.map (fun type_overrides => type_overrides.getD [])).flatten
      pspec.name with
    | none => rfl
    | some override => exact (find_property_some _ _ _ h_find).2
  refine List.Nodup.append h_specs h_rest ?_
  intro name h_left h_right
  simp only [List.mem_map, List.mem_filter] at h_left h_right
  obtain ⟨pspec, h_pspec, h_name⟩ := h_left
  obtain ⟨override, ⟨_, h_none⟩, h_override⟩ := h_right
  rw [find_property_spec_isNone] at h_none
  simp only [Bool.not_eq_true', List.any_eq_false, decide_eq_true_eq] at h_none
  exact h_none pspec h_pspec (h_name.trans h_override.symm)

/-! ## Updating secrets: the result code -/

/-- The error of `update_one_secret` is set exactly when the code is the error
code. -/
theorem update_one_secret_error_set (klass : NMSettingClass) (setting : NMSetting)
    (key : String) (value : GValue) :
    (update_one_secret klass setting key value).2.2.isSome
      = decide ((update_one_secret klass setting key value).1
          = NM_SETTING_UPDATE_SECRET_ERROR) := by
  unfold update_one_secret
  cases nm_setting_class_find_property klass key with
  | none => simp
  | some property =>
    rcases property with ⟨_, param_spec, _, _, _, _, _, _⟩
    cases param_spec with
    | none => simp
    | some prop_spec =>
      simp only
      split
      · simp
      · split
        · split <;> simp
        · simp

/-- The loop of `_nm_setting_update_secrets` ends with the error code exactly
when an entry fails, and then, and only then, with an error. -/
theorem update_secrets_loop_error_iff (klass : NMSettingClass) :
    ∀ (secrets : GHashTable GValue) (setting : NMSetting)
      (result : NMSettingUpdateSecretResult), result ≠ NM_SETTING_UPDATE_SECRET_ERROR →
      ((update_secrets_loop klass secrets setting result).1 = NM_SETTING_UPDATE_SECRET_ERROR
          ↔ ∃ entry ∈ secrets, secret_entry_fails klass entry.1 entry.2 = true)
        ∧ ((update_secrets_loop klass secrets setting result).1
            = NM_SETTING_UPDATE_SECRET_ERROR
          ↔ (update_secrets_loop klass secrets setting result).2.2.isSome = true) := by
  intro secrets
  induction secrets with
  | nil =>
    intro setting result h_result
    simp [update_secrets_loop, h_result]
  | cons entry rest ih =>
    intro setting result h_result
    obtain ⟨key, value⟩ := entry
    have h_iff := update_one_secret_error_iff klass setting key value
    have h_set := update_one_secret_error_set klass setting key value
    simp only [update_secrets_loop]
    rcases h_one : update_one_secret klass setting key value with ⟨code, setting1, error⟩
    rw [h_one] at h_iff h_set
    simp only at h_iff h_set
    cases code with
    | NM_SETTING_UPDATE_SECRET_ERROR =>
      have h_fails := h_iff.mp rfl
      simp only [decide_True] at h_set
      simp only [true_iff, h_set, and_true]
      exact ⟨(key, value), List.mem_cons_self _ _, h_fails⟩
    | NM_SETTING_UPDATE_SECRET_SUCCESS_MODIFIED =>
      have h_ok : secret_entry_fails klass key value = false := by
        cases h_f : secret_entry_fails klass key value with
        | false => rfl
        | true => exact absurd (h_iff.mpr h_f) (by simp)
      have h_rest := ih setting1 NM_SETTING_UPDATE_SECRET_SUCCESS_MODIFIED (by simp)
      refine ⟨?_, h_rest.2⟩
      rw [h_rest.1]
      simp [h_ok]
    | NM_SETTING_UPDATE_SECRET_SUCCESS_UNCHANGED =>
      have h_ok : secret_entry_fails klass key value = false := by
        cases h_f : secret_entry_fails klass key value with
        | false => rfl
        | true => exact absurd (h_iff.mpr h_f) (by simp)
      have h_rest := ih setting1 result h_result
      refine ⟨?_, h_rest.2⟩
      rw [h_rest.1]
      simp [h_ok]

/-- C32: when `_nm_setting_update_secrets` fails. The call returns the error
code if and only if some entry of the secret map names no schema property or
names a secret property with a value of an incompatible type, and it sets an
error exactly when it returns the error code. When the first entry that fails
names no schema property, the error is `PropertyNotFound` with the key as its
message. -/
theorem update_secrets_error_iff (klass : NMSettingClass) (setting : NMSetting)
    (secrets : GHashTable GValue) :
    ((_nm_setting_update_secrets klass setting secrets).1 = NM_SETTING_UPDATE_SECRET_ERROR
        ↔ ∃ entry ∈ secrets, secret_entry_fails klass entry.1 entry.2 = true)
      ∧ ((_nm_setting_update_secrets klass setting secrets).1
          = NM_SETTING_UPDATE_SECRET_ERROR
        ↔ (_nm_setting_update_secrets klass setting secrets).2.2.isSome = true)
      ∧ (∀ (before after : GHashTable GValue) (key : String) (value : GValue),
          secrets = before ++ (key, value) :: after →
          (∀ entry ∈ before, secret_entry_fails klass entry.1 entry.2 = false) →
          nm_setting_class_find_property klass key = none →
          (_nm_setting_update_secrets klass setting secrets).1
              = NM_SETTING_UPDATE_SECRET_ERROR
            ∧ (_nm_setting_update_secrets klass setting secrets).2.2
              = some { domain := NM_SETTING_ERROR,
                       code := NM_SETTING_ERROR_PROPERTY_NOT_FOUND, message := key }) := by
  have h_loop := update_secrets_loop_error_iff klass secrets setting
    NM_SETTING_UPDATE_SECRET_SUCCESS_UNCHANGED (by simp)
  refine ⟨h_loop.1, h_loop.2, ?_⟩
  intro before after key value h_secrets h_before h_find
  have h_fails : secret_entry_fails klass key value = true := by
    unfold secret_entry_fails
    rw [h_find]
  subst h_secrets
  unfold _nm_setting_update_secrets
  rw [update_secrets_loop_append klass before _ h_before,
    update_secrets_loop_head_fails klass key value after _ _ h_fails]
  refine ⟨rfl, ?_⟩
  simp only [update_one_secret, h_find]

/-- The code of `update_one_secret` for an entry that does not fail: modified
when the entry modifies the setting, unchanged otherwise. -/
theorem update_one_secret_modified_iff (klass : NMSettingClass) (setting : NMSetting)
    (key : String) (value : GValue) (h_ok : secret_entry_fails klass key value = false) :
    (update_one_secret klass setting key value).1
      = if secret_entry_modifies klass setting key value = true then
          NM_SETTING_UPDATE_SECRET_SUCCESS_MODIFIED
        else NM_SETTING_UPDATE_SECRET_SUCCESS_UNCHANGED := by
  revert h_ok
  unfold update_one_secret secret_entry_fails secret_entry_modifies
  cases nm_setting_class_find_property klass key with
  | none => simp
  | some property =>
    rcases property with ⟨_, param_spec, _, _, _, _, _, _⟩
    cases param_spec with
    | none => simp
    | some prop_spec =>
      intro h_ok
      by_cases hs : flag_set prop_spec.flags NM_SETTING_PARAM_SECRET = true
      · have hc : g_value_type_compatible (G_VALUE_TYPE value) prop_spec.value_type = true := by
          simpa [hs] using h_ok
        simp only [hs, hc, Bool.not_true, Bool.false_eq_true, if_false, if_true, Bool.true_and,
          Bool.not_eq_true', decide_eq_false_iff_not]
        split <;> simp_all
      · simp [hs]

/-- The loop of `_nm_setting_update_secrets` over entries that do not fail: it
ends with the modified code when it started with it or an entry modifies the
setting, and with the code it started with otherwise; when it ends with the
unchanged code the setting is as it was. -/
theorem update_secrets_loop_modified_iff (klass : NMSettingClass) :
    ∀ (secrets : GHashTable GValue) (setting : NMSetting)
      (result : NMSettingUpdateSecretResult),
      (∀ entry ∈ secrets, secret_entry_fails klass entry.1 entry.2 = false) →
      (update_secrets_loop klass secrets setting result).1
          = (if result = NM_SETTING_UPDATE_SECRET_SUCCESS_MODIFIED
              ∨ ∃ entry ∈ secrets, secret_entry_modifies klass setting entry.1 entry.2 = true
            then NM_SETTING_UPDATE_SECRET_SUCCESS_MODIFIED else result)
        ∧ ((∀ entry ∈ secrets, secret_entry_modifies klass setting entry.1 entry.2 = false) →
          (update_secrets_loop klass secrets setting result).2.1 = setting) := by
  intro secrets
  induction secrets with
  | nil =>
    intro setting result _
    simp only [update_secrets_loop, List.not_mem_nil, false_and, exists_false, or_false]
    refine ⟨?_, by simp⟩
    split
    · rename_i h; exact h
    · rfl
  | cons entry rest ih =>
    intro setting result h_ok
    obtain ⟨key, value⟩ := entry
    have h_head := h_ok (key, value) (List.mem_cons_self _ _)
    have h_tail : ∀ entry ∈ rest, secret_entry_fails klass entry.1 entry.2 = false :=
      fun entry h => h_ok entry (List.mem_cons_of_mem _ h)
    have h_code := update_one_secret_modified_iff klass setting key value h_head
    simp only [update_secrets_loop]
    rcases h_one : update_one_secret klass setting key value with ⟨code, setting1, error⟩
    rw [h_one] at h_code
    simp only at h_code
    by_cases h_mod : secret_entry_modifies klass setting key value = true
    · simp only [h_mod, if_true] at h_code
      subst h_code
      simp only
      have h_rest := ih setting1 NM_SETTING_UPDATE_SECRET_SUCCESS_MODIFIED h_tail
      refine ⟨?_, ?_⟩
      · rw [h_rest.1]
        have h_ex : ∃ entry ∈ (key, value) :: rest,
            secret_entry_modifies klass setting entry.1 entry.2 = true :=
          ⟨(key, value), List.mem_cons_self _ _, h_mod⟩
        simp only [true_or, if_true, h_ex, or_true]
      · intro h_none
        have h_false := h_none (key, value) (List.mem_cons_self _ _)
        rw [h_mod] at h_false
        exact Bool.noConfusion h_false
    · simp only [h_mod, if_false, Bool.false_eq_true] at h_code
      subst h_code
      have h_keep := update_one_secret_keeps_on_error klass setting key value
        (by rw [h_one]; simp)
      rw [h_one] at h_keep
      simp only at h_keep
      subst h_keep
      simp only
      have h_rest := ih setting1 result h_tail
      refine ⟨?_, ?_⟩
      · rw [h_rest.1]
        have h_iff : (∃ entry ∈ (key, value) :: rest,
            secret_entry_modifies klass setting1 entry.1 entry.2 = true)
            ↔ ∃ entry ∈ rest, secret_entry_modifies klass setting1 entry.1 entry.2 = true := by
          constructor
          · rintro ⟨entry, h_mem, h_entry⟩
            rcases List.mem_cons.mp h_mem with h_eq | h_in
            · subst h_eq
              exact absurd h_entry h_mod
            · exact ⟨entry, h_in, h_entry⟩
          · rintro ⟨entry, h_mem, h_entry⟩
            exact ⟨entry, List.mem_cons_of_mem _ h_mem, h_entry⟩
        simp only [h_iff]
      · intro h_none
        exact h_rest.2 (fun entry h => h_none entry (List.mem_cons_of_mem _ h))

/-- C33: modified or unchanged. For a secret map in which no entry fails,
`_nm_setting_update_secrets` returns the modified code if and only if some
entry names a secret-flagged property and is not a string equal to the string
that the property, being of string type, holds before the call; otherwise it
returns the unchanged code, and whenever it returns the unchanged code the
setting is exactly as before. -/
theorem update_secrets_modified_iff (klass : NMSettingClass) (setting : NMSetting)
    (secrets : GHashTable GValue)
    (h_ok : ∀ entry ∈ secrets, secret_entry_fails klass entry.1 entry.2 = false) :
    ((_nm_setting_update_secrets klass setting secrets).1
          = NM_SETTING_UPDATE_SECRET_SUCCESS_MODIFIED
        ↔ ∃ entry ∈ secrets, secret_entry_modifies klass setting entry.1 entry.2 = true)
      ∧ ((_nm_setting_update_secrets klass setting secrets).1
          ≠ NM_SETTING_UPDATE_SECRET_SUCCESS_MODIFIED →
        (_nm_setting_update_secrets klass setting secrets).1
          = NM_SETTING_UPDATE_SECRET_SUCCESS_UNCHANGED)
      ∧ ((_nm_setting_update_secrets klass setting secrets).1
          = NM_SETTING_UPDATE_SECRET_SUCCESS_UNCHANGED →
        (_nm_setting_update_secrets klass setting secrets).2.1 = setting) := by
  have h_loop := update_secrets_loop_modified_iff klass secrets setting
    NM_SETTING_UPDATE_SECRET_SUCCESS_UNCHANGED h_ok
  unfold _nm_setting_update_secrets
  by_cases h_ex : ∃ entry ∈ secrets,
      secret_entry_modifies klass setting entry.1 entry.2 = true
  · have h_code := h_loop.1
    simp only [h_ex, or_true, if_true] at h_code
    rw [h_code]
    simp [h_ex]
  · have h_code := h_loop.1
    simp only [h_ex, or_false, if_false] at h_code
    rw [h_code]
    refine ⟨by simp [h_ex], fun _ => rfl, fun _ => ?_⟩
    apply h_loop.2
    intro entry h_mem
    cases h_m : secret_entry_modifies klass setting entry.1 entry.2 with
    | false => rfl
    | true => exact absurd ⟨entry, h_mem, h_m⟩ h_ex

theorem update_secrets_modified_iff_witness :
    (∀ entry ∈ [("key-mgmt", GValue.string (some "wpa-psk")),
        ("psk", GValue.string (some "secret"))],
      secret_entry_fails example_class entry.1 entry.2 = false)
    ∧ _nm_setting_update_secrets example_class example_setting_plain
        [("key-mgmt", GValue.string (some "wpa-psk")), ("psk", GValue.string (some "secret"))]
      = (NM_SETTING_UPDATE_SECRET_SUCCESS_UNCHANGED, example_setting_plain, none)
    ∧ (_nm_setting_update_secrets example_class (g_object_new example_class)
        [("key-mgmt", GValue.string (some "wpa-psk")),
          ("psk", GValue.string (some "secret"))]).1
      = NM_SETTING_UPDATE_SECRET_SUCCESS_MODIFIED
    ∧ ((_nm_setting_update_secrets example_class example_setting_plain
          [("key-mgmt", GValue.string (some "wpa-psk")),
            ("psk", GValue.string (some "secret"))]).1
          = NM_SETTING_UPDATE_SECRET_SUCCESS_MODIFIED
        ↔ ∃ entry ∈ [("key-mgmt", GValue.string (some "wpa-psk")),
            ("psk", GValue.string (some "secret"))],
          secret_entry_modifies example_class example_setting_plain entry.1 entry.2 = true) :=
  ⟨by decide,
    Prod.ext rfl (Prod.ext
      ((update_secrets_modified_iff example_class example_setting_plain
        [("key-mgmt", GValue.string (some "wpa-psk")), ("psk", GValue.string (some "secret"))]
        (by decide)).2.2 (by decide)) rfl),
    by decide,
    (update_secrets_modified_iff example_class example_setting_plain
      [("key-mgmt", GValue.string (some "wpa-psk")), ("psk", GValue.string (some "secret"))]
      (by decide)).1⟩

/-! ## Comparison: symmetry and the exact comparison -/

/-- The loop of `nm_setting_compare` gives the same verdict for two pairs of
settings that compare alike property by property. -/
theorem compare_loop_congr (nm_property_compare : GValue → GValue → Int)
    (klass : NMSettingClass) (a b c d : NMSetting) (flags : Nat) :
    ∀ (property_specs : List GParamSpec),
      (∀ prop_spec ∈ property_specs,
        compare_property nm_property_compare klass a b prop_spec flags
          = compare_property nm_property_compare klass c d prop_spec flags) →
      compare_loop nm_property_compare klass a b flags property_specs
        = compare_loop nm_property_compare klass c d flags property_specs := by
  intro property_specs
  induction property_specs with
  | nil => intro _; rfl
  | cons head rest ih =>
    intro h_all
    have h_rest := ih (fun prop_spec h => h_all prop_spec (List.mem_cons_of_mem _ h))
    unfold compare_loop
    rw [h_all head (List.mem_cons_self _ _), h_rest]

/-- When the loop of `nm_setting_compare` ends with TRUE, every property it did
not skip compared equal. -/
theorem compare_loop_true_forall (nm_property_compare : GValue → GValue → Int)
    (klass : NMSettingClass) (a b : NMSetting) (flags : Nat)
    (property_specs : List GParamSpec)
    (h_loop : compare_loop nm_property_compare klass a b flags property_specs = true)
    (prop_spec : GParamSpec) (h_mem : prop_spec ∈ property_specs)
    (h_skip : compare_skips flags prop_spec = false) :
    compare_property nm_property_compare klass a b prop_spec flags = true := by
  cases h_prop : compare_property nm_property_compare klass a b prop_spec flags with
  | true => rfl
  | false =>
    rw [compare_loop_false_of_mem nm_property_compare klass a b flags prop_spec h_skip h_prop
      property_specs h_mem] at h_loop
    exact Bool.noConfusion h_loop

/-- A property that compares equal under the exact comparison compares equal
under every flags. -/
theorem compare_property_of_exact (nm_property_compare : GValue → GValue → Int)
    (klass : NMSettingClass) (a b : NMSetting) (prop_spec : GParamSpec) (flags : Nat)
    (h_exact : compare_property nm_property_compare klass a b prop_spec
      NM_SETTING_COMPARE_FLAG_EXACT = true) :
    compare_property nm_property_compare klass a b prop_spec flags = true := by
  revert h_exact
  unfold compare_property
  simp only [NM_SETTING_COMPARE_FLAG_EXACT, flag_set_zero, Bool.false_and, Bool.false_eq_true,
    if_false]
  by_cases h_secret : flag_set prop_spec.flags NM_SETTING_PARAM_SECRET = true
  · simp only [h_secret, if_true]
    by_cases h_flags : (secret_flags_or_none klass a prop_spec.name
        != secret_flags_or_none klass b prop_spec.name) = true
    · simp [h_flags]
    · have h_eq : (secret_flags_or_none klass a prop_spec.name
          != secret_flags_or_none klass b prop_spec.name) = false := by
        simpa using h_flags
      simp only [h_eq, Bool.false_eq_true, if_false]
      intro h_values
      rw [h_values]
      simp
  · simp only [h_secret, if_false, Bool.false_eq_true]
    exact fun h => h

/-- C39: symmetry of the comparison. With a value comparer whose verdict does
not depend on the order of its arguments, `nm_setting_compare (a, b, flags)`
and `nm_setting_compare (b, a, flags)` return the same value, for every two
settings and every flags. -/
theorem compare_symmetric (nm_property_compare : GValue → GValue → Int)
    (h_compare : ∀ value1 value2,
      nm_property_compare value1 value2 = 0 ↔ nm_property_compare value2 value1 = 0)
    (klass : NMSettingClass) (a b : NMSetting) (flags : Nat) :
    nm_setting_compare nm_property_compare klass a b flags
      = nm_setting_compare nm_property_compare klass b a flags := by
  unfold nm_setting_compare
  by_cases h_type : a.g_type = b.g_type
  · simp only [h_type, bne_self_eq_false, Bool.false_eq_true, if_false]
    exact compare_loop_congr nm_property_compare klass a b b a flags klass.property_specs
      (fun prop_spec _ =>
        compare_property_comm nm_property_compare h_compare klass a b prop_spec flags)
  · have h_ab : (a.g_type != b.g_type) = true := by simpa using h_type
    have h_ba : (b.g_type != a.g_type) = true := by
      simpa using fun h : b.g_type = a.g_type => h_type h.symm
    simp only [h_ab, h_ba, if_true]

theorem compare_symmetric_witness :
    (∀ value1 value2, example_compare value1 value2 = 0 ↔ example_compare value2 value1 = 0)
    ∧ nm_setting_compare example_compare example_class example_setting_agent_owned
        example_setting_plain NM_SETTING_COMPARE_FLAG_IGNORE_AGENT_OWNED_SECRETS = false
    ∧ nm_setting_compare example_compare example_class example_setting_plain
        example_setting_agent_owned NM_SETTING_COMPARE_FLAG_IGNORE_AGENT_OWNED_SECRETS = false
    ∧ nm_setting_compare example_compare example_class example_setting_agent_owned
        example_setting_plain NM_SETTING_COMPARE_FLAG_IGNORE_AGENT_OWNED_SECRETS
      = nm_setting_compare example_compare example_class example_setting_plain
        example_setting_agent_owned NM_SETTING_COMPARE_FLAG_IGNORE_AGENT_OWNED_SECRETS :=
  ⟨fun value1 value2 => by simp [example_compare, eq_comm], by decide, by decide,
    compare_symmetric example_compare
      (fun value1 value2 => by simp [example_compare, eq_comm]) example_class
      example_setting_agent_owned example_setting_plain
      NM_SETTING_COMPARE_FLAG_IGNORE_AGENT_OWNED_SECRETS⟩

/-- C40: the flags only weaken the comparison. If `nm_setting_compare` returns
TRUE for two settings under the exact comparison, it returns TRUE for them
under every flags. -/
theorem compare_exact_implies_flags (nm_property_compare : GValue → GValue → Int)
    (klass : NMSettingClass) (a b : NMSetting) (flags : Nat)
    (h_exact : nm_setting_compare nm_property_compare klass a b
      NM_SETTING_COMPARE_FLAG_EXACT = true) :
    nm_setting_compare nm_property_compare klass a b flags = true := by
  unfold nm_setting_compare at h_exact ⊢
  by_cases h_type : (a.g_type != b.g_type) = true
  · simp [h_type] at h_exact
  · simp only [h_type, if_false, Bool.false_eq_true] at h_exact ⊢
    apply compare_loop_true_of_forall
    intro prop_spec h_mem _
    apply compare_property_of_exact
    apply compare_loop_true_forall nm_property_compare klass a b _ klass.property_specs h_exact
      prop_spec h_mem
    simp [compare_skips, NM_SETTING_COMPARE_FLAG_EXACT, flag_set_zero]

theorem compare_exact_implies_flags_witness :
    nm_setting_compare example_compare example_class example_setting_agent_owned
        example_setting_agent_owned NM_SETTING_COMPARE_FLAG_EXACT = true
    ∧ nm_setting_compare example_compare example_class example_setting_agent_owned
        example_setting_agent_owned
        (NM_SETTING_COMPARE_FLAG_FUZZY ||| NM_SETTING_COMPARE_FLAG_IGNORE_NOT_SAVED_SECRETS)
      = true :=
  ⟨by decide,
    compare_exact_implies_flags example_compare example_class example_setting_agent_owned
      example_setting_agent_owned
      (NM_SETTING_COMPARE_FLAG_FUZZY ||| NM_SETTING_COMPARE_FLAG_IGNORE_NOT_SAVED_SECRETS)
      (by decide)⟩

/-! ## Diff: the recorded bits, and diff against compare -/

theorem diff_property_eq_record (nm_property_compare : GValue → GValue → Int)
    (nm_type_setting_connection : GType) (klass : NMSettingClass) (a b : NMSetting)
    (flags a_result b_result : Nat) (results : GHashTable Nat) (prop_spec : GParamSpec) :
    diff_property nm_property_compare nm_type_setting_connection klass a (some b) flags
        a_result b_result results prop_spec
      = diff_record results prop_spec.name
          (diff_entry nm_property_compare nm_type_setting_connection klass a b flags
            a_result b_result prop_spec) := by
  unfold diff_property diff_entry diff_record
  by_cases h_should : should_compare_prop nm_type_setting_connection klass a prop_spec.name
      flags prop_spec.flags = true
  · by_cases h_name : prop_spec.name = NM_SETTING_NAME
    · simp [h_should, h_name]
    · by_cases h_same : compare_property nm_property_compare klass a b prop_spec flags = true
      · simp [h_should, h_name, h_same]
      · have h_differs : compare_property nm_property_compare klass a b prop_spec flags
            = false := by simpa using h_same
        simp only [h_should, h_name, h_differs, Bool.not_true, Bool.false_eq_true, if_false,
          Bool.not_false, if_true, ne_eq, not_false_eq_true, decide_True, Bool.and_self,
          NM_SETTING_DIFF_RESULT_UNKNOWN]
        by_cases h_a : (!g_param_value_defaults prop_spec
            (g_object_get_property a prop_spec.name)) = true <;>
          by_cases h_b : (!g_param_value_defaults prop_spec
            (g_object_get_property b prop_spec.name)) = true <;>
          simp [h_a, h_b]
  · simp [h_should]

/-- A loop that records one entry per `GParamSpec`, over specs with pairwise
distinct names: the table ends up holding, under the name of each spec, what it
held before with the entry of that spec OR-ed in. -/
theorem diff_record_fold_lookup (entry : GParamSpec → Option Nat) :
    ∀ (property_specs : List GParamSpec) (table : GHashTable Nat),
      (property_specs.map (fun pspec => pspec.name)).Nodup →
      ∀ name,
        g_hash_table_lookup
            (property_specs.foldl
              (fun results prop_spec => diff_record results prop_spec.name (entry prop_spec))
              table) name
          = match property_specs.find? (fun pspec => pspec.name = name) with
            | some prop_spec =>
              (match entry prop_spec with
                | some r => some (((g_hash_table_lookup table name).getD 0) ||| r)
                | none => g_hash_table_lookup table name)
            | none => g_hash_table_lookup table name := by
  intro property_specs
  induction property_specs with
  | nil => intro table _ name; rfl
  | cons head rest ih =>
    intro table h_nodup name
    simp only [List.map_cons, List.nodup_cons, List.mem_map, not_exists, not_and] at h_nodup
    simp only [List.foldl_cons]
    rw [ih _ h_nodup.2 name]
    by_cases h_name : head.name = name
    · have h_rest : rest.find? (fun pspec => pspec.name = name) = none := by
        rw [List.find?_eq_none]
        intro pspec h_mem h_eq
        simp only [decide_eq_true_eq] at h_eq
        exact h_nodup.1 pspec h_mem (h_eq.trans h_name.symm)
      simp only [h_rest, List.find?_cons, h_name, decide_True]
      subst h_name
      cases entry head with
      | none => rfl
      | some r => simp [diff_record, g_hash_table_lookup_insert]
    · have h_other : g_hash_table_lookup (diff_record table head.name (entry head)) name
          = g_hash_table_lookup table name := by
        cases entry head with
        | none => rfl
        | some r => simp [diff_record, g_hash_table_lookup_insert, h_name]
      simp only [List.find?_cons, h_name, decide_False, h_other]

/-- The table `nm_setting_diff` leaves, read under the name of a `GParamSpec`. -/
theorem diff_lookup (nm_property_compare : GValue → GValue → Int)
    (nm_type_setting_connection : GType) (klass : NMSettingClass) (a b : NMSetting)
    (flags : Nat) (invert_results : Bool) (h_type : a.g_type = b.g_type)
    (h_nodup : (klass.property_specs.map (fun pspec => pspec.name)).Nodup)
    (prop_spec : GParamSpec) (h_mem : prop_spec ∈ klass.property_specs) :
    g_hash_table_lookup
        ((nm_setting_diff nm_property_compare nm_type_setting_connection klass a (some b)
          flags invert_results none).2.getD []) prop_spec.name
      = diff_entry nm_property_compare nm_type_setting_connection klass a b flags
          (if invert_results then NM_SETTING_DIFF_RESULT_IN_B else NM_SETTING_DIFF_RESULT_IN_A)
          (if invert_results then NM_SETTING_DIFF_RESULT_IN_A else NM_SETTING_DIFF_RESULT_IN_B)
          prop_spec := by
  have h_fold : ∀ (a_result b_result : Nat) (table : GHashTable Nat),
      klass.property_specs.foldl
          (diff_property nm_property_compare nm_type_setting_connection klass a (some b) flags
            a_result b_result) table
        = klass.property_specs.foldl
          (fun results prop_spec => diff_record results prop_spec.name
            (diff_entry nm_property_compare nm_type_setting_connection klass a b flags
              a_result b_result prop_spec)) table := by
    intro a_result b_result table
    apply foldl_congr_of_mem
    intro acc x _
    exact diff_property_eq_record _ _ _ _ _ _ _ _ _ _
  have h_find := g_object_class_find_property_of_mem klass h_nodup prop_spec h_mem
  unfold g_object_class_find_property at h_find
  have h_table : ∀ (table : GHashTable Nat),
      (if (true && table.isEmpty) = true then (none : Option (GHashTable Nat))
        else some table).getD [] = table := by
    intro table
    cases table with
    | nil => rfl
    | cons head rest => rfl
  unfold nm_setting_diff
  simp only [h_type, bne_self_eq_false, Bool.false_eq_true, if_false, Option.isNone_none,
    Option.getD_none]
  have h_snd : ∀ (table : GHashTable Nat),
      (if (true && table.isEmpty) = true then ((true, none) : Bool × Option (GHashTable Nat))
        else (false, some table)).2.getD [] = table := by
    intro table
    cases table with
    | nil => rfl
    | cons head rest => rfl
  rw [h_snd, h_fold, diff_record_fold_lookup _ _ _ h_nodup, h_find]
  simp only [g_hash_table_lookup, Option.getD_none, Nat.zero_or]
  cases diff_entry nm_property_compare nm_type_setting_connection klass a b flags
    (if invert_results then NM_SETTING_DIFF_RESULT_IN_B else NM_SETTING_DIFF_RESULT_IN_A)
    (if invert_results then NM_SETTING_DIFF_RESULT_IN_A else NM_SETTING_DIFF_RESULT_IN_B)
    prop_spec <;> rfl

/-- C37: the bits of the diff. For `a` and `b` of one type whose class has
pairwise distinct property names, `nm_setting_diff (a, b, flags, FALSE)`
started without a results table records an entry under the name of a property
if and only if the property survives the skip rules, is not "name" and
compares unequal under `compare_property`; the entry has the in-A bit set if
and only if the value of `a` is not the default, and the in-B bit set if and
only if the value of `b` is not the default. -/
theorem diff_bitmask (nm_property_compare : GValue → GValue → Int)
    (nm_type_setting_connection : GType) (klass : NMSettingClass) (a b : NMSetting)
    (flags : Nat) (h_type : a.g_type = b.g_type)
    (h_nodup : (klass.property_specs.map (fun pspec => pspec.name)).Nodup)
    (prop_spec : GParamSpec) (h_mem : prop_spec ∈ klass.property_specs) :
    ((g_hash_table_lookup
          ((nm_setting_diff nm_property_compare nm_type_setting_connection klass a (some b)
            flags false none).2.getD []) prop_spec.name).isSome = true
        ↔ should_compare_prop nm_type_setting_connection klass a prop_spec.name flags
            prop_spec.flags = true
          ∧ prop_spec.name ≠ NM_SETTING_NAME
          ∧ compare_property nm_property_compare klass a b prop_spec flags = false)
      ∧ ∀ bits,
        g_hash_table_lookup
            ((nm_setting_diff nm_property_compare nm_type_setting_connection klass a (some b)
              flags false none).2.getD []) prop_spec.name = some bits →
        (flag_set bits NM_SETTING_DIFF_RESULT_IN_A = true
            ↔ g_object_get_property a prop_spec.name ≠ prop_spec.default_value)
          ∧ (flag_set bits NM_SETTING_DIFF_RESULT_IN_B = true
            ↔ g_object_get_property b prop_spec.name ≠ prop_spec.default_value) := by
  rw [diff_lookup nm_property_compare nm_type_setting_connection klass a b flags false h_type
    h_nodup prop_spec h_mem]
  unfold diff_entry
  constructor
  · by_cases h_record : (should_compare_prop nm_type_setting_connection klass a prop_spec.name
        flags prop_spec.flags && decide (prop_spec.name ≠ NM_SETTING_NAME)
        && !compare_property nm_property_compare klass a b prop_spec flags) = true
    · simp only [h_record, if_true, Option.isSome_some, true_iff]
      simp only [Bool.and_eq_true, decide_eq_true_eq, Bool.not_eq_true'] at h_record
      exact ⟨h_record.1.1, h_record.1.2, h_record.2⟩
    · simp only [h_record, if_false, Option.isSome_none, Bool.false_eq_true, false_iff]
      intro h
      apply h_record
      simp [h.1, h.2.1, h.2.2]
  · intro bits h_bits
    split at h_bits
    · simp only [Option.some.injEq, Bool.false_eq_true, if_false] at h_bits
      subst h_bits
      simp only [g_param_value_defaults]
      by_cases h_a : g_object_get_property a prop_spec.name = prop_spec.default_value <;>
        by_cases h_b : g_object_get_property b prop_spec.name = prop_spec.default_value <;>
        simp [h_a, h_b, flag_set, NM_SETTING_DIFF_RESULT_IN_A, NM_SETTING_DIFF_RESULT_IN_B]
    · exact Option.noConfusion h_bits

theorem diff_bitmask_witness :
    example_setting_agent_owned.g_type = (g_object_new example_class).g_type
    ∧ (example_class.property_specs.map (fun pspec => pspec.name)).Nodup
    ∧ example_psk_spec ∈ example_class.property_specs
    ∧ nm_setting_diff example_compare 2000 example_class example_setting_agent_owned
        (some (g_object_new example_class)) NM_SETTING_COMPARE_FLAG_EXACT false none
      = (false, some [("psk", 1), ("psk-flags", 1)])
    ∧ ((g_hash_table_lookup
          ((nm_setting_diff example_compare 2000 example_class example_setting_agent_owned
            (some (g_object_new example_class)) NM_SETTING_COMPARE_FLAG_EXACT false
            none).2.getD []) example_psk_spec.name).isSome = true
        ↔ should_compare_prop 2000 example_class example_setting_agent_owned
            example_psk_spec.name NM_SETTING_COMPARE_FLAG_EXACT example_psk_spec.flags = true
          ∧ example_psk_spec.name ≠ NM_SETTING_NAME
          ∧ compare_property example_compare example_class example_setting_agent_owned
            (g_object_new example_class) example_psk_spec NM_SETTING_COMPARE_FLAG_EXACT
            = false) :=
  ⟨by decide, by decide, by decide, by decide,
    (diff_bitmask example_compare 2000 example_class example_setting_agent_owned
      (g_object_new example_class) NM_SETTING_COMPARE_FLAG_EXACT (by decide) (by decide)
      example_psk_spec (by decide)).1⟩

theorem is_secret_prop_of_secret (klass : NMSettingClass) (secret_name : String)
    (h_secret : names_secret_property klass secret_name = true) :
    is_secret_prop klass secret_name = .ok () := by
  revert h_secret
  unfold names_secret_property is_secret_prop
  cases nm_setting_class_find_property klass secret_name with
  | none => simp
  | some property =>
    intro h_secret
    simp only at h_secret
    simp [h_secret]

/-- C34 (as amended): the checks of the secret-flags accessors. For a flags
value not above `NM_SETTING_SECRET_FLAGS_ALL`: when the name is not in the
schema, `nm_setting_get_secret_flags` and `nm_setting_set_secret_flags` fail
with `PropertyNotFound`; when the name is in the schema without being
secret-flagged (a wire-only property among these), they fail with
`PropertyNotSecret`; a failed set leaves the setting as it is; for a
secret-flagged property both succeed. -/
theorem secret_flags_checks (klass : NMSettingClass) (setting : NMSetting)
    (secret_name : String) (flags : Nat) (h_flags : flags ≤ NM_SETTING_SECRET_FLAGS_ALL) :
    (nm_setting_class_find_property klass secret_name = none →
        nm_setting_get_secret_flags klass setting secret_name
            = .error { domain := NM_SETTING_ERROR, code := NM_SETTING_ERROR_PROPERTY_NOT_FOUND,
                       message := "Secret " ++ secret_name ++ " not provided by this setting" }
          ∧ nm_setting_set_secret_flags klass setting secret_name flags
            = (false, setting,
                some { domain := NM_SETTING_ERROR, code := NM_SETTING_ERROR_PROPERTY_NOT_FOUND,
                       message := "Secret " ++ secret_name
                         ++ " not provided by this setting" }))
      ∧ (∀ property, nm_setting_class_find_property klass secret_name = some property →
          prop_spec_is_secret property.param_spec = false →
          nm_setting_get_secret_flags klass setting secret_name
              = .error { domain := NM_SETTING_ERROR,
                         code := NM_SETTING_ERROR_PROPERTY_NOT_SECRET,
                         message := "Property " ++ secret_name ++ " is not a secret" }
            ∧ nm_setting_set_secret_flags klass setting secret_name flags
              = (false, setting,
                  some { domain := NM_SETTING_ERROR,
                         code := NM_SETTING_ERROR_PROPERTY_NOT_SECRET,
                         message := "Property " ++ secret_name ++ " is not a secret" }))
      ∧ (names_secret_property klass secret_name = true →
          nm_setting_get_secret_flags klass setting secret_name
              = .ok (g_object_get_flags klass setting (secret_name ++ "-flags")
                  NM_SETTING_SECRET_FLAG_NONE)
            ∧ nm_setting_set_secret_flags klass setting secret_name flags
              = (true, g_object_set_flags klass setting (secret_name ++ "-flags") flags,
                  none)) := by
  have h_le : decide (flags ≤ NM_SETTING_SECRET_FLAGS_ALL) = true := by simpa using h_flags
  refine ⟨?_, ?_, ?_⟩
  · intro h_find
    unfold nm_setting_get_secret_flags get_secret_flags nm_setting_set_secret_flags
      set_secret_flags is_secret_prop
    simp [h_find, h_le]
  · intro property h_find h_plain
    unfold nm_setting_get_secret_flags get_secret_flags nm_setting_set_secret_flags
      set_secret_flags is_secret_prop
    simp [h_find, h_plain, h_le]
  · intro h_secret
    have h_ok := is_secret_prop_of_secret klass secret_name h_secret
    unfold nm_setting_get_secret_flags get_secret_flags nm_setting_set_secret_flags
      set_secret_flags
    simp [h_ok, h_le]

theorem secret_flags_checks_witness :
    NM_SETTING_SECRET_FLAG_NOT_SAVED ≤ NM_SETTING_SECRET_FLAGS_ALL
    ∧ (nm_setting_get_secret_flags example_class example_setting_plain "psk" = .ok 0
      ∧ (nm_setting_set_secret_flags example_class example_setting_plain "psk"
          NM_SETTING_SECRET_FLAG_NOT_SAVED).1 = true
      ∧ nm_setting_get_secret_flags example_class
          (nm_setting_set_secret_flags example_class example_setting_plain "psk"
            NM_SETTING_SECRET_FLAG_NOT_SAVED).2.1 "psk" = .ok 2)
    ∧ (nm_setting_get_secret_flags example_get_class (g_object_new example_get_class)
          "legacy"
        = .error { domain := NM_SETTING_ERROR, code := NM_SETTING_ERROR_PROPERTY_NOT_SECRET,
                   message := "Property legacy is not a secret" })
    ∧ (nm_setting_get_secret_flags example_class example_setting_plain "nope"
          = .error { domain := NM_SETTING_ERROR, code := NM_SETTING_ERROR_PROPERTY_NOT_FOUND,
                     message := "Secret " ++ "nope" ++ " not provided by this setting" }
        ∧ nm_setting_set_secret_flags example_class example_setting_plain "nope"
            NM_SETTING_SECRET_FLAG_NOT_SAVED
          = (false, example_setting_plain,
              some { domain := NM_SETTING_ERROR, code := NM_SETTING_ERROR_PROPERTY_NOT_FOUND,
                     message := "Secret " ++ "nope" ++ " not provided by this setting" })) :=
  ⟨by decide, ⟨rfl, by decide, rfl⟩, rfl,
    (secret_flags_checks example_class example_setting_plain "nope"
      NM_SETTING_SECRET_FLAG_NOT_SAVED (by decide)).1 rfl⟩

/-- C34 (as stated) fails: with a flags value above
`NM_SETTING_SECRET_FLAGS_ALL`, `nm_setting_set_secret_flags` returns FALSE for
the secret-flagged "psk", and returns FALSE without any error for a name that
is not in the schema. -/
theorem set_secret_flags_above_all :
    names_secret_property example_class "psk" = true
    ∧ (nm_setting_set_secret_flags example_class example_setting_plain "psk" 8).1 = false
    ∧ nm_setting_class_find_property example_class "nope" = none
    ∧ (nm_setting_set_secret_flags example_class example_setting_plain "nope" 8).1 = false
    ∧ (nm_setting_set_secret_flags example_class example_setting_plain "nope" 8).2.2 = none := by
  refine ⟨by decide, by decide, rfl, by decide, by decide⟩

theorem foldl_append_singleton {α β : Type} (f : α → β) :
    ∀ (l : List α) (acc : List β),
      l.foldl (fun calls x => calls ++ [f x]) acc = acc ++ l.map f := by
  intro l
  induction l with
  | nil => intro acc; simp
  | cons head rest ih => intro acc; simp [ih]

/-- What the recording visitor holds after `nm_setting_enumerate_values`: one
record per `GParamSpec` of the class, in their order. -/
theorem enumerate_values_recorded (klass : NMSettingClass) (setting : NMSetting) :
    nm_setting_enumerate_values klass setting recording_visitor []
      = klass.property_specs.map (fun prop_spec =>
          (prop_spec.name, g_object_get_property setting prop_spec.name, prop_spec.flags)) := by
  unfold nm_setting_enumerate_values recording_visitor
  rw [foldl_append_singleton (fun prop_spec : GParamSpec =>
    (prop_spec.name, g_object_get_property setting prop_spec.name, prop_spec.flags))]
  simp

/-- The descriptors of the schema whose name is that of a `GParamSpec` of the
class carry, in order, the names of the `GParamSpec`s. -/
theorem schema_introspected_names (klass : NMSettingClass) :
    ((nm_setting_class_get_properties klass).filter (fun property =>
        (g_object_class_find_property klass property.name).isSome)).map
        (fun property => property.name)
      = klass.property_specs.map (fun prop_spec => prop_spec.name) := by
  unfold nm_setting_class_get_properties nm_setting_class_ensure_properties
  simp only [List.filter_append, List.map_append, List.filter_filter]
  have h_second : ∀ (overrides : List NMSettingProperty),
      overrides.filter (fun property =>
        (g_object_class_find_property klass property.name).isSome
          && (g_object_class_find_property klass property.name).isNone) = [] := by
    intro overrides
    rw [List.filter_eq_nil_iff]
    intro property _
    cases g_object_class_find_property klass property.name <;> simp
  rw [h_second, List.map_nil, List.append_nil]
  have h_first : ∀ (build : GParamSpec → NMSettingProperty),
      (∀ pspec, (build pspec).name = pspec.name) →
      ((klass.property_specs.map build).filter (fun property =>
          (g_object_class_find_property klass property.name).isSome)).map
          (fun property => property.name)
        = klass.property_specs.map (fun prop_spec => prop_spec.name) := by
    intro build h_build
    have h_all : (klass.property_specs.map build).filter (fun property =>
        (g_object_class_find_property klass property.name).isSome)
        = klass.property_specs.map build := by
      rw [List.filter_eq_self]
      intro property h_mem
      obtain ⟨pspec, h_pspec, h_eq⟩ := List.mem_map.mp h_mem
      have h_none := find_property_spec_isNone klass property.name
      cases h_find : g_object_class_find_property klass property.name with
      | some found => rfl
      | none =>
        rw [h_find] at h_none
        simp only [Option.isNone_none, Bool.true_eq, Bool.not_eq_true',
          List.any_eq_false, decide_eq_true_eq] at h_none
        exact absurd (by rw [← h_eq]; exact (h_build pspec).symm) (h_none pspec h_pspec)
    rw [h_all, List.map_map]
    apply List.map_congr_left
    intro pspec _
    exact h_build pspec
  apply h_first
  intro pspec
  cases h_find : find_property
    (klass.type_overrides.map (fun type_overrides => type_overrides.getD [])).flatten
    pspec.name with
  | none => rfl
  | some override => exact (find_property_some _ _ _ h_find).2

/-- C36 (as amended): `nm_setting_enumerate_values` calls the visitor exactly
once per `GParamSpec` of the class, in the order of
`g_object_class_list_properties`, with the name, the current value and the
flags of the property. These are, in schema order, the descriptors of the
schema that belong to a `GObject` property; the wire-only properties of the
schema are not visited. -/
theorem enumerate_values_calls (klass : NMSettingClass) (setting : NMSetting) :
    (∀ (σ : Type) (func : NMSettingValueIterFn σ) (user_data : σ),
        nm_setting_enumerate_values klass setting func user_data
          = (nm_setting_enumerate_values klass setting recording_visitor []).foldl
              (fun user_data call => func setting call.1 call.2.1 call.2.2 user_data)
              user_data)
      ∧ nm_setting_enumerate_values klass setting recording_visitor []
        = klass.property_specs.map (fun prop_spec =>
            (prop_spec.name, g_object_get_property setting prop_spec.name, prop_spec.flags))
      ∧ (nm_setting_enumerate_values klass setting recording_visitor []).map
          (fun call => call.1)
        = ((nm_setting_class_get_properties klass).filter (fun property =>
            (g_object_class_find_property klass property.name).isSome)).map
            (fun property => property.name) := by
  refine ⟨?_, enumerate_values_recorded klass setting, ?_⟩
  · intro σ func user_data
    rw [enumerate_values_recorded]
    unfold nm_setting_enumerate_values
    rw [List.foldl_map]
  · rw [enumerate_values_recorded, schema_introspected_names, List.map_map]
    rfl

/-- C36 (as stated) fails: the schema of `example_get_class` holds the
wire-only properties "legacy" and "ghost", and `nm_setting_enumerate_values`
calls the visitor for "name" and "mtu" only. -/
theorem enumerate_values_skips_wire_only :
    schema_names example_get_class = ["name", "mtu", "legacy", "ghost"]
    ∧ nm_setting_enumerate_values example_get_class (g_object_new example_get_class)
        recording_visitor []
      = [("name", GValue.string (some "example-get"), G_PARAM_READABLE),
          ("mtu", GValue.uint 0, G_PARAM_READABLE ||| G_PARAM_WRITABLE)] := by
  refine ⟨by decide, by decide⟩

/-! ## Clearing secrets by their flags -/

/-- One call of the class method `clear_secrets_with_flags` with a recording
user function: the call it records, the flag it returns and the setting it
leaves. -/
theorem clear_secrets_with_flags_step {σ : Type} (klass : NMSettingClass)
    (h_specs : (klass.property_specs.map (fun pspec => pspec.name)).Nodup)
    (setting : NMSetting) (pspec : GParamSpec) (h_mem : pspec ∈ klass.property_specs)
    (h_default : G_VALUE_TYPE pspec.default_value = pspec.value_type)
    (h_fixed : fixed_after_construction pspec = true →
      setting.values pspec.name = pspec.default_value)
    (func : NMSettingClearSecretsWithFlagsFn σ)
    (user_data : σ × List (String × Nat × Bool)) :
    (clear_secrets_with_flags klass setting pspec (recording_func func) user_data).2.2
        = ((func setting pspec.name (secret_flags_or_none klass setting pspec.name)
              user_data.1).2,
            user_data.2 ++ [(pspec.name, secret_flags_or_none klass setting pspec.name,
              (func setting pspec.name (secret_flags_or_none klass setting pspec.name)
                user_data.1).1)])
      ∧ (clear_secrets_with_flags klass setting pspec (recording_func func) user_data).1
        = ((func setting pspec.name (secret_flags_or_none klass setting pspec.name)
              user_data.1).1
            && decide (setting.values pspec.name ≠ pspec.default_value))
      ∧ (clear_secrets_with_flags klass setting pspec (recording_func func)
          user_data).2.1.values pspec.name
        = (if (func setting pspec.name (secret_flags_or_none klass setting pspec.name)
              user_data.1).1 = true then pspec.default_value
            else setting.values pspec.name)
      ∧ (∀ name, name ≠ pspec.name →
          (clear_secrets_with_flags klass setting pspec (recording_func func)
            user_data).2.1.values name = setting.values name)
      ∧ (clear_secrets_with_flags klass setting pspec (recording_func func)
          user_data).2.1.g_type = setting.g_type := by
  unfold clear_secrets_with_flags recording_func
  simp only [g_object_get_property, g_param_value_defaults, g_param_value_set_default]
  cases h_answer : (func setting pspec.name (secret_flags_or_none klass setting pspec.name)
      user_data.1).1 with
  | false => simp
  | true =>
    by_cases h_value : setting.values pspec.name = pspec.default_value
    · simp [h_value]
    · have h_assignable : fixed_after_construction pspec = false := by
        cases h_f : fixed_after_construction pspec with
        | false => rfl
        | true => exact absurd (h_fixed h_f) h_value
      have h_stored := g_object_set_property_stores klass h_specs setting pspec
        pspec.default_value h_mem h_assignable h_default
      simp only [h_value, decide_False, Bool.not_false, if_true, ne_eq, not_false_eq_true,
        decide_True, Bool.and_self, true_and, h_stored]
      exact ⟨fun name h_other =>
          g_object_set_property_other klass setting pspec.name _ name h_other,
        g_object_set_property_g_type klass setting pspec.name _⟩

/-- The loop of `_nm_setting_clear_secrets_with_flags` with a recording user
function, over `GParamSpec`s of the class with pairwise distinct names: the
calls it adds to the record, one per secret in order, each with the flags the
setting stores for the secret; the value each secret ends with; the properties
it leaves alone; and the flag it returns. -/
theorem clear_secrets_with_flags_loop_spec {σ : Type} (klass : NMSettingClass)
    (h_specs : (klass.property_specs.map (fun pspec => pspec.name)).Nodup)
    (h_defaults : ∀ pspec ∈ klass.property_specs,
      G_VALUE_TYPE pspec.default_value = pspec.value_type)
    (h_flags_plain : ∀ secret ∈ klass.property_specs,
      flag_set secret.flags NM_SETTING_PARAM_SECRET = true →
      ∀ other ∈ klass.property_specs,
        flag_set other.flags NM_SETTING_PARAM_SECRET = true →
        other.name ≠ secret.name ++ "-flags")
    (func : NMSettingClearSecretsWithFlagsFn σ) :
    ∀ (property_specs : List GParamSpec) (setting : NMSetting) (changed : Bool)
      (user_data : σ) (calls : List (String × Nat × Bool)),
      (property_specs.map (fun pspec => pspec.name)).Nodup →
      (∀ pspec ∈ property_specs, pspec ∈ klass.property_specs) →
      (∀ pspec ∈ property_specs, flag_set pspec.flags NM_SETTING_PARAM_SECRET = true →
        fixed_after_construction pspec = true →
        setting.values pspec.name = pspec.default_value) →
      ∃ new_calls : List (String × Nat × Bool),
        (clear_secrets_with_flags_loop klass (recording_func func) property_specs setting
            changed (user_data, calls)).2.2.2 = calls ++ new_calls
          ∧ new_calls.map (fun call => call.1)
            = (property_specs.filter (fun pspec =>
                flag_set pspec.flags NM_SETTING_PARAM_SECRET)).map (fun pspec => pspec.name)
          ∧ (∀ call ∈ new_calls, call.2.1 = secret_flags_or_none klass setting call.1)
          ∧ (∀ pspec ∈ property_specs,
              flag_set pspec.flags NM_SETTING_PARAM_SECRET = true →
              ∀ call ∈ new_calls, call.1 = pspec.name →
                (clear_secrets_with_flags_loop klass (recording_func func) property_specs
                  setting changed (user_data, calls)).2.1.values pspec.name
                  = if call.2.2 = true then pspec.default_value
                    else setting.values pspec.name)
          ∧ (∀ name,
              (∀ pspec ∈ property_specs,
                flag_set pspec.flags NM_SETTING_PARAM_SECRET = true → pspec.name ≠ name) →
              (clear_secrets_with_flags_loop klass (recording_func func) property_specs
                setting changed (user_data, calls)).2.1.values name = setting.values name)
          ∧ (clear_secrets_with_flags_loop klass (recording_func func) property_specs
              setting changed (user_data, calls)).2.1.g_type = setting.g_type
          ∧ ((clear_secrets_with_flags_loop klass (recording_func func) property_specs
                setting changed (user_data, calls)).1 = true
              ↔ changed = true
                ∨ ∃ pspec ∈ property_specs,
                    flag_set pspec.flags NM_SETTING_PARAM_SECRET = true
                      ∧ ∃ call ∈ new_calls, call.1 = pspec.name ∧ call.2.2 = true
                        ∧ setting.values pspec.name ≠ pspec.default_value) := by
  intro property_specs
  induction property_specs with
  | nil =>
    intro setting changed user_data calls _ _ _
    refine ⟨[], ?_, rfl, ?_, ?_, ?_, rfl, ?_⟩
    · simp [clear_secrets_with_flags_loop]
    · intro call h; simp at h
    · intro pspec h; simp at h
    · intro name _; rfl
    · simp [clear_secrets_with_flags_loop]
  | cons head rest ih =>
    intro setting changed user_data calls h_nodup h_sub h_fixed
    simp only [List.map_cons, List.nodup_cons, List.mem_map, not_exists, not_and] at h_nodup
    have h_names : ∀ other ∈ rest, other.name ≠ head.name :=
      fun other h h_eq => h_nodup.1 other h h_eq
    have h_sub_rest : ∀ pspec ∈ rest, pspec ∈ klass.property_specs :=
      fun pspec h => h_sub pspec (List.mem_cons_of_mem _ h)
    have h_head_mem := h_sub head (List.mem_cons_self _ _)
    by_cases h_secret : flag_set head.flags NM_SETTING_PARAM_SECRET = true
    · obtain ⟨h_data, h_changed, h_value, h_frame, h_type⟩ :=
        clear_secrets_with_flags_step klass h_specs setting head h_head_mem
          (h_defaults head h_head_mem)
          (h_fixed head (List.mem_cons_self _ _) h_secret) func (user_data, calls)
      have h_loop : clear_secrets_with_flags_loop klass (recording_func func) (head :: rest)
          setting changed (user_data, calls)
          = clear_secrets_with_flags_loop klass (recording_func func) rest
            (clear_secrets_with_flags klass setting head (recording_func func)
              (user_data, calls)).2.1
            (changed || (clear_secrets_with_flags klass setting head (recording_func func)
              (user_data, calls)).1)
            (clear_secrets_with_flags klass setting head (recording_func func)
              (user_data, calls)).2.2 := by
        rw [clear_secrets_with_flags_loop]
        simp only [h_secret, if_true]
      rw [h_loop, h_data]
      generalize (clear_secrets_with_flags klass setting head (recording_func func)
        (user_data, calls)).2.1 = setting1 at h_value h_frame h_type
      generalize (clear_secrets_with_flags klass setting head (recording_func func)
        (user_data, calls)).1 = step_changed at h_changed
      simp only at h_changed h_value
      generalize h_answer : func setting head.name
        (secret_flags_or_none klass setting head.name) user_data = answer
        at h_changed h_value
      have h_fixed1 : ∀ pspec ∈ rest, flag_set pspec.flags NM_SETTING_PARAM_SECRET = true →
          fixed_after_construction pspec = true →
          setting1.values pspec.name = pspec.default_value := by
        intro pspec h_in h_s h_f
        rw [h_frame pspec.name (h_names pspec h_in)]
        exact h_fixed pspec (List.mem_cons_of_mem _ h_in) h_s h_f
      obtain ⟨new_calls, h_calls, h_map, h_call_flags, h_values, h_rest_frame, h_rest_type,
        h_rest_changed⟩ := ih setting1 (changed || step_changed) answer.2
          (calls ++ [(head.name, secret_flags_or_none klass setting head.name, answer.1)])
          h_nodup.2 h_sub_rest h_fixed1
      have h_call_names : ∀ call ∈ new_calls, ∃ pspec ∈ rest,
          flag_set pspec.flags NM_SETTING_PARAM_SECRET = true ∧ pspec.name = call.1 := by
        intro call h_call
        have h_in : call.1 ∈ new_calls.map (fun call => call.1) :=
          List.mem_map.mpr ⟨call, h_call, rfl⟩
        rw [h_map] at h_in
        obtain ⟨pspec, h_pspec, h_eq⟩ := List.mem_map.mp h_in
        have h_filter := List.mem_filter.mp h_pspec
        exact ⟨pspec, h_filter.1, h_filter.2, h_eq⟩
      have h_not_head : ∀ call ∈ new_calls, call.1 ≠ head.name := by
        intro call h_call h_eq
        obtain ⟨pspec, h_pspec, _, h_name⟩ := h_call_names call h_call
        exact h_names pspec h_pspec (h_name.trans h_eq)
      refine ⟨(head.name, secret_flags_or_none klass setting head.name, answer.1) :: new_calls,
        ?_, ?_, ?_, ?_, ?_, ?_, ?_⟩
      · rw [h_calls, List.append_assoc]
        rfl
      · simp only [List.map_cons, List.filter_cons, h_secret, if_true, h_map]
      · intro call h_call
        rcases List.mem_cons.mp h_call with h_eq | h_in
        · rw [h_eq]
        · rw [h_call_flags call h_in]
          obtain ⟨pspec, h_pspec, h_pspec_secret, h_name⟩ := h_call_names call h_in
          rw [← h_name]
          apply secret_flags_or_none_of_flags_eq
          intro flags_spec h_flags_spec h_flags_name
          apply h_frame
          intro h_is_head
          by_cases h_flags_secret : flag_set flags_spec.flags NM_SETTING_PARAM_SECRET = true
          · exact h_flags_plain pspec (h_sub_rest pspec h_pspec) h_pspec_secret flags_spec
              h_flags_spec h_flags_secret h_flags_name
          · have h_same := List.inj_on_of_nodup_map h_specs h_flags_spec h_head_mem h_is_head
            rw [h_same] at h_flags_secret
            exact h_flags_secret h_secret
      · intro pspec h_pspec h_pspec_secret call h_call h_name
        rcases List.mem_cons.mp h_call with h_eq | h_in
        · subst h_eq
          simp only at h_name
          rcases List.mem_cons.mp h_pspec with h_is_head | h_in_rest
          · subst h_is_head
            rw [h_rest_frame pspec.name (fun other h_other _ => h_names other h_other)]
            exact h_value
          · exact absurd h_name.symm (h_names pspec h_in_rest)
        · rcases List.mem_cons.mp h_pspec with h_is_head | h_in_rest
          · subst h_is_head
            exact absurd h_name (h_not_head call h_in)
          · rw [h_values pspec h_in_rest h_pspec_secret call h_in h_name,
              h_frame pspec.name (h_names pspec h_in_rest)]
      · intro name h_other
        rw [h_rest_frame name
          (fun pspec h_pspec => h_other pspec (List.mem_cons_of_mem _ h_pspec))]
        exact h_frame name
          (fun h_eq => h_other head (List.mem_cons_self _ _) h_secret h_eq.symm)
      · rw [h_rest_type, h_type]
      · rw [h_rest_changed, h_changed]
        constructor
        · rintro (h_or | ⟨pspec, h_pspec, h_pspec_secret, call, h_call, h_name, h_answer_true,
            h_nondefault⟩)
          · simp only [Bool.or_eq_true, Bool.and_eq_true, decide_eq_true_eq] at h_or
            rcases h_or with h_before | ⟨h_yes, h_nondefault⟩
            · exact Or.inl h_before
            · exact Or.inr ⟨head, List.mem_cons_self _ _, h_secret, _,
                List.mem_cons_self _ _, rfl, h_yes, h_nondefault⟩
          · refine Or.inr ⟨pspec, List.mem_cons_of_mem _ h_pspec, h_pspec_secret, call,
              List.mem_cons_of_mem _ h_call, h_name, h_answer_true, ?_⟩
            rw [← h_frame pspec.name (h_names pspec h_pspec)]
            exact h_nondefault
        · rintro (h_before | ⟨pspec, h_pspec, h_pspec_secret, call, h_call, h_name,
            h_answer_true, h_nondefault⟩)
          · left
            simp [h_before]
          · rcases List.mem_cons.mp h_call with h_eq | h_in
            · subst h_eq
              simp only at h_name h_answer_true
              rcases List.mem_cons.mp h_pspec with h_is_head | h_in_rest
              · subst h_is_head
                left
                simp [h_answer_true, h_nondefault]
              · exact absurd h_name.symm (h_names pspec h_in_rest)
            · rcases List.mem_cons.mp h_pspec with h_is_head | h_in_rest
              · subst h_is_head
                exact absurd h_name (h_not_head call h_in)
              · refine Or.inr ⟨pspec, h_in_rest, h_pspec_secret, call, h_in, h_name,
                  h_answer_true, ?_⟩
                rw [h_frame pspec.name (h_names pspec h_in_rest)]
                exact h_nondefault
    · have h_loop : clear_secrets_with_flags_loop klass (recording_func func) (head :: rest)
          setting changed (user_data, calls)
          = clear_secrets_with_flags_loop klass (recording_func func) rest setting changed
            (user_data, calls) := by
        rw [clear_secrets_with_flags_loop]
        simp only [h_secret, if_false, Bool.false_eq_true]
      rw [h_loop]
      obtain ⟨new_calls, h_calls, h_map, h_call_flags, h_values, h_rest_frame, h_rest_type,
        h_rest_changed⟩ := ih setting changed user_data calls h_nodup.2 h_sub_rest
          (fun pspec h_in => h_fixed pspec (List.mem_cons_of_mem _ h_in))
      refine ⟨new_calls, h_calls, ?_, h_call_flags, ?_, ?_, h_rest_type, ?_⟩
      · simp only [List.filter_cons, h_secret, if_false, Bool.false_eq_true, h_map]
      · intro pspec h_pspec h_pspec_secret call h_call h_name
        rcases List.mem_cons.mp h_pspec with h_is_head | h_in_rest
        · subst h_is_head
          exact absurd h_pspec_secret h_secret
        · exact h_values pspec h_in_rest h_pspec_secret call h_call h_name
      · intro name h_other
        exact h_rest_frame name
          (fun pspec h_pspec => h_other pspec (List.mem_cons_of_mem _ h_pspec))
      · rw [h_rest_changed]
        constructor
        · rintro (h_before | ⟨pspec, h_pspec, h_rest⟩)
          · exact Or.inl h_before
          · exact Or.inr ⟨pspec, List.mem_cons_of_mem _ h_pspec, h_rest⟩
        · rintro (h_before | ⟨pspec, h_pspec, h_pspec_secret, h_rest⟩)
          · exact Or.inl h_before
          · rcases List.mem_cons.mp h_pspec with h_is_head | h_in_rest
            · subst h_is_head
              exact absurd h_pspec_secret h_secret
            · exact Or.inr ⟨pspec, h_in_rest, h_pspec_secret, h_rest⟩

/-- Recording the calls changes neither the flag returned, nor the setting, nor
the user data of the user function. -/
theorem clear_secrets_with_flags_loop_recording {σ : Type} (klass : NMSettingClass)
    (func : NMSettingClearSecretsWithFlagsFn σ) :
    ∀ (property_specs : List GParamSpec) (setting : NMSetting) (changed : Bool)
      (user_data : σ) (calls : List (String × Nat × Bool)),
      clear_secrets_with_flags_loop klass func property_specs setting changed user_data
        = ((clear_secrets_with_flags_loop klass (recording_func func) property_specs setting
              changed (user_data, calls)).1,
            (clear_secrets_with_flags_loop klass (recording_func func) property_specs setting
              changed (user_data, calls)).2.1,
            (clear_secrets_with_flags_loop klass (recording_func func) property_specs setting
              changed (user_data, calls)).2.2.1) := by
  intro property_specs
  induction property_specs with
  | nil => intro setting changed user_data calls; rfl
  | cons head rest ih =>
    intro setting changed user_data calls
    have h_step : clear_secrets_with_flags klass setting head func user_data
        = ((clear_secrets_with_flags klass setting head (recording_func func)
              (user_data, calls)).1,
            (clear_secrets_with_flags klass setting head (recording_func func)
              (user_data, calls)).2.1,
            (clear_secrets_with_flags klass setting head (recording_func func)
              (user_data, calls)).2.2.1) := by
      unfold clear_secrets_with_flags recording_func
      simp only
      split
      · split <;> rfl
      · rfl
    rw [clear_secrets_with_flags_loop, clear_secrets_with_flags_loop]
    split
    · rw [h_step]
      exact ih _ _ _ _
    · exact ih _ _ _ _

/-- C31 (as amended): clearing secrets by their flags. In a class with pairwise
distinct property names and defaults of the declared types, in which no secret
is the flags property of a secret, and for a setting in which every secret that
cannot be assigned after construction (not writable, or construct-only) holds
its default: `_nm_setting_clear_secrets_with_flags` calls the
user function exactly once for each secret-flagged property, in order, and for
no other property, each time with the name of the secret and the flags the
setting stores for it; afterwards a secret holds its default if the user
function answered TRUE for it and the value it held otherwise; the
properties that are not secrets hold the values they held; and the call
returns TRUE if and only if the user function answered TRUE for a secret that
did not hold its default. Recording the calls does not change what the call
returns or does. -/
theorem clear_secrets_with_flags_spec {σ : Type} (klass : NMSettingClass)
    (setting : NMSetting) (func : NMSettingClearSecretsWithFlagsFn σ) (user_data : σ)
    (h_specs : (klass.property_specs.map (fun pspec => pspec.name)).Nodup)
    (h_defaults : ∀ pspec ∈ klass.property_specs,
      G_VALUE_TYPE pspec.default_value = pspec.value_type)
    (h_flags_plain : ∀ secret ∈ klass.property_specs,
      flag_set secret.flags NM_SETTING_PARAM_SECRET = true →
      ∀ other ∈ klass.property_specs,
        flag_set other.flags NM_SETTING_PARAM_SECRET = true →
        other.name ≠ secret.name ++ "-flags")
    (h_fixed : ∀ pspec ∈ klass.property_specs,
      flag_set pspec.flags NM_SETTING_PARAM_SECRET = true →
      fixed_after_construction pspec = true →
      setting.values pspec.name = pspec.default_value) :
    (_nm_setting_clear_secrets_with_flags klass setting (recording_func func)
          (user_data, [])).2.2.2.map (fun call => call.1)
        = (klass.property_specs.filter (fun pspec =>
            flag_set pspec.flags NM_SETTING_PARAM_SECRET)).map (fun pspec => pspec.name)
      ∧ (∀ call ∈ (_nm_setting_clear_secrets_with_flags klass setting (recording_func func)
            (user_data, [])).2.2.2,
          call.2.1 = secret_flags_or_none klass setting call.1)
      ∧ (∀ pspec ∈ klass.property_specs,
          flag_set pspec.flags NM_SETTING_PARAM_SECRET = true →
          ∀ call ∈ (_nm_setting_clear_secrets_with_flags klass setting (recording_func func)
              (user_data, [])).2.2.2,
            call.1 = pspec.name →
            (_nm_setting_clear_secrets_with_flags klass setting (recording_func func)
              (user_data, [])).2.1.values pspec.name
              = if call.2.2 = true then pspec.default_value else setting.values pspec.name)
      ∧ (∀ pspec ∈ klass.property_specs,
          flag_set pspec.flags NM_SETTING_PARAM_SECRET = false →
          (_nm_setting_clear_secrets_with_flags klass setting (recording_func func)
            (user_data, [])).2.1.values pspec.name = setting.values pspec.name)
      ∧ ((_nm_setting_clear_secrets_with_flags klass setting (recording_func func)
            (user_data, [])).1 = true
          ↔ ∃ pspec ∈ klass.property_specs,
              flag_set pspec.flags NM_SETTING_PARAM_SECRET = true
                ∧ ∃ call ∈ (_nm_setting_clear_secrets_with_flags klass setting
                    (recording_func func) (user_data, [])).2.2.2,
                  call.1 = pspec.name ∧ call.2.2 = true
                    ∧ setting.values pspec.name ≠ pspec.default_value)
      ∧ _nm_setting_clear_secrets_with_flags klass setting func user_data
        = ((_nm_setting_clear_secrets_with_flags klass setting (recording_func func)
              (user_data, [])).1,
            (_nm_setting_clear_secrets_with_flags klass setting (recording_func func)
              (user_data, [])).2.1,
            (_nm_setting_clear_secrets_with_flags klass setting (recording_func func)
              (user_data, [])).2.2.1) := by
  obtain ⟨new_calls, h_calls, h_map, h_call_flags, h_values, h_frame, _, h_changed⟩ :=
    clear_secrets_with_flags_loop_spec klass h_specs h_defaults h_flags_plain func
      klass.property_specs setting false user_data [] h_specs (fun _ h => h) h_fixed
  unfold _nm_setting_clear_secrets_with_flags
  rw [List.nil_append] at h_calls
  rw [h_calls]
  refine ⟨h_map, h_call_flags, h_values, ?_, ?_, ?_⟩
  · intro pspec h_mem h_plain
    apply h_frame
    intro other h_other h_other_secret h_name
    have h_same := List.inj_on_of_nodup_map h_specs h_other h_mem h_name
    rw [h_same, h_plain] at h_other_secret
    exact Bool.noConfusion h_other_secret
  · rw [h_changed]
    simp
  · exact clear_secrets_with_flags_loop_recording klass func klass.property_specs setting
      false user_data []

/-- Witness for C31: on `example_setting_two_secrets` the user function is
asked about "psk" and "pin" and answers TRUE for "psk" only, which is reset
while "pin" keeps its value. -/
theorem clear_secrets_with_flags_spec_witness :
    (example_class.property_specs.map (fun pspec => pspec.name)).Nodup
    ∧ (_nm_setting_clear_secrets_with_flags example_class example_setting_two_secrets
        (recording_func example_clear_not_saved) ((), [])).2.2.2
      = [("psk", 2, true), ("pin", 0, false)]
    ∧ (_nm_setting_clear_secrets_with_flags example_class example_setting_two_secrets
        example_clear_not_saved ()).1 = true
    ∧ (_nm_setting_clear_secrets_with_flags example_class example_setting_two_secrets
        example_clear_not_saved ()).2.1.values "psk" = GValue.string none
    ∧ (_nm_setting_clear_secrets_with_flags example_class example_setting_two_secrets
        example_clear_not_saved ()).2.1.values "pin" = GValue.string (some "1234")
    ∧ (_nm_setting_clear_secrets_with_flags example_class example_setting_two_secrets
        (recording_func example_clear_not_saved) ((), [])).2.2.2.map (fun call => call.1)
      = (example_class.property_specs.filter (fun pspec =>
          flag_set pspec.flags NM_SETTING_PARAM_SECRET)).map (fun pspec => pspec.name) :=
  ⟨by decide, by decide, by decide, by decide, by decide,
    (clear_secrets_with_flags_spec example_class example_setting_two_secrets
      example_clear_not_saved () (by decide) (by decide) (by decide) (by decide)).1⟩

/-! ## Updating secrets: no rollback -/

/-- What `update_one_secret` leaves of the setting for an entry that does not
fail: the setting with the entry applied. -/
theorem update_one_secret_eq_reference (klass : NMSettingClass)
    (h_specs : (klass.property_specs.map (fun pspec => pspec.name)).Nodup)
    (h_wf : ∀ property ∈ nm_setting_class_get_properties klass,
      descriptor_well_formed klass property = true)
    (setting : NMSetting) (key : String) (value : GValue)
    (h_ok : secret_entry_fails klass key value = false) :
    (update_one_secret klass setting key value).2.1
      = apply_secret_reference klass setting key value := by
  revert h_ok
  unfold update_one_secret secret_entry_fails apply_secret_reference
  cases h_find : nm_setting_class_find_property klass key with
  | none => simp
  | some property =>
    have h_in : property ∈ nm_setting_class_get_properties klass :=
      (find_property_some _ _ _ h_find).1
    have h_desc := h_wf property h_in
    unfold descriptor_well_formed at h_desc
    cases h_spec : property.param_spec with
    | none => intro _; simp only [h_spec]
    | some prop_spec =>
      rw [h_spec] at h_desc
      simp only [Bool.and_eq_true, decide_eq_true_eq] at h_desc
      have h_class_spec := g_object_class_find_property_of_mem klass h_specs prop_spec h_desc.1
      intro h_ok
      simp only [h_spec] at h_ok ⊢
      by_cases h_secret : flag_set prop_spec.flags NM_SETTING_PARAM_SECRET = true
      · have h_compatible : g_value_type_compatible (G_VALUE_TYPE value) prop_spec.value_type
            = true := by
          simpa [h_secret] using h_ok
        simp only [h_secret, h_compatible, Bool.not_true, Bool.false_eq_true, if_false,
          if_true, Bool.true_and, g_object_get_property]
        by_cases h_same : G_VALUE_TYPE value = G_TYPE_STRING
            ∧ prop_spec.value_type = G_TYPE_STRING
            ∧ g_value_get_string (setting.values prop_spec.name) = g_value_get_string value
        · simp [h_same]
        · simp only [h_same, if_false, decide_False, Bool.not_false, Bool.true_and]
          unfold g_object_set_property fixed_after_construction
          rw [h_class_spec]
          simp only [h_compatible, Bool.not_true, Bool.false_eq_true, if_false]
          by_cases h_writable : flag_set prop_spec.flags G_PARAM_WRITABLE = true
          · by_cases h_construct : flag_set prop_spec.flags G_PARAM_CONSTRUCT_ONLY = true
            · simp [h_writable, h_construct]
            · simp [h_writable, h_construct]
          · simp [h_writable]
      · simp [h_secret]

/-- The loop of `_nm_setting_update_secrets` over entries that do not fail
leaves the setting with the entries applied one after the other. -/
theorem update_secrets_loop_eq_reference (klass : NMSettingClass)
    (h_specs : (klass.property_specs.map (fun pspec => pspec.name)).Nodup)
    (h_wf : ∀ property ∈ nm_setting_class_get_properties klass,
      descriptor_well_formed klass property = true) :
    ∀ (secrets : GHashTable GValue) (setting : NMSetting)
      (result : NMSettingUpdateSecretResult),
      (∀ entry ∈ secrets, secret_entry_fails klass entry.1 entry.2 = false) →
      (update_secrets_loop klass secrets setting result).2.1
        = apply_secrets_reference klass secrets setting := by
  intro secrets
  induction secrets with
  | nil => intro setting result _; rfl
  | cons entry rest ih =>
    intro setting result h_ok
    obtain ⟨key, value⟩ := entry
    have h_head := h_ok (key, value) (List.mem_cons_self _ _)
    have h_tail : ∀ entry ∈ rest, secret_entry_fails klass entry.1 entry.2 = false :=
      fun entry h => h_ok entry (List.mem_cons_of_mem _ h)
    have h_step := update_one_secret_eq_reference klass h_specs h_wf setting key value h_head
    have h_code : (update_one_secret klass setting key value).1
        ≠ NM_SETTING_UPDATE_SECRET_ERROR := by
      rw [Ne, update_one_secret_error_iff, h_head]; simp
    simp only [update_secrets_loop, apply_secrets_reference, List.foldl_cons]
    rcases h_one : update_one_secret klass setting key value with ⟨code, setting1, error⟩
    rw [h_one] at h_step h_code
    simp only at h_step h_code
    rw [← h_step]
    cases code with
    | NM_SETTING_UPDATE_SECRET_ERROR => exact absurd rfl h_code
    | NM_SETTING_UPDATE_SECRET_SUCCESS_MODIFIED => exact ih setting1 _ h_tail
    | NM_SETTING_UPDATE_SECRET_SUCCESS_UNCHANGED => exact ih setting1 _ h_tail

/-- C3: no rollback. In a class with pairwise distinct property names whose
descriptors point at the properties of the class: when the entries processed
before `(key, value)` do not fail and `(key, value)` fails, the call returns the
error of that entry (`PropertyNotFound` for an unknown name,
`PropertyTypeMismatch` otherwise, with the key as its message), the setting is
the one passed in with the earlier entries applied, each assigned value stored
under the name of its secret, and the entries after it play no part. -/
theorem update_secrets_no_rollback (klass : NMSettingClass) (setting : NMSetting)
    (before after : GHashTable GValue) (key : String) (value : GValue)
    (h_specs : (klass.property_specs.map (fun pspec => pspec.name)).Nodup)
    (h_wf : ∀ property ∈ nm_setting_class_get_properties klass,
      descriptor_well_formed klass property = true)
    (h_before : ∀ entry ∈ before, secret_entry_fails klass entry.1 entry.2 = false)
    (h_fails : secret_entry_fails klass key value = true) :
    _nm_setting_update_secrets klass setting (before ++ (key, value) :: after)
      = (NM_SETTING_UPDATE_SECRET_ERROR,
          apply_secrets_reference klass before setting,
          some { domain := NM_SETTING_ERROR,
                 code := if (nm_setting_class_find_property klass key).isNone
                   then NM_SETTING_ERROR_PROPERTY_NOT_FOUND
                   else NM_SETTING_ERROR_PROPERTY_TYPE_MISMATCH,
                 message := key }) := by
  have h_error : ∀ applied, (update_one_secret klass applied key value).2.2
      = some { domain := NM_SETTING_ERROR,
               code := if (nm_setting_class_find_property klass key).isNone
                 then NM_SETTING_ERROR_PROPERTY_NOT_FOUND
                 else NM_SETTING_ERROR_PROPERTY_TYPE_MISMATCH,
               message := key } := by
    intro applied
    revert h_fails
    unfold update_one_secret secret_entry_fails
    cases nm_setting_class_find_property klass key with
    | none => simp
    | some property =>
      rcases property with ⟨_, param_spec, _, _, _, _, _, _⟩
      cases param_spec with
      | none => simp
      | some prop_spec =>
        simp only [Bool.and_eq_true, Bool.not_eq_true', and_imp]
        intro hs hc
        simp [hs, hc]
  unfold _nm_setting_update_secrets
  rw [update_secrets_loop_append klass before _ h_before,
    update_secrets_loop_head_fails klass key value after _ _ h_fails, h_error,
    update_secrets_loop_eq_reference klass h_specs h_wf before setting _ h_before]

/-- Witness for C3: "psk" is assigned, the entry for the non-secret "mtu" is
passed over, then the number for "pin" fails; the setting returned holds the
new "psk" and its old "mtu", and the entry for "key-mgmt" that follows plays no
part. -/
theorem update_secrets_no_rollback_witness :
    (example_class.property_specs.map (fun pspec => pspec.name)).Nodup
      ∧ (∀ property ∈ nm_setting_class_get_properties example_class,
          descriptor_well_formed example_class property = true)
      ∧ (∀ entry ∈ [("psk", GValue.string (some "abc")), ("mtu", GValue.uint 9)],
          secret_entry_fails example_class entry.1 entry.2 = false)
      ∧ secret_entry_fails example_class "pin" (GValue.int 1) = true
      ∧ (apply_secrets_reference example_class
          [("psk", GValue.string (some "abc")), ("mtu", GValue.uint 9)]
          (g_object_new example_class)).values "psk" = GValue.string (some "abc")
      ∧ (apply_secrets_reference example_class
          [("psk", GValue.string (some "abc")), ("mtu", GValue.uint 9)]
          (g_object_new example_class)).values "mtu" = GValue.uint 0
      ∧ (g_object_new example_class).values "psk" = GValue.string none
      ∧ _nm_setting_update_secrets example_class (g_object_new example_class)
          ([("psk", GValue.string (some "abc")), ("mtu", GValue.uint 9)]
            ++ ("pin", GValue.int 1) :: [("key-mgmt", GValue.string (some "wpa-psk"))])
        = (NM_SETTING_UPDATE_SECRET_ERROR,
            apply_secrets_reference example_class
              [("psk", GValue.string (some "abc")), ("mtu", GValue.uint 9)]
              (g_object_new example_class),
            some { domain := NM_SETTING_ERROR,
                   code := if (nm_setting_class_find_property example_class "pin").isNone
                     then NM_SETTING_ERROR_PROPERTY_NOT_FOUND
                     else NM_SETTING_ERROR_PROPERTY_TYPE_MISMATCH,
                   message := "pin" }) :=
  ⟨by decide, by decide, by decide, by decide, by decide, by decide, by decide,
    update_secrets_no_rollback example_class (g_object_new example_class)
      [("psk", GValue.string (some "abc")), ("mtu", GValue.uint 9)]
      [("key-mgmt", GValue.string (some "wpa-psk"))] "pin" (GValue.int 1)
      (by decide) (by decide) (by decide) (by decide)⟩

/-! ## Counterexamples: fixed secrets and the priority of the connection setting -/

/-- C11 (as stated) fails: the secret "token" of `example_construct_class` is
construct-only and `example_constructed_setting` was built with "token" set to
"t". `_nm_setting_clear_secrets` finds that "token" does not hold its default,
the assignment of the default is refused for a construct-only property, and the
call still returns TRUE: afterwards the secret does not hold its default and no
property has changed. -/
theorem clear_secrets_construct_only_kept :
    (example_construct_class.property_specs.map (fun pspec => pspec.name)).Nodup
      ∧ (∀ pspec ∈ example_construct_class.property_specs,
          G_VALUE_TYPE pspec.default_value = pspec.value_type)
      ∧ example_token_spec ∈ example_construct_class.property_specs
      ∧ flag_set example_token_spec.flags NM_SETTING_PARAM_SECRET = true
      ∧ example_token_spec.default_value = GValue.string none
      ∧ example_constructed_setting.values "token" = GValue.string (some "t")
      ∧ (_nm_setting_clear_secrets example_construct_class example_constructed_setting).1 = true
      ∧ (_nm_setting_clear_secrets example_construct_class
          example_constructed_setting).2.values example_token_spec.name
        ≠ example_token_spec.default_value
      ∧ ∀ pspec ∈ example_construct_class.property_specs,
          (_nm_setting_clear_secrets example_construct_class
            example_constructed_setting).2.values pspec.name
          = example_constructed_setting.values pspec.name := by
  decide

/-- C31 (as stated) fails: on `example_constructed_setting`, whose construct-only
secret "token" holds "t", the user function `example_clear_all` is called once,
for "token" with the flags 0, and answers TRUE. The assignment of the default is
refused for a construct-only property, so "token" does not hold its default
afterwards, and the call returns TRUE although no property has changed. -/
theorem clear_secrets_with_flags_construct_only_kept :
    (example_construct_class.property_specs.map (fun pspec => pspec.name)).Nodup
      ∧ example_token_spec ∈ example_construct_class.property_specs
      ∧ flag_set example_token_spec.flags NM_SETTING_PARAM_SECRET = true
      ∧ example_token_spec.default_value = GValue.string none
      ∧ (_nm_setting_clear_secrets_with_flags example_construct_class
          example_constructed_setting (recording_func example_clear_all) ((), [])).2.2.2
        = [("token", 0, true)]
      ∧ (_nm_setting_clear_secrets_with_flags example_construct_class
          example_constructed_setting example_clear_all ()).1 = true
      ∧ (_nm_setting_clear_secrets_with_flags example_construct_class
          example_constructed_setting example_clear_all ()).2.1.values example_token_spec.name
        ≠ example_token_spec.default_value
      ∧ ∀ pspec ∈ example_construct_class.property_specs,
          (_nm_setting_clear_secrets_with_flags example_construct_class
            example_constructed_setting example_clear_all ()).2.1.values pspec.name
          = example_constructed_setting.values pspec.name := by
  decide

/-- C14 (as stated) fails: from the empty tables, `_nm_register_setting` accepts
the connection setting at priority 3. In the registry it leaves, the connection
setting type is registered and does not hold priority 0, and no type holds
priority 0. -/
theorem registry_connection_priority_nonzero :
    _nm_register_setting _ensure_registered NM_SETTING_CONNECTION_SETTING_NAME 2000 3 11
        = (.returned, register_all [(NM_SETTING_CONNECTION_SETTING_NAME, 2000, 3, 11)])
      ∧ g_hash_table_lookup
          (register_all [(NM_SETTING_CONNECTION_SETTING_NAME, 2000, 3, 11)]).registered_settings
          NM_SETTING_CONNECTION_SETTING_NAME
        = some { name := "connection", type := 2000, priority := 3, error_quark := 11 }
      ∧ g_type_hash_table_lookup
          (register_all
            [(NM_SETTING_CONNECTION_SETTING_NAME, 2000, 3, 11)]).registered_settings_by_type
          2000
        = some { name := "connection", type := 2000, priority := 3, error_quark := 11 }
      ∧ (∀ entry ∈
          (register_all [(NM_SETTING_CONNECTION_SETTING_NAME, 2000, 3, 11)]).registered_settings,
          entry.2.priority ≠ 0)
      ∧ ∀ entry ∈
          (register_all
            [(NM_SETTING_CONNECTION_SETTING_NAME, 2000, 3, 11)]).registered_settings_by_type,
          entry.2.priority ≠ 0 := by
  decide

end Libnm
